import Mathlib

/-!
# Better Rolls for 5e: roll resolution and crit classification

A shallow embedding of `scripts/utils.js` (`Utils.processRoll`) and
`scripts/custom-roll.js` (`CustomRoll.rollMultiple`, `CustomItemRoll`),
followed by the properties established about them.

Conventions of the embedding:

* Dice results and roll totals are integers; face counts are naturals.
* A JavaScript value that may be absent (`undefined`/`null`) is an `Option`.
* A function that can throw returns `Option`, or a record `Ran` of the
  instance afterwards and how the call ended.
* The random source (`new Roll(formula, data).roll()`) is a stream
  `Nat → Evaluation`; the caller supplies it, the code only reads it.
-/

namespace BetterRolls

/-! ## Data model -/

/-- One dice term of an evaluated roll (`roll.dice[i]`): its face count and
the values of `d.results[j].result`, in order. -/
structure DiceTerm where
  faces : Nat
  results : List Int
deriving DecidableEq, Repr

/-- What the random source returns for one evaluation of a formula: the
total and the dice terms. -/
structure Evaluation where
  total : Int
  dice : List DiceTerm
deriving DecidableEq, Repr

/-- An evaluated `Roll` object as the module handles it: an evaluation plus
the `ignored` property, which is absent (`false`) until `tagIgnored` sets it. -/
structure Roll where
  total : Int
  dice : List DiceTerm
  ignored : Bool
deriving DecidableEq, Repr

/-- A freshly evaluated roll: `await new Roll(...).roll()`. -/
def Roll.ofEvaluation (e : Evaluation) : Roll :=
  { total := e.total, dice := e.dice, ignored := false }

/-- The truthy values of the `rollState` argument: `"highest"`, `"lowest"`,
or any other non-empty string. A falsy `rollState` (`null`, `undefined`) is
`none : Option RollState`. -/
inductive RollState where
  | highest
  | lowest
  | other
deriving DecidableEq, Repr

/-- The `critType` strings of `processRoll`; JavaScript `null` is `none`. -/
inductive CritType where
  | mixed
  | success
  | failure
deriving DecidableEq, Repr

/-- The `critChecks` argument of `processRoll`: `true`, or an array of face
counts. -/
inductive CritChecks where
  | all
  | faces (l : List Nat)
deriving DecidableEq, Repr

/-- The object returned by `processRoll`. `ignored` is `true` or absent
(`false`). -/
structure RollEntry where
  total : Int
  ignored : Bool
  critType : Option CritType
  isCrit : Bool
deriving DecidableEq, Repr

/-! ## `Utils.processRoll` (utils.js, lines 57-89) -/

/-- The expression `threshold || d.faces`: an absent threshold and the
number 0 are both falsy, so both give the face count of the die. -/
def thresholdOr (threshold : Option Int) (faces : Nat) : Int :=
  match threshold with
  | some t => if t = 0 then (faces : Int) else t
  | none => (faces : Int)

/-- The loose comparison `critChecks == true`. It holds for `true` itself;
an array is first converted to a string and then to a number, so among
arrays of face counts it holds exactly for `[1]` (`"1"` converts to 1). -/
def CritChecks.looseEqTrue : CritChecks → Bool
  | .all => true
  | .faces l => decide (l = [1])

/-- The call `critChecks.includes(d.faces)` on an array. -/
def CritChecks.includes : CritChecks → Nat → Bool
  | .all, _ => false
  | .faces l, f => decide (f ∈ l)

/-- The guard of line 63:
`d.faces > 1 && (critChecks == true || critChecks.includes(d.faces))`. -/
def diceConsidered (critChecks : CritChecks) (d : DiceTerm) : Bool :=
  decide (1 < d.faces) && (critChecks.looseEqTrue || critChecks.includes d.faces)

/-- Body of the inner loop (lines 65-69) for one result, on the pair
`(high, low)`. -/
def countResult (threshold : Option Int) (faces : Nat) (acc : Nat × Nat) (result : Int) :
    Nat × Nat :=
  if thresholdOr threshold faces ≤ result then (acc.1 + 1, acc.2)
  else if result = 1 then (acc.1, acc.2 + 1)
  else acc

/-- Body of the outer loop (lines 62-72) for one dice term. -/
def countDie (threshold : Option Int) (critChecks : CritChecks) (acc : Nat × Nat)
    (d : DiceTerm) : Nat × Nat :=
  if diceConsidered critChecks d then
    d.results.foldl (countResult threshold d.faces) acc
  else acc

/-- The counters `(high, low)` after both loops. -/
def countHighLow (threshold : Option Int) (critChecks : CritChecks) (dice : List DiceTerm) :
    Nat × Nat :=
  dice.foldl (countDie threshold critChecks) (0, 0)

/-- Lines 74-81: the classification from the two counters. -/
def classify (high low : Nat) : Option CritType :=
  if 0 < high ∧ 0 < low then some .mixed
  else if 0 < high then some .success
  else if 0 < low then some .failure
  else none

/-- Lines 60-88 of `processRoll`, for a roll that is present. -/
def rollEntry (r : Roll) (threshold : Option Int) (critChecks : CritChecks) : RollEntry :=
  let hl := countHighLow threshold critChecks r.dice
  { total := r.total
    ignored := r.ignored
    critType := classify hl.1 hl.2
    isCrit := decide (1 < hl.1) }

/-- The function `Utils.processRoll(roll, threshold, critChecks = true)`: `null` for a
falsy roll (line 58), otherwise the entry with the classification. -/
def processRoll (roll : Option Roll) (threshold : Option Int)
    (critChecks : CritChecks := .all) : Option RollEntry :=
  match roll with
  | none => none
  | some r => some (rollEntry r threshold critChecks)

/-! ## `CustomRoll.rollMultiple` (custom-roll.js, lines 31-91) -/

/-- The numeric sort `rollTotals.sort(function(a, b){return a-b})`:
ascending order. -/
def sortNumeric (l : List Int) : List Int :=
  l.insertionSort (· ≤ ·)

/-- The value `chosenResult` computed by `tagIgnored` for a truthy
`rollState` (lines 56-62); `none` stands for `undefined` (empty array). -/
def chosenResult (s : RollState) (rollTotals : List Int) : Option Int :=
  match s with
  | .highest => (sortNumeric rollTotals)[rollTotals.length - 1]?
  | .lowest => (sortNumeric rollTotals)[0]?
  | .other => rollTotals[0]?

/-- The inner function `tagIgnored` (lines 54-68) as a function of the
`rolls` array. -/
def tagIgnored (rollState : Option RollState) (rolls : List Roll) : List Roll :=
  match rollState with
  | none => rolls
  | some s =>
    let chosen := chosenResult s (rolls.map (·.total))
    rolls.map fun r => if some r.total ≠ chosen then { r with ignored := true } else r

/-- The result of `rollMultiple`: `isCrit`, `data.rolls` and the
`rollEntries` handed to the template. -/
structure MultiRoll where
  isCrit : Bool
  rolls : List Roll
  rollEntries : List RollEntry
  rollState : Option RollState
deriving DecidableEq, Repr

/-- Step 1 of `rollMultiple` (lines 37-40): `numRolls` fresh evaluations. -/
def freshRolls (numRolls : Nat) (source : Nat → Evaluation) : List Roll :=
  (List.range numRolls).map fun i => Roll.ofEvaluation (source i)

/-- The function `CustomRoll.rollMultiple(numRolls, dice, parts, data, title,
critThreshold, rollState, triggersCrit, rollType)`. The formula, its data
and the title only reach the random source and the template, so the model
takes the stream `source` of evaluations instead. With `numRolls = 0` the
access `rolls[0].formula` (line 42) throws: `none`. The entries are
`Utils.processRoll(r, critThreshold, [20])` for each (present) roll. The
parameter `triggersCrit` is accepted and never read, as in the source. -/
def rollMultiple (numRolls : Nat) (source : Nat → Evaluation) (critThreshold : Option Int)
    (rollState : Option RollState) (_triggersCrit : Bool := false) : Option MultiRoll :=
  let rolls := freshRolls numRolls source
  match rolls.head? with
  | none => none
  | some _ =>
    let tagged := tagIgnored rollState rolls
    let rollEntries := tagged.map fun r => rollEntry r critThreshold (.faces [20])
    some { isCrit := rollEntries.any fun e => !e.ignored && e.isCrit
           rolls := tagged
           rollEntries := rollEntries
           rollState := rollState }

/-! ## `CustomItemRoll`: data (custom-roll.js, lines 339-372) -/

/-- The values of a `crit` / `forceCrit` override that the code tells apart:
`true`, `false` and the string `"never"`. An absent override is `none`. -/
inductive ForceCrit where
  | yes
  | no
  | never
deriving DecidableEq, Repr

/-- A step count handed to the system's `item._scaleDamage`: a number, or
`NaN` when the level it was computed from is not a number. -/
inductive Steps where
  | nan
  | count (n : Int)
deriving DecidableEq, Repr

/-- One entry of `actor.data.items` as `getCharacterLevel` reads it: the
type and `parseInt(item.data.levels)` (`none` for `NaN`). -/
structure OwnedItem where
  type : String := ""
  levels : Option Int := none
deriving DecidableEq, Repr

/-- The item of a roll, with the data of its actor that the pipeline reads.
Fields hold the values after the conversions the code applies (`Number`,
`parseInt`, truthiness), as documented on each. -/
structure Item where
  -- `item.name`
  name : String := ""
  -- `item.data.type`
  type : String := "weapon"
  -- `itemData.actionType`
  actionType : String := ""
  -- `itemData.damage.parts`: pairs of formula and damage type
  damageParts : List (String × String) := []
  -- `itemData.damage.versatile`
  versatile : String := ""
  -- `itemData.formula` (the Other formula)
  formula : String := ""
  -- `itemData.description.value`
  description : String := ""
  -- `itemData.chatFlavor`
  chatFlavor : String := ""
  -- `itemData.level`
  level : Int := 0
  -- `itemData.scaling.mode`
  scalingMode : String := "none"
  -- `itemData.scaling.formula`
  scalingFormula : String := ""
  -- `Number(flags.betterRolls5e.critRange.value)`, `none` for `NaN`
  critRange : Option Int := none
  -- `flags.betterRolls5e.critDamage.value` when truthy, as `Number(...)`
  critDamage : Option Nat := none
  -- `Number(actor.data.flags.dnd5e.weaponCriticalThreshold)`, `none` for `NaN`
  characterCrit : Option Int := none
  -- `ActorUtils.testElvenAccuracy(itm.actor, abl)` for the ability of lines 879-889
  elvenAccuracy : Bool := false
  -- `rollData.bonuses[actionType].damage` when the guard of line 1095 lets
  -- it apply to the first damage line and it is truthy; `""` otherwise
  damageBonus : String := ""
  -- `item.actor.data.type === "character"`
  actorIsCharacter : Bool := true
  -- `actorData.details.cr`
  actorCr : Rat := 0
  -- `actor.data.items`
  actorItems : List OwnedItem := []
  -- `itemData.uses.value`; 0 also stands for `null`
  usesValue : Nat := 0
  -- `itemData.uses.max`; 0 also stands for an empty or absent maximum
  usesMax : Nat := 0
  -- `itemData.uses.per`; `""` also stands for `null`
  usesPer : String := ""
  -- `itemData.uses.autoDestroy`, as a truth value
  autoDestroy : Bool := false
  -- `itemData.quantity`
  quantity : Nat := 1
  -- `itemData.recharge.charged`, as a truth value
  rechargeCharged : Bool := false
  -- `itemData.consume.target`; `""` when there is none
  consumeTarget : String := ""
  -- `itemData.consume.type`
  consumeType : String := ""
  -- `getProperty(actor, "data.data.spells.pact.level")`; 0 also stands for a
  -- missing or falsy value
  actorPactLevel : Int := 0
  -- the entries of `actor.data.data.spells`: the key (`"spell3"`, `"pact"`)
  -- and `parseInt(entry.value)`, `none` for `NaN`
  actorSpellSlots : List (String × Option Int) := []
deriving DecidableEq, Repr

/-- The object `params.useCharge`: which of the four axes the roll is asked
to consume, each as a truth value. -/
structure UseCharge where
  use : Bool := false
  quantity : Bool := false
  charge : Bool := false
  resource : Bool := false
deriving DecidableEq, Repr

/-- The entries of `this.params` that the pipeline reads. -/
structure Params where
  -- `params.forceCrit`, as a truth value
  forceCrit : Bool := false
  -- `params.versatile`, as a truth value
  versatile : Bool := false
  -- `params.critBehavior`; `""` when unset
  critBehavior : String := ""
  -- `params.slotLevel`; `none` for `null`
  slotLevel : Option Int := none
  -- `params.slotLevel` when it is a non-empty string that is no numeral
  -- (`"pact"`, `"error"`); `slotLevel` is then `none`
  slotLevelText : Option String := none
  -- `params.adv` after `checkEvent`
  adv : Int := 0
  -- `params.disadv` after `checkEvent`
  disadv : Int := 0
  -- `params.useCharge`
  useCharge : UseCharge := {}
deriving DecidableEq, Repr

/-- The argument object of an `attack` field; `none` is an absent key, for
which `mergeObject` keeps the default of lines 838-844. -/
structure AttackArgs where
  adv : Option Int := none
  disadv : Option Int := none
  bonus : Option String := none
  triggersCrit : Option Bool := none
  critThreshold : Option Int := none
deriving DecidableEq, Repr

/-- The argument object of a `check` / `tool` / `toolcheck` field; `none` is
an absent key (defaults of line 1252). `rollState` present and `null` is
`some none`. -/
structure CheckArgs where
  bonus : Option String := none
  triggersCrit : Option Bool := none
  critThreshold : Option Int := none
  rollState : Option (Option RollState) := none
deriving DecidableEq, Repr

/-- The `index` of a damage field: `"all"`, an integer, or an array. -/
inductive IndexSelector where
  | all
  | single (i : Nat)
  | list (l : List Nat)
deriving DecidableEq, Repr

/-- The argument object of a `damage` field; `none` is an absent key. -/
structure DamageRequest where
  index : Option IndexSelector := none
  versatile : Option Bool := none
  crit : Option ForceCrit := none
  context : Option String := none
deriving DecidableEq, Repr

/-- The argument object of a `custom` field. `rolls` absent is `none`;
`rollState` is the key looked up in `rollStates` (`none` for `null`). -/
structure CustomArgs where
  rolls : Option Nat := none
  rollState : Option String := none
deriving DecidableEq, Repr

/-- A requested field `[fieldType, args]`, by the branch of the `switch` of
`fieldToTemplate` that its lower-cased type selects. -/
inductive Field where
  | attack (args : AttackArgs)
  | check (args : CheckArgs)
  -- `none`: the field has no argument object
  | damage (args : Option DamageRequest)
  -- whether `args.abl` and `args.dc` are truthy
  | savedc (abl dc : Bool)
  | other
  -- `none`: the field has no argument object
  | custom (args : Option CustomArgs)
  | desc
  -- `none`: the field has no argument object; otherwise `args.text`
  | text (args : Option String)
  -- `args.text`, when given
  | flavor (text : Option String)
  | crit
  -- any type without a `case`
  | unknown
deriving DecidableEq, Repr

/-- The object passed to `rollDamage`; `none` is an absent (or `undefined`)
property, replaced by the default of line 986. -/
structure DamageCall where
  damageIndex : Nat := 0
  forceVersatile : Option Bool := none
  forceCrit : Option ForceCrit := none
  customContext : Option String := none
deriving DecidableEq, Repr

/-- One invocation of `rollDamage`, as recorded for the properties: the
item it ran on (`this.item` at the call) and its argument. -/
structure DamageInvocation where
  item : Item
  call : DamageCall
deriving DecidableEq, Repr

/-- An entry of `this.templates`. -/
inductive Template where
  | attack (out : MultiRoll)
  | check (out : MultiRoll)
  | custom (out : MultiRoll)
  -- the output of `damageTemplate`: rolled formula, base roll, crit roll
  | damage (formula : String) (base : Roll) (crit : Option Roll)
  -- `rollDamage` returned `null` (empty formula)
  | null
  -- `rollCritExtra` returned `undefined` (no extra damage line)
  | undefined
  | saveDC
  | other (base : Roll) (crit : Option Roll)
  | text (text : String)
  | flavor (text : String)
deriving DecidableEq, Repr

/-- The composite content of a roll: what `roll()` hands to the template
`red-fullroll.html` (lines 475-484), as far as it comes from the pipeline. -/
structure Content where
  isCritical : Bool
  templates : List Template
deriving DecidableEq, Repr

/-- The fields of a `CustomItemRoll` instance that the pipeline reads and
writes. `drawn` counts the evaluations taken from the random source so far;
`damageCalls` records the invocations of `rollDamage`, in order. -/
structure RollRun where
  item : Item
  ammo : Option Item := none
  params : Params := {}
  fields : List Field := []
  rollState : Option RollState := none
  isCrit : Bool := false
  hasAttack : Bool := false
  hasDamage : Bool := false
  templates : List Template := []
  dicePool : List Roll := []
  drawn : Nat := 0
  damageCalls : List DamageInvocation := []
  -- `this.rolled`
  rolled : Bool := false
  -- `this.content`; `none` until `roll()` renders it
  content : Option Content := none
deriving DecidableEq, Repr

/-- The entry `level` of the form that the system's ability-use dialog
returns: the string `"pact"` or the numeral of a spell level. -/
inductive DialogLevel where
  | pact
  | level (n : Int)
deriving DecidableEq, Repr

/-- The form data that `AbilityUseDialog.create(item)` resolves with, as
`configureSpell` reads it (lines 1330-1333). -/
structure SpellForm where
  level : DialogLevel
  consumeSlot : Bool
  placeTemplate : Bool
deriving DecidableEq, Repr

/-- What the pipeline takes from outside the two modules: the random source,
the settings of `updateConfig`, the system's scaling routine, the crit roll
built by `ItemUtils.getCritRoll`, and the global bindings that `rollTool`
refers to by bare name. -/
structure Env where
  -- the `k`-th evaluation produced by `new Roll(...).roll()` in the run
  source : Nat → Evaluation
  -- the setting `d20Mode`
  d20Mode : Nat
  -- the setting `critBehavior`
  critBehavior : String
  -- `item._scaleDamage(parts, scaling, times, rollData)` of the system
  systemScaleDamage : List String → String → Steps → String
  -- `ItemUtils.getCritRoll(item, baseFormula, baseTotal, critBehavior)` for
  -- the rolled formula and its evaluation; `none` for `null`
  getCritRoll : Item → String → Evaluation → String → Option Evaluation
  -- the Components module's html for the item, `""` when inactive
  componentHtml : Item → String
  -- whether a global `actor` is bound (line 1292 reads it)
  globalActor : Bool := false
  -- the truth value of a global `triggersCrit` (line 1296), `none` when unbound
  globalTriggersCrit : Option Bool := none
  -- whether a global `bonus` is bound (line 1288)
  globalBonus : Bool := false
  -- whether `item._handleResourceConsumption({isCard: true, isAttack: true})`
  -- of the system returns something other than `false`; it consumes the
  -- linked resource itself
  handleResourceConsumption : Item → Bool
  -- `game.dnd5e.applications.AbilityUseDialog.create(item)`: the form data,
  -- or `none` when the dialog throws (it is closed)
  abilityUseDialog : Item → Option SpellForm
  -- `this.actor.items.get(id)` for the actor of the item; `none` when the
  -- actor owns no item of that id
  actorItem : Item → String → Option Item

/-- How a call ended: it returned a value, it threw, or the model's
recursion budget ran out. -/
inductive Completion (α : Type) where
  | returned (value : α)
  | threw
  | outOfFuel
deriving DecidableEq, Repr

/-- The instance after a call, and how the call ended. -/
structure Ran (α : Type) where
  run : RollRun
  result : Completion α

/-! ## `ActorUtils.getCharacterLevel` (utils.js, lines 93-105) -/

/-- The JavaScript values that a level can be: a number, an object, or a
string. -/
inductive LevelValue where
  | number (q : Rat)
  | object
  | string (s : String)
deriving DecidableEq, Repr

/-- The statement `runningTotal += classLevels` for a numeric right-hand
side: numbers add; an object is first converted to `"[object Object]"` and
a string is extended by the decimal digits. -/
def LevelValue.plus (v : LevelValue) (n : Int) : LevelValue :=
  match v with
  | .number q => .number (q + n)
  | .object => .string ("[object Object]" ++ toString n)
  | .string s => .string (s ++ toString n)

/-- The expression `parseInt(item.data.levels) || 1`. -/
def classLevels (item : OwnedItem) : Int :=
  match item.levels with
  | some l => if l = 0 then 1 else l
  | none => 1

/-- The function `ActorUtils.getCharacterLevel(actor)`, on `actor.data.items`.
The `reduce` has no initial value: on an empty array it throws (`none`);
otherwise the accumulator starts as the first element, an object, and the
callback runs on the remaining elements only. -/
def getCharacterLevel (items : List OwnedItem) : Option LevelValue :=
  match items with
  | [] => none
  | _ :: rest =>
    some (rest.foldl (fun runningTotal item =>
      if item.type = "class" then runningTotal.plus (classLevels item) else runningTotal)
      .object)

/-! ## `CustomItemRoll`: methods -/

/-- The constructor (lines 354-372) followed by `setRollState` (lines
408-416), for `params` as they are after `checkEvent`. -/
def RollRun.create (item : Item) (params : Params) (fields : List Field) : RollRun :=
  { item := item
    params := params
    fields := fields
    isCrit := params.forceCrit
    rollState :=
      if 0 < params.adv ∨ 0 < params.disadv then
        if params.disadv < params.adv then some .highest
        else if params.adv < params.disadv then some .lowest
        else none
      else none }

/-- The function `CustomRoll.getRollState({adv, disadv})` (lines 93-100);
with equal positive values no branch returns, which gives `undefined`. -/
def getRollState (adv disadv : Int) : Option RollState :=
  if 0 < adv ∨ 0 < disadv then
    if disadv < adv then some .highest
    else if adv < disadv then some .lowest
    else none
  else none

/-- The expression `Number(x) || 20` of lines 860 and 863. -/
def numberOr20 (x : Option Int) : Int :=
  match x with
  | some v => if v = 0 then 20 else v
  | none => 20

/-- The crit threshold of `rollAttack` (lines 858-876). -/
def attackCritThreshold (itm : Item) (argThreshold : Option Int) : Int :=
  let characterCrit := numberOr20 itm.characterCrit
  let itemCrit := numberOr20 itm.critRange
  match argThreshold with
  | some t =>
    if t ≠ 0 then t
    else if itm.actionType = "mwak" ∨ itm.actionType = "rwak" then
      min (min 20 characterCrit) itemCrit
    else min 20 itemCrit
  | none =>
    if itm.actionType = "mwak" ∨ itm.actionType = "rwak" then
      min (min 20 characterCrit) itemCrit
    else min 20 itemCrit

/-- The number of rolls of `rollAttack` (lines 934-938). -/
def attackNumRolls (env : Env) (itm : Item) (rollState : Option RollState) : Nat :=
  let numRolls := if rollState.isSome then 2 else env.d20Mode
  if numRolls = 2 ∧ itm.elvenAccuracy = true ∧ rollState ≠ some .lowest then 3 else numRolls

/-- The method `rollAttack(preArgs)` (lines 837-950). The value of
`args.triggersCrit` is passed on to `rollMultiple` and not read again. -/
def rollAttack (env : Env) (run : RollRun) (preArgs : AttackArgs) : Ran MultiRoll :=
  let adv := preArgs.adv.getD run.params.adv
  let disadv := preArgs.disadv.getD run.params.disadv
  let triggersCrit := preArgs.triggersCrit.getD true
  let itm := run.item
  let run1 := { run with hasAttack := true }
  let critThreshold := attackCritThreshold itm preArgs.critThreshold
  let rollState := getRollState adv disadv
  let numRolls := attackNumRolls env itm rollState
  match rollMultiple numRolls (fun i => env.source (run.drawn + i)) (some critThreshold)
      rollState triggersCrit with
  | none => { run := run1, result := .threw }
  | some output =>
    let run2 := { run1 with drawn := run.drawn + numRolls }
    let run3 := if output.isCrit then { run2 with isCrit := true } else run2
    { run := { run3 with dicePool := run3.dicePool ++ output.rolls }
      result := .returned output }

/-- The method `rollTool(preArgs)` (lines 1251-1303). The bare names
`bonus` (line 1288), `actor` (line 1292) and `triggersCrit` (line 1296) are
not declared in the method or the module: reading one that is not bound
globally throws a `ReferenceError`. -/
def rollTool (env : Env) (run : RollRun) (preArgs : CheckArgs) : Ran MultiRoll :=
  let triggersCrit := preArgs.triggersCrit.getD true
  let rollState := preArgs.rollState.getD run.rollState
  let bonusTruthy := match preArgs.bonus with
    | some b => decide (b ≠ "")
    | none => false
  if bonusTruthy && !env.globalBonus then { run := run, result := .threw }
  else if !env.globalActor then { run := run, result := .threw }
  else
    match rollMultiple env.d20Mode (fun i => env.source (run.drawn + i)) preArgs.critThreshold
        rollState triggersCrit with
    | none => { run := run, result := .threw }
    | some output =>
      let run1 := { run with drawn := run.drawn + env.d20Mode }
      if output.isCrit then
        match env.globalTriggersCrit with
        | none => { run := run1, result := .threw }
        | some g =>
          let run2 := if g then { run1 with isCrit := true } else run1
          { run := { run2 with dicePool := run2.dicePool ++ output.rolls }
            result := .returned output }
      else
        { run := { run1 with dicePool := run1.dicePool ++ output.rolls }
          result := .returned output }

/-- The step count of the cantrip branch, `Math.floor((level + 1) / 6)`:
adding 1 to an object or a string gives a string that is no numeral, so the
division gives `NaN`. -/
def cantripSteps (level : LevelValue) : Steps :=
  match level with
  | .number q => .count (Rat.floor ((q + 1) / 6))
  | .object => .nan
  | .string _ => .nan

/-- The method `scaleDamage(damageIndex, versatile, rollData)` (lines
1124-1161). The outer `none` is a throw (from `getCharacterLevel`); the
inner `none` is the `null` of line 1160. A missing `parts[damageIndex]`
reads as `""`; `rollDamage` only calls with an index that exists. With
`versatile` the source calls `item._scaleDamage` twice and keeps the second
result; the calls themselves are listed by `scaleDamageCalls`. -/
def scaleDamage (env : Env) (run : RollRun) (damageIndex : Nat) (versatile : Bool) :
    Option (Option String) :=
  let item := run.item
  let formula := ((item.damageParts[damageIndex]?).map (·.1)).getD ""
  let scale := if item.scalingFormula ≠ "" then item.scalingFormula else formula
  let spellLevelTruthy := run.params.slotLevelText.isSome || match run.params.slotLevel with
    | some l => decide (l ≠ 0)
    | none => false
  if item.type = "spell" ∧ item.scalingMode = "cantrip" then
    let level : Option LevelValue :=
      if item.actorIsCharacter then getCharacterLevel item.actorItems
      else some (.number item.actorCr)
    match level with
    | none => none
    | some level =>
      let add := cantripSteps level
      if add = .count 0 then some (some formula)
      else if versatile then
        some (some (env.systemScaleDamage [item.versatile] item.versatile add))
      else some (some (env.systemScaleDamage [formula] scale add))
  else if item.type = "spell" ∧ item.scalingMode = "level" ∧ spellLevelTruthy = true then
    -- for a string that is no numeral the difference is `NaN`, and `NaN > 0` is false
    if run.params.slotLevelText.isSome then some (some formula)
    else
      let add := (run.params.slotLevel.getD 0) - item.level
      if 0 < add then
        if versatile then
          some (some (env.systemScaleDamage [item.versatile] item.versatile (.count add)))
        else some (some (env.systemScaleDamage [formula] scale (.count add)))
      else some (some formula)
  else some none

/-- The crit behaviour in force (lines 1112 and 1217):
`this.params.critBehavior ? this.params.critBehavior : this.config.critBehavior`. -/
def critBehaviorOf (env : Env) (run : RollRun) : String :=
  if run.params.critBehavior ≠ "" then run.params.critBehavior else env.critBehavior

/-- The guard of line 1114, for the `forceCrit` in force:
`(forceCrit == true || (this.isCrit && forceCrit !== "never")) && critBehavior !== "0"`. -/
def wantsCritRoll (env : Env) (run : RollRun) (forceCrit : ForceCrit) : Bool :=
  (decide (forceCrit = .yes) || (run.isCrit && decide (forceCrit ≠ .never))) &&
    decide (critBehaviorOf env run ≠ "0")

/-- Lines 1004-1010 of `rollDamage`: the formula chosen for the damage line
`part`, and whether it is the versatile one. -/
def selectDamageFormula (run : RollRun) (call : DamageCall) (part : String × String) :
    String × Bool :=
  let isVersatile :=
    ((run.params.versatile && decide (call.damageIndex = 0)) || call.forceVersatile.getD false) &&
      decide (0 < run.item.versatile.length)
  (if isVersatile then run.item.versatile else part.1, isVersatile)

/-- Line 1092 of `rollDamage`:
`if (damageIndex === 0) { damageFormula = this.scaleDamage(...) || damageFormula; }`;
`none` when `scaleDamage` throws. -/
def applyScaling (env : Env) (run : RollRun) (call : DamageCall) (isVersatile : Bool)
    (damageFormula : String) : Option String :=
  if call.damageIndex = 0 then
    match scaleDamage env run call.damageIndex isVersatile with
    | none => none
    | some (some f) => if f ≠ "" then some f else some damageFormula
    | some none => some damageFormula
  else some damageFormula

/-- Lines 1094-1121 of `rollDamage`: the base roll of the formula and, when
wanted, the crit roll. The `null` that `getCritRoll` gives for a formula
without dice is handed to `this.dicePool.push`, which throws on it. -/
def rollDamageFormula (env : Env) (run : RollRun) (call : DamageCall) (damageFormula : String) :
    Ran Template :=
  let bonusAdd :=
    if call.damageIndex = 0 ∧ run.item.damageBonus ≠ "" then "+" ++ run.item.damageBonus else ""
  let rollFormula := damageFormula ++ bonusAdd
  let baseEvaluation := env.source run.drawn
  let baseRoll := Roll.ofEvaluation baseEvaluation
  let run2 := { run with drawn := run.drawn + 1, dicePool := run.dicePool ++ [baseRoll] }
  if wantsCritRoll env run (call.forceCrit.getD .no) then
    match env.getCritRoll run.item rollFormula baseEvaluation (critBehaviorOf env run) with
    | none => { run := run2, result := .threw }
    | some critEvaluation =>
      let critRoll := Roll.ofEvaluation critEvaluation
      { run := { run2 with dicePool := run2.dicePool ++ [critRoll] }
        result := .returned (.damage rollFormula baseRoll (some critRoll)) }
  else { run := run2, result := .returned (.damage rollFormula baseRoll none) }

/-- The method `rollDamage(...)` (lines 986-1122), without the labels, which
only reach the template. It throws when `parts[damageIndex]` is missing
(line 993), when `scaleDamage` throws, and when a crit roll is wanted but
`getCritRoll` gives `null`. Every invocation is recorded in `damageCalls`. -/
def rollDamage (env : Env) (run : RollRun) (call : DamageCall) : Ran Template :=
  let run0 := { run with damageCalls := run.damageCalls ++ [{ item := run.item, call := call }] }
  match run.item.damageParts[call.damageIndex]? with
  | none => { run := run0, result := .threw }
  | some part =>
    let run1 := { run0 with hasDamage := true }
    let selected := selectDamageFormula run call part
    if selected.1 = "" then { run := run1, result := .returned .null }
    else
      match applyScaling env run1 call selected.2 selected.1 with
      | none => { run := run1, result := .threw }
      | some damageFormula => rollDamageFormula env run1 call damageFormula

/-- The method `rollCritExtra(index)` called without an index (lines
1163-1169): the extra damage line of the item, rolled with
`forceCrit: "never"`, or `undefined` when the item has none. -/
def rollCritExtra (env : Env) (run : RollRun) : Ran Template :=
  match run.item.critDamage with
  | some damageIndex =>
    rollDamage env run { damageIndex := damageIndex, forceCrit := some .never }
  | none => { run := run, result := .returned .undefined }

/-- The method `rollOther()` (lines 1174-1225), without the labels. -/
def rollOther (env : Env) (run : RollRun) : Ran Template :=
  let baseEvaluation := env.source run.drawn
  let baseRoll := Roll.ofEvaluation baseEvaluation
  let run1 := { run with drawn := run.drawn + 1, dicePool := run.dicePool ++ [baseRoll] }
  if run.isCrit && decide (critBehaviorOf env run ≠ "0") then
    match env.getCritRoll run.item run.item.formula baseEvaluation (critBehaviorOf env run) with
    | none => { run := run1, result := .threw }
    | some critEvaluation =>
      let critRoll := Roll.ofEvaluation critEvaluation
      { run := { run1 with dicePool := run1.dicePool ++ [critRoll] }
        result := .returned (.other baseRoll (some critRoll)) }
  else { run := run1, result := .returned (.other baseRoll none) }

/-- The method `saveRollButton({customAbl, customDC})` (lines 1229-1249):
a truthy argument makes it read the undeclared `saveArgs`, which throws. -/
def saveRollButton (run : RollRun) (customAbl customDC : Bool) : Ran Template :=
  if customAbl || customDC then { run := run, result := .threw }
  else { run := run, result := .returned .saveDC }

/-- The lookup `rollStates[fieldArgs[0].rollState]` of lines 582-593. -/
def customRollState (key : Option String) : Option RollState :=
  match key with
  | some "adv" => some .highest
  | some "disadv" => some .lowest
  | _ => none

/-- The `for` loop of lines 547-555 from position `i` on, over the
remaining entries `index[i], index[i+1], ...`; `isAll` is
`oldIndex === "all"`. It stops at the first `rollDamage` that throws. -/
def damageLoop (env : Env) (isAll : Bool) (versatile : Option Bool) (crit : Option ForceCrit)
    (context : Option String) : List Nat → Nat → RollRun → Ran Unit
  | [], _, run => { run := run, result := .returned () }
  | damageIndex :: rest, i, run =>
    let ran := rollDamage env run
      { damageIndex := damageIndex
        forceVersatile := if i = 0 ∨ isAll = false then versatile else some false
        forceCrit := crit
        customContext := context }
    match ran.result with
    | .returned template =>
      damageLoop env isAll versatile crit context rest (i + 1)
        { ran.run with templates := ran.run.templates ++ [template] }
    | .threw => { run := ran.run, result := .threw }
    | .outOfFuel => { run := ran.run, result := .outOfFuel }

/-- Lines 536-546: the array of indices that the loop walks; `none` when
`index` is `undefined`, on which `index.length` throws. -/
def indexArray (item : Item) (index : Option IndexSelector) : Option (List Nat) :=
  match index with
  | some .all => some (List.range item.damageParts.length)
  | some (.single i) => some [i]
  | some (.list l) => some l
  | none => none

/-- Appends a template to `this.templates` when the call returned one. -/
def pushTemplate (ran : Ran Template) : Ran Bool :=
  match ran.result with
  | .returned template =>
    { run := { ran.run with templates := ran.run.templates ++ [template] }
      result := .returned true }
  | .threw => { run := ran.run, result := .threw }
  | .outOfFuel => { run := ran.run, result := .outOfFuel }

/-- The method `fieldToTemplate(field)` (lines 511-622), with a budget for
its recursion: the `damage` branch calls the method again for the ammo
item. -/
def fieldToTemplateFuel (env : Env) : Nat → RollRun → Field → Ran Bool
  | 0, run, _ => { run := run, result := .outOfFuel }
  | fuel + 1, run, field =>
    let item := run.item
    match field with
    | .attack args =>
      let ran := rollAttack env run args
      pushTemplate { run := ran.run, result :=
        match ran.result with
        | .returned out => .returned (.attack out)
        | .threw => .threw
        | .outOfFuel => .outOfFuel }
    | .check args =>
      let ran := rollTool env run args
      pushTemplate { run := ran.run, result :=
        match ran.result with
        | .returned out => .returned (.check out)
        | .threw => .threw
        | .outOfFuel => .outOfFuel }
    | .damage args =>
      let request := args.getD {}
      match indexArray run.item request.index with
      | none => { run := run, result := .threw }
      | some index =>
        let looped := damageLoop env (decide (request.index = some .all)) request.versatile
          request.crit request.context index 0 run
        match looped.result with
        | .returned _ =>
          match looped.run.ammo with
          | some ammo =>
            let swapped := { looped.run with item := ammo, ammo := none }
            let inner := fieldToTemplateFuel env fuel swapped
              (.damage (some { index := some .all
                               versatile := some false
                               crit := request.crit
                               context := some ("[" ++ ammo.name ++ "]") }))
            match inner.result with
            | .returned _ => { run := { inner.run with item := item }, result := .returned true }
            | .threw => { run := inner.run, result := .threw }
            | .outOfFuel => { run := inner.run, result := .outOfFuel }
          | none => { run := looped.run, result := .returned true }
        | .threw => { run := looped.run, result := .threw }
        | .outOfFuel => { run := looped.run, result := .outOfFuel }
    | .savedc abl dc => pushTemplate (saveRollButton run abl dc)
    | .other =>
      if item.formula ≠ "" then pushTemplate (rollOther env run)
      else { run := run, result := .returned true }
    | .custom args =>
      let custom := args.getD { rolls := some 1, rollState := none }
      let numRolls := custom.rolls.getD 1
      match rollMultiple numRolls (fun i => env.source (run.drawn + i)) none
          (customRollState custom.rollState) false with
      | none => { run := run, result := .threw }
      | some output =>
        { run := { run with drawn := run.drawn + numRolls
                            dicePool := run.dicePool ++ output.rolls
                            templates := run.templates ++ [.custom output] }
          result := .returned true }
    | .desc =>
      let text := env.componentHtml item ++ item.description
      if text ≠ "" then
        { run := { run with templates := run.templates ++ [.text text] }, result := .returned true }
      else { run := run, result := .returned true }
    | .text args =>
      match args with
      | none => { run := run, result := .threw }
      | some text =>
        if text ≠ "" then
          { run := { run with templates := run.templates ++ [.text text] }
            result := .returned true }
        else { run := run, result := .returned true }
    | .flavor text =>
      { run := { run with templates := run.templates ++ [.flavor (text.getD item.chatFlavor)] }
        result := .returned true }
    | .crit => pushTemplate (rollCritExtra env run)
    | .unknown => { run := run, result := .returned true }

/-- The method `fieldToTemplate(field)`. The recursion of the source is at
most two calls deep (the inner call runs with `this.ammo` deleted), and the
budget given here is never used up: see `fieldToTemplate_fuel`. -/
def fieldToTemplate (env : Env) (run : RollRun) (field : Field) : Ran Bool :=
  fieldToTemplateFuel env 2 run field

/-- The loop of `allFieldsToTemplates` (lines 627-629) over the remaining
fields; it stops at the first field whose processing throws. -/
def fieldsLoop (env : Env) : List Field → RollRun → Ran Bool
  | [], run => { run := run, result := .returned true }
  | field :: rest, run =>
    let ran := fieldToTemplate env run field
    match ran.result with
    | .returned _ => fieldsLoop env rest ran.run
    | .threw => { run := ran.run, result := .threw }
    | .outOfFuel => { run := ran.run, result := .outOfFuel }

/-- The method `allFieldsToTemplates()` (lines 624-637): every requested
field in order, then the extra crit damage when the roll is a crit, has
rolled damage and the item names an extra damage line. A throw leaves the
promise unresolved (`threw`). -/
def allFieldsToTemplates (env : Env) (run : RollRun) : Ran Bool :=
  let ran := fieldsLoop env run.fields run
  match ran.result with
  | .returned _ =>
    if ran.run.isCrit && ran.run.hasDamage && ran.run.item.critDamage.isSome then
      fieldToTemplate env ran.run .crit
    else ran
  | .threw => ran
  | .outOfFuel => ran

/-! ## `CustomItemRoll.consumeCharge` (custom-roll.js, lines 1382-1465) -/

/-- The strings `consumeCharge` returns. -/
inductive ChargeOutput where
  | success
  | destroy
  | error
deriving DecidableEq, Repr

/-- The object `updates` handed to `item.update`; `none` is an absent key. -/
structure ItemUpdate where
  -- the key `"data.uses.value"`
  usesValue : Option Int := none
  -- the key `"data.quantity"`
  quantity : Option Int := none
  -- the key `"data.recharge.charged"`
  rechargeCharged : Option Bool := none
deriving DecidableEq, Repr

/-- What a call of `consumeCharge` did: the string it returned, the argument
of its call of `item.update` (`none` when `item.update` was not called), and
whether it called `item._handleResourceConsumption`. -/
structure Consumed where
  output : ChargeOutput
  update : Option ItemUpdate
  resourceConsulted : Bool
deriving DecidableEq, Repr

/-- Line 1386: `!!(itemData.uses.value || itemData.uses.max || itemData.uses.per)`. -/
def hasUses (item : Item) : Bool :=
  decide (item.usesValue ≠ 0) || decide (item.usesMax ≠ 0) || decide (item.usesPer ≠ "")

/-- Line 1387: `!!(itemData.consume?.target)`. -/
def hasResource (item : Item) : Bool :=
  decide (item.consumeTarget ≠ "")

/-- Line 1394: `request.use ? Math.max(current - 1, 0) : current`. -/
def remainingUses (item : Item) (request : UseCharge) : Int :=
  if request.use then max ((item.usesValue : Int) - 1) 0 else (item.usesValue : Int)

/-- Lines 1399-1402 of `consumeCharge`: the check for consuming uses but
not quantity returns `"error"`. -/
def usesCheckFails (item : Item) (request : UseCharge) : Bool :=
  hasUses item && request.use && !request.quantity && decide (item.usesValue = 0)

/-- Lines 1404-1407 of `consumeCharge`: the check for consuming quantity but
not uses returns `"error"`. -/
def quantityCheckFails (item : Item) (request : UseCharge) : Bool :=
  request.quantity && !request.use && decide (item.quantity = 0)

/-- Lines 1409-1412 of `consumeCharge`: the check for consuming quantity and
uses returns `"error"`. -/
def usesAndQuantityCheckFails (item : Item) (request : UseCharge) : Bool :=
  hasUses item && request.use && request.quantity &&
    decide (item.usesValue = 0) && decide (item.quantity ≤ 1)

/-- Lines 1414-1417 of `consumeCharge`: the check for consuming the charge
("Action Recharge") returns `"error"`. -/
def rechargeCheckFails (item : Item) (request : UseCharge) : Bool :=
  request.charge && !item.rechargeCharged

/-- Lines 1426-1455 of `consumeCharge`: the returned string and the updates
of uses and quantity. -/
def chargeUpdates (item : Item) (request : UseCharge) : ChargeOutput × ItemUpdate :=
  let remaining := remainingUses item request
  let q : Int := item.quantity
  if hasUses item && request.use && !request.quantity then
    (.success, { usesValue := some remaining })
  else if request.quantity && !request.use then
    (if decide (q ≤ 1) && item.autoDestroy then .destroy else .success,
      { quantity := some (q - 1) })
  else if hasUses item && request.use && request.quantity then
    if remaining < 1 then
      let remainingQ := q - 1
      let remainingU : Int := if 1 ≤ remainingQ then (item.usesMax : Int) else 0
      (if decide (remainingQ < 1) && item.autoDestroy then .destroy else .success,
        { quantity := some (max remainingQ 0), usesValue := some (max remainingU 0) })
    else (.success, { quantity := some (max q 0), usesValue := some (max remaining 0) })
  else (.success, {})

/-- Lines 1457-1462 of `consumeCharge`: the charge update is added to the
updates and `item.update(updates)` is called. -/
def commitUpdates (request : UseCharge) (updates : ChargeOutput × ItemUpdate)
    (resourceConsulted : Bool) : Consumed :=
  { output := updates.1
    update := some (if request.charge then { updates.2 with rechargeCharged := some false }
                    else updates.2)
    resourceConsulted := resourceConsulted }

/-- The method `consumeCharge()` (lines 1382-1465), on `this.item` and
`this.params.useCharge`. The four checks run in the order of the source and
each returns `"error"` at once; the system's `_handleResourceConsumption` is
called after them, when the item names a resource and the request asks for
it (lines 1419-1424); `item.update(updates)` is called on every path that
does not return `"error"`. -/
def consumeCharge (env : Env) (run : RollRun) : Consumed :=
  let item := run.item
  let request := run.params.useCharge
  if usesCheckFails item request then
    { output := .error, update := none, resourceConsulted := false }
  else if quantityCheckFails item request then
    { output := .error, update := none, resourceConsulted := false }
  else if usesAndQuantityCheckFails item request then
    { output := .error, update := none, resourceConsulted := false }
  else if rechargeCheckFails item request then
    { output := .error, update := none, resourceConsulted := false }
  else if hasResource item && request.resource then
    if env.handleResourceConsumption item then
      commitUpdates request (chargeUpdates item request) true
    else { output := .error, update := none, resourceConsulted := true }
  else commitUpdates request (chargeUpdates item request) false

/-! ## `CustomItemRoll.scaleDamage`: the calls of the system's scaling routine -/

/-- One call `item._scaleDamage(parts, scaling, times, rollData)`. -/
structure ScaleCall where
  parts : List String
  scaling : String
  times : Steps
deriving DecidableEq, Repr

/-- The calls of `item._scaleDamage` that `scaleDamage(damageIndex,
versatile, rollData)` makes (lines 1124-1161), in order; `none` when it
throws. In both branches the routine is called for the line's formula and,
with `versatile`, once more for the versatile formula. -/
def scaleDamageCalls (run : RollRun) (damageIndex : Nat) (versatile : Bool) :
    Option (List ScaleCall) :=
  let item := run.item
  let formula := ((item.damageParts[damageIndex]?).map (·.1)).getD ""
  let scale := if item.scalingFormula ≠ "" then item.scalingFormula else formula
  let spellLevelTruthy := run.params.slotLevelText.isSome || match run.params.slotLevel with
    | some l => decide (l ≠ 0)
    | none => false
  let calls (add : Steps) : List ScaleCall :=
    { parts := [formula], scaling := scale, times := add } ::
      (if versatile then [{ parts := [item.versatile], scaling := item.versatile, times := add }]
       else [])
  if item.type = "spell" ∧ item.scalingMode = "cantrip" then
    let level : Option LevelValue :=
      if item.actorIsCharacter then getCharacterLevel item.actorItems
      else some (.number item.actorCr)
    match level with
    | none => none
    | some level =>
      let add := cantripSteps level
      if add = .count 0 then some [] else some (calls add)
  else if item.type = "spell" ∧ item.scalingMode = "level" ∧ spellLevelTruthy = true then
    if run.params.slotLevelText.isSome then some []
    else
      let add := (run.params.slotLevel.getD 0) - item.level
      if 0 < add then some (calls (.count add)) else some []
  else some []

/-- The calls of `item._scaleDamage` made during `rollDamage(...)`: those of
`scaleDamage`, which line 1092 calls for `damageIndex === 0` only, after the
line was found and a non-empty formula selected; `none` when `scaleDamage`
throws. -/
def rollDamageScaleCalls (run : RollRun) (call : DamageCall) : Option (List ScaleCall) :=
  match run.item.damageParts[call.damageIndex]? with
  | none => some []
  | some part =>
    let selected := selectDamageFormula run call part
    if selected.1 = "" then some []
    else if call.damageIndex = 0 then scaleDamageCalls run call.damageIndex selected.2
    else some []

/-! ## `ItemUtils.getCritRoll`: the crit formula (utils.js, line 252) -/

/-- The class `[+-]` of the pattern. -/
def isSignChar (c : Char) : Bool :=
  c = '+' || c = '-'

/-- The class `\s` of a JavaScript regular expression. -/
def isSpaceChar (c : Char) : Bool :=
  decide (c.toNat ∈ [9, 10, 11, 12, 13, 32, 160, 5760, 8232, 8233, 8239, 8287, 12288, 65279]) ||
    (decide (8192 ≤ c.toNat) && decide (c.toNat ≤ 8202))

/-- The class `[0-9]` of the pattern. -/
def isDigitChar (c : Char) : Bool :=
  decide ('0'.toNat ≤ c.toNat) && decide (c.toNat ≤ '9'.toNat)

/-- The class `[a-zA-Z0-9.]` of the pattern. -/
def isNameChar (c : Char) : Bool :=
  (decide ('a'.toNat ≤ c.toNat) && decide (c.toNat ≤ 'z'.toNat)) ||
    (decide ('A'.toNat ≤ c.toNat) && decide (c.toNat ≤ 'Z'.toNat)) ||
    isDigitChar c || c = '.'

/-- The alternative `[0-9]+(?![Dd])` at the head of `cs`: the number of
characters it matches, if it matches. The greedy run of digits is taken
whole when no `D` or `d` follows it; otherwise the matcher backtracks by one
digit, after which the next character is a digit and the lookahead holds; a
single digit followed by `D` or `d` does not match. -/
def matchNumber (cs : List Char) : Option Nat :=
  let digits := (cs.takeWhile isDigitChar).length
  if digits = 0 then none
  else
    match cs.drop digits with
    | c :: _ =>
      if c = 'D' || c = 'd' then (if 2 ≤ digits then some (digits - 1) else none)
      else some digits
    | [] => some digits

/-- The alternative `@[a-zA-Z0-9.]+` at the head of `cs`: the number of
characters it matches, if it matches. -/
def matchVariable (cs : List Char) : Option Nat :=
  match cs with
  | '@' :: rest =>
    let name := (rest.takeWhile isNameChar).length
    if name = 0 then none else some (1 + name)
  | _ => none

/-- The pattern `[+-]+\s*(?:@[a-zA-Z0-9.]+|[0-9]+(?![Dd]))` at the head of
`cs`: the number of characters of the match, if there is one. Giving back
signs or white space never helps, since the alternatives start with `@` or a
digit. -/
def matchFlat (cs : List Char) : Option Nat :=
  let signs := (cs.takeWhile isSignChar).length
  if signs = 0 then none
  else
    let afterSigns := cs.drop signs
    let spaces := (afterSigns.takeWhile isSpaceChar).length
    let term := afterSigns.drop spaces
    match matchVariable term with
    | some n => some (signs + spaces + n)
    | none =>
      match matchNumber term with
      | some n => some (signs + spaces + n)
      | none => none

/-- The global replacement `.replace(/.../g, "")` on the characters that
remain, of which the first `skip` belong to the match found last: matches
are looked for from left to right, each search starting where the match
before it ended. -/
def stripFlat : Nat → List Char → List Char
  | _, [] => []
  | skip + 1, _ :: cs => stripFlat skip cs
  | 0, c :: cs =>
    match matchFlat (c :: cs) with
    | some n => stripFlat (n - 1) cs
    | none => c :: stripFlat 0 cs

/-- The crit formula of `ItemUtils.getCritRoll` (line 252):
`baseFormula.replace(/[+-]+\s*(?:@[a-zA-Z0-9.]+|[0-9]+(?![Dd]))/g,"").concat()`. -/
def critFormula (baseFormula : String) : String :=
  String.mk (stripFlat 0 baseFormula.toList)

/-! ## `CustomItemRoll.configureSpell`, `roll` and `toMessage` -/

/-- The value `lvl` that `configureSpell` returns: `null`, a spell level
(the numeral of the form and the number it denotes are not told apart: the
code that follows uses the value in arithmetic and loose comparisons), or a
string that is no numeral (`"pact"`). -/
inductive SpellLevel where
  | null
  | number (n : Int)
  | text (s : String)
deriving DecidableEq, Repr

/-- What `configureSpell` did when it returned a level: the level, the
argument of its call of `actor.update` (slot key and new value; `none` when
it made no call), and whether it called `this.placeTemplate()`. -/
structure SpellConfig where
  level : SpellLevel
  slotUpdate : Option (String × Int)
  placedTemplate : Bool
deriving DecidableEq, Repr

/-- How `configureSpell` ended: it returned a level, it returned `"error"`,
or it threw. -/
inductive Configured where
  | done (config : SpellConfig)
  | error
  | threw
deriving DecidableEq, Repr

/-- Lines 1338-1365 of `configureSpell`, for the form data of the dialog. A
level read from the form is never `=== 0` (it is a string, or a truthy pact
level), so the slot is consumed whenever the form asks for it. Reading the
slots of a key that the actor does not have throws. The owned copy of the
item made on line 1344 is local to the method. -/
def configureWith (item : Item) (form : SpellForm) : Configured :=
  let lvl : SpellLevel :=
    match form.level with
    | .pact => if item.actorPactLevel ≠ 0 then .number item.actorPactLevel else .text "pact"
    | .level n => .number n
  let spellSlot : String :=
    match form.level with
    | .pact => "pact"
    | .level n => "spell" ++ toString n
  if form.consumeSlot then
    match item.actorSpellSlots.lookup spellSlot with
    | none => .threw
    | some none => .error
    | some (some slots) =>
      if slots = 0 then .error
      else .done { level := lvl, slotUpdate := some (spellSlot, max (slots - 1) 0)
                   placedTemplate := form.placeTemplate }
  else .done { level := lvl, slotUpdate := none, placedTemplate := form.placeTemplate }

/-- The method `configureSpell()` (lines 1315-1366): the dialog runs for a
spell of level above 0 only, and a dialog that throws gives `"error"`. -/
def configureSpell (env : Env) (item : Item) : Configured :=
  if 0 < item.level then
    match env.abilityUseDialog item with
    | none => .error
    | some form => configureWith item form
  else .done { level := .null, slotUpdate := none, placedTemplate := false }

/-- The test `!params.slotLevel` of line 438. -/
def slotLevelFalsy (params : Params) : Bool :=
  params.slotLevelText.isNone &&
    match params.slotLevel with
    | some l => decide (l = 0)
    | none => true

/-- The assignment `params.slotLevel = lvl`. -/
def Params.withSlotLevel (params : Params) (lvl : SpellLevel) : Params :=
  match lvl with
  | .null => { params with slotLevel := none, slotLevelText := none }
  | .number n => { params with slotLevel := some n, slotLevelText := none }
  | .text s => { params with slotLevel := none, slotLevelText := some s }

/-- The value that `roll()` resolves with: the string `"error"` or the
rendered content. -/
inductive RollReturn where
  | error
  | content (c : Content)
deriving DecidableEq, Repr

/-- What a call of `roll()` did: the instance afterwards, how the call
ended, the outcomes of `configureSpell` and `consumeCharge` (`none` when not
called), and whether `actor.deleteOwnedItem(item.id)` was called. -/
structure Rolled where
  run : RollRun
  result : Completion RollReturn
  configured : Option Configured
  consumed : Option Consumed
  deleted : Bool

/-- Lines 445-489 of `roll()`: the fields are turned into templates, then
the charges are consumed, then the content is rendered. When a field throws,
the promise of `allFieldsToTemplates` never settles and neither does
`roll()` (`threw`). The steps of presentation in between (properties, title,
token id, area template, hook, delay) are taken to complete. -/
def rollPipeline (env : Env) (run : RollRun) (configured : Option Configured) : Rolled :=
  let ran := allFieldsToTemplates env run
  match ran.result with
  | .returned _ =>
    let consumed := consumeCharge env ran.run
    if consumed.output = .error then
      { run := ran.run, result := .returned .error, configured := configured
        consumed := some consumed, deleted := false }
    else
      let content : Content := { isCritical := ran.run.isCrit, templates := ran.run.templates }
      { run := { ran.run with rolled := true, content := some content }
        result := .returned (.content content), configured := configured
        consumed := some consumed, deleted := decide (consumed.output = .destroy) }
  | .threw =>
    { run := ran.run, result := .threw, configured := configured, consumed := none
      deleted := false }
  | .outOfFuel =>
    { run := ran.run, result := .outOfFuel, configured := configured, consumed := none
      deleted := false }

/-- Lines 431-436 of `roll()`: the ammo substitution is set when the roll
consumes the linked resource and that resource is ammunition; the item is
looked up among the actor's items by the id in `consume.target`. -/
def setAmmo (env : Env) (run : RollRun) : RollRun :=
  if run.params.useCharge.resource && decide (run.item.consumeType = "ammo") then
    { run with ammo := env.actorItem run.item run.item.consumeTarget }
  else run

/-- Lines 431-489 of `roll()`: what the method does once the lines before
them have completed (the hook and `updateForPreset` of lines 425-429 are
taken to leave the instance as it is). The ammo substitution is set first; a
spell without a slot level is then configured, and `"error"` from there ends
the call, with the string left in `params.slotLevel`. -/
def rollBody (env : Env) (run : RollRun) : Rolled :=
  let item := run.item
  let run1 := setAmmo env run
  if slotLevelFalsy run1.params && decide (item.type = "spell") then
    match configureSpell env item with
    | .threw =>
      { run := run1, result := .threw, configured := some .threw, consumed := none
        deleted := false }
    | .error =>
      { run := { run1 with params := run1.params.withSlotLevel (.text "error") }
        result := .returned .error, configured := some .error, consumed := none
        deleted := false }
    | .done config =>
      rollPipeline env { run1 with params := run1.params.withSlotLevel config.level }
        (some (.done config))
  else rollPipeline env run1 none

/-- The property `ensureFlags` of the class `ItemUtils`: utils.js (lines
166-283) declares no static method of that name and no line of the sources
assigns one, so the property is `undefined` (`none`). -/
def ItemUtils.ensureFlags : Option Unit := none

/-- The method `roll()` (lines 418-490). Line 423 calls
`ItemUtils.ensureFlags(item)` first; calling an `undefined` property throws
a `TypeError`, so the promise of `roll()` rejects there, before the ammo
substitution, `configureSpell`, the fields and `consumeCharge`, and the
instance is left as it was. Past that line the method is `rollBody`. -/
def roll (env : Env) (run : RollRun) : Rolled :=
  match ItemUtils.ensureFlags with
  | none =>
    { run := run, result := .threw, configured := none, consumed := none, deleted := false }
  | some _ => rollBody env run

/-- What a call of `toMessage()` did: the instance afterwards, how the call
ended, the call of `roll()` it made (`none` when it made none), whether it
called `this.dicePool.flush()`, and the content of the chat message it
created (`none` when it created none). -/
structure Messaged where
  run : RollRun
  result : Completion Unit
  rolled : Option Rolled
  flushed : Bool
  created : Option Content

/-- The method `toMessage()` (lines 639-665): nothing is done for an
instance that has rolled; otherwise `roll()` is awaited, so that
`toMessage()` rejects when `roll()` does, and unless `roll()` gives
`"error"` the dice pool is flushed and the chat message created from
`this.content`. -/
def toMessage (env : Env) (run : RollRun) : Messaged :=
  if run.rolled then
    { run := run, result := .returned (), rolled := none, flushed := false, created := none }
  else
    let rolled := roll env run
    match rolled.result with
    | .returned .error =>
      { run := rolled.run, result := .returned (), rolled := some rolled, flushed := false
        created := none }
    | .returned (.content _) =>
      { run := rolled.run, result := .returned (), rolled := some rolled, flushed := true
        created := rolled.run.content }
    | .threw =>
      { run := rolled.run, result := .threw, rolled := some rolled, flushed := false
        created := none }
    | .outOfFuel =>
      { run := rolled.run, result := .outOfFuel, rolled := some rolled, flushed := false
        created := none }

/-! ## Closed forms of the counters of `Utils.processRoll` -/

/-- The value of the counter `high` when the loop of lines 62-74 ends, in
closed form: over the dice that pass the guard of line 63, the results that
pass the test of line 67, counted die by die. It is used in proofs only;
`countHighLow_eq` relates it to the loop. -/
def highHits (threshold : Option Int) (critChecks : CritChecks) (dice : List DiceTerm) : Nat :=
  ((dice.filter (diceConsidered critChecks)).map fun d =>
    d.results.countP fun x => decide (thresholdOr threshold d.faces ≤ x)).sum

/-- The value of the counter `low` when the loop of lines 62-74 ends, in
closed form: over the dice that pass the guard of line 63, the results that
fail the test of line 67 and pass the one of line 69. It is used in proofs
only. -/
def lowHits (threshold : Option Int) (critChecks : CritChecks) (dice : List DiceTerm) : Nat :=
  ((dice.filter (diceConsidered critChecks)).map fun d =>
    d.results.countP fun x => decide (¬ thresholdOr threshold d.faces ≤ x ∧ x = 1)).sum

/-! ## Reference notions used to state the properties -/

/-- The dice the specification considers: face count greater than 1 and
listed in `critChecks`, or every die with more than one face when
`critChecks` is `true`. -/
def specConsidered (critChecks : CritChecks) (d : DiceTerm) : Bool :=
  match critChecks with
  | .all => decide (1 < d.faces)
  | .faces l => decide (1 < d.faces) && decide (d.faces ∈ l)

/-- The threshold of the specification: the given one, and the die's own
face count when none is specified. -/
def specThreshold (threshold : Option Int) (d : DiceTerm) : Int :=
  match threshold with
  | some t => t
  | none => (d.faces : Int)

/-- The threshold with the default extended to 0: the given one, and the
die's own face count when none is specified or 0 is given. -/
def amendedThreshold (threshold : Option Int) (d : DiceTerm) : Int :=
  if threshold = none ∨ threshold = some 0 then (d.faces : Int) else specThreshold threshold d

/-- The number of results, over the dice the specification considers, that
meet or exceed the threshold `effective` of their die. -/
def specHighHits (effective : DiceTerm → Int) (critChecks : CritChecks)
    (dice : List DiceTerm) : Nat :=
  ((dice.filter (specConsidered critChecks)).map fun d =>
    d.results.countP fun x => decide (effective d ≤ x)).sum

/-- The reference classification of the specification, for a rule
`effective` giving the threshold in force for each die: over the results
of the dice the specification considers, `high` counts the results at or
above the threshold, `low` counts the remaining results equal to 1;
`mixed` when both are positive, `success` when only `high` is, `failure`
when only `low` is, and `null` otherwise. -/
def critTypeReference (effective : DiceTerm → Int) (critChecks : CritChecks)
    (dice : List DiceTerm) : Option CritType :=
  let considered := dice.filter (specConsidered critChecks)
  let high := (considered.map fun d => d.results.countP fun x => decide (effective d ≤ x)).sum
  let low := (considered.map fun d =>
    (d.results.filter fun x => !decide (effective d ≤ x)).countP fun x => decide (x = 1)).sum
  match decide (0 < high), decide (0 < low) with
  | true, true => some .mixed
  | true, false => some .success
  | false, true => some .failure
  | false, false => none

/-- The reference classification as the specification words it: an
unspecified threshold defaults to the die's own face count. -/
def critTypeSpec (threshold : Option Int) (critChecks : CritChecks) (dice : List DiceTerm) :
    Option CritType :=
  critTypeReference (specThreshold threshold) critChecks dice

/-- The selection outcome of C1 for an order `better` on totals (`≤` for
"highest", `≥` for "lowest"): the outcome holds `n` rolls; roll `i` is left
non-ignored exactly when its total is at least as good as every total; some
roll is left non-ignored; and when one roll is strictly better than every
other, it is the only one left non-ignored. -/
def SelectsExactly (better : Int → Int → Prop) (n : Nat) (source : Nat → Evaluation)
    (out : MultiRoll) : Prop :=
  out.rolls.length = n ∧
  (∀ i, i < n → ∃ r, out.rolls[i]? = some r ∧
    (r.ignored = false ↔ ∀ j, j < n → better (source j).total (source i).total)) ∧
  (∃ i, i < n ∧ ∃ r, out.rolls[i]? = some r ∧ r.ignored = false) ∧
  (∀ i, i < n → (∀ j, j < n → j ≠ i → ¬ better (source i).total (source j).total) →
    ∀ k, k < n → ∃ r, out.rolls[k]? = some r ∧ (r.ignored = false ↔ k = i))

/-- The selection outcome of C2 for a roll state `s` and its order `better`
on totals: the outcome holds all `n` evaluations, in order, with their
totals and dice; every roll left non-ignored has a total at least as good
as every total; every evaluation whose total is at least as good as every
total is left non-ignored, so that at least one roll is; and any other
stream of evaluations with the same totals (whatever its dice, threshold
and `triggersCrit`) gets the same `ignored` marks. -/
def SelectionByTotal (better : Int → Int → Prop) (s : RollState) (n : Nat)
    (source : Nat → Evaluation) (out : MultiRoll) : Prop :=
  out.rolls.length = n ∧
  (∀ i, i < n → ∃ r, out.rolls[i]? = some r ∧ r.total = (source i).total ∧
    r.dice = (source i).dice) ∧
  (∀ r ∈ out.rolls, r.ignored = false → ∀ j, j < n → better (source j).total r.total) ∧
  (∀ i, i < n → (∀ j, j < n → better (source j).total (source i).total) →
    ∃ r, out.rolls[i]? = some r ∧ r.ignored = false) ∧
  (∃ r ∈ out.rolls, r.ignored = false) ∧
  (∀ (source' : Nat → Evaluation) (thr' : Option Int) (tc' : Bool),
    (∀ i, i < n → (source' i).total = (source i).total) →
    ∃ out', rollMultiple n source' thr' (some s) tc' = some out' ∧
      out'.rolls.map (·.ignored) = out.rolls.map (·.ignored))

/-- The formula that `rollDamage` hands to `new Roll` for the invocation
`call` (lines 1004-1010, 1092 and 1094-1096): the formula selected for the
damage line, scaled, with the damage bonus of the first line appended;
`none` when the line is missing, the selected formula is empty or scaling
throws. -/
def rolledFormula (env : Env) (run : RollRun) (call : DamageCall) : Option String :=
  match run.item.damageParts[call.damageIndex]? with
  | none => none
  | some part =>
    let selected := selectDamageFormula run call part
    if selected.1 = "" then none
    else
      (applyScaling env run call selected.2 selected.1).map fun damageFormula =>
        damageFormula ++
          if call.damageIndex = 0 ∧ run.item.damageBonus ≠ "" then "+" ++ run.item.damageBonus
          else ""

/-- The part of the instance that `rollDamage` and the damage loop never
write. -/
def RollRun.frame (run : RollRun) :
    Item × Option Item × Params × List Field × Option RollState × Bool × Bool :=
  (run.item, run.ammo, run.params, run.fields, run.rollState, run.isCrit, run.hasAttack)

/-- The invocation of `rollDamage` that a damage request with index "all"
makes for damage line `i` of `item`: the versatile override is handed to
line 0 only. -/
def allInvocation (item : Item) (versatile : Option Bool) (crit : Option ForceCrit)
    (context : Option String) (i : Nat) : DamageInvocation :=
  { item := item
    call := { damageIndex := i
              forceVersatile := if i = 0 then versatile else some false
              forceCrit := crit
              customContext := context } }

/-- The invocations a damage request with index "all" makes on `item`: one
for each damage line, in ascending order. -/
def allExpansion (item : Item) (versatile : Option Bool) (crit : Option ForceCrit)
    (context : Option String) : List DamageInvocation :=
  (List.range item.damageParts.length).map (allInvocation item versatile crit context)

/-- The invocation of `rollDamage` that the loop of lines 547-555 makes at
position `i` of the index array, for the damage line `damageIndex` found
there; `isAll` is `oldIndex === "all"`. -/
def requestInvocation (item : Item) (isAll : Bool) (versatile : Option Bool)
    (crit : Option ForceCrit) (context : Option String) (i damageIndex : Nat) :
    DamageInvocation :=
  { item := item
    call := { damageIndex := damageIndex
              forceVersatile := if i = 0 ∨ isAll = false then versatile else some false
              forceCrit := crit
              customContext := context } }

/-- The invocations the loop makes from position `i` on, for the remaining
entries of the index array, when none of them throws. -/
def requestExpansionFrom (item : Item) (isAll : Bool) (versatile : Option Bool)
    (crit : Option ForceCrit) (context : Option String) : Nat → List Nat → List DamageInvocation
  | _, [] => []
  | i, damageIndex :: rest =>
    requestInvocation item isAll versatile crit context i damageIndex ::
      requestExpansionFrom item isAll versatile crit context (i + 1) rest

/-- The invocations a damage request makes on `item` for its own index array
`index`, when none of them throws. -/
def requestExpansion (item : Item) (request : DamageRequest) (index : List Nat) :
    List DamageInvocation :=
  requestExpansionFrom item (decide (request.index = some .all)) request.versatile
    request.crit request.context 0 index

/-- The loop of a damage request over its own index array `index`, from the
state `run`. -/
def ownLoop (env : Env) (run : RollRun) (request : DamageRequest) (index : List Nat) :
    Ran Unit :=
  damageLoop env (decide (request.index = some .all)) request.versatile request.crit
    request.context index 0 run

/-- The loop of the nested request for the ammo item `a` (lines 556-561):
index "all", versatile `false`, the request's `crit`, and the context
`[name]`, from the state that the own loop left, with `this.item` set to the
ammo item and `this.ammo` deleted. -/
def ammoLoop (env : Env) (run : RollRun) (request : DamageRequest) (index : List Nat)
    (a : Item) : Ran Unit :=
  damageLoop env true (some false) request.crit (some ("[" ++ a.name ++ "]"))
    (List.range a.damageParts.length) 0
    { (ownLoop env run request index).run with item := a, ammo := none }

/-- The crit roll held by a template, if any. -/
def Template.critRoll : Template → Option Roll
  | .damage _ _ crit => crit
  | .other _ crit => crit
  | _ => none

/-- The formula that `rollDamage` selects for a damage line other than the
first, whose own formula is `own`: the item's versatile formula when the
invocation forces versatile and the item has one, else the line's own. -/
def otherLineFormula (item : Item) (forceVersatile : Option Bool) (own : String) : String :=
  if forceVersatile = some true ∧ 0 < item.versatile.length then item.versatile else own

/-- Whether the invocation names a damage line that the item has. -/
def DamageInvocation.onExistingLine (inv : DamageInvocation) : Bool :=
  decide (inv.call.damageIndex < inv.item.damageParts.length)

/-- The flag `hasDamage` is set exactly when `rollDamage` has been invoked on
an existing damage line. -/
def RollRun.damageLogged (run : RollRun) : Prop :=
  run.hasDamage = run.damageCalls.any DamageInvocation.onExistingLine

/-- Whether a field is a damage request. -/
def Field.isDamage : Field → Bool
  | .damage _ => true
  | _ => false

/-- The invocations of `rollDamage` that processing `field` makes on `item`
when no ammo substitution is active and nothing throws: those of a damage
request for its index array, the one of a crit-extra request for the extra
damage line, and none for any other field. -/
def fieldCalls (item : Item) : Field → List DamageInvocation
  | .damage (some request) =>
    match indexArray item request.index with
    | some index => requestExpansion item request index
    | none => []
  | .crit =>
    match item.critDamage with
    | some damageIndex =>
      [{ item := item, call := { damageIndex := damageIndex, forceCrit := some .never } }]
    | none => []
  | _ => []

/-- The invocations of `rollDamage` that processing `fields` in order makes
on `item` when no ammo substitution is active and nothing throws. -/
def plainCalls (item : Item) : List Field → List DamageInvocation
  | [] => []
  | field :: rest => fieldCalls item field ++ plainCalls item rest

/-! ## Concrete inputs used in the examples -/

/-- Two evaluations of a d20 with the same total. -/
def tiedDraws : Nat → Evaluation := fun _ => ⟨15, [⟨20, [15]⟩]⟩

/-- An elven-accuracy pool: three evaluations of `1d20 + 5` showing 20, 20
and 7. -/
def elvenAccuracyDraws : Nat → Evaluation := fun i =>
  if i < 2 then ⟨25, [⟨20, [20]⟩]⟩ else ⟨12, [⟨20, [7]⟩]⟩

/-- An environment whose every evaluation is `1d20 + 1d20` showing 20 and
20: one roll per d20 check, crit dice rolled once more, crit rolls showing a
d8 of 5, no scaling, no global bindings, a resource collaborator that
always allows, an ability-use dialog that is closed, and an actor without
items to look up. -/
def doubleTwentyEnv : Env :=
  { source := fun _ => ⟨40, [⟨20, [20]⟩, ⟨20, [20]⟩]⟩
    d20Mode := 1
    critBehavior := "1"
    systemScaleDamage := fun parts _ _ => String.join parts
    getCritRoll := fun _ _ _ _ => some ⟨5, [⟨8, [5]⟩]⟩
    componentHtml := fun _ => ""
    handleResourceConsumption := fun _ => true
    abilityUseDialog := fun _ => none
    actorItem := fun _ _ => none }

/-- The environment `doubleTwentyEnv` with a `getCritRoll` that, like lines
252-258 of utils.js, gives `null` for a formula whose crit formula holds no
dice, and a d8 of 5 otherwise. -/
def critDiceEnv : Env :=
  { doubleTwentyEnv with
    getCritRoll := fun _ baseFormula _ _ =>
      if (critFormula baseFormula).toList.any (fun c => c == 'd' || c == 'D') then
        some ⟨5, [⟨8, [5]⟩]⟩
      else none }

/-- An environment whose every evaluation is a d8 showing 5, with the same
settings. -/
def quiver : Env :=
  { doubleTwentyEnv with source := fun _ => ⟨5, [⟨8, [5]⟩]⟩ }

/-- A melee weapon with two damage lines and a versatile formula. -/
def longsword : Item :=
  { name := "Longsword", type := "weapon", actionType := "mwak"
    damageParts := [("1d8", "slashing"), ("1d6", "fire")], versatile := "1d10" }

/-- A ranged weapon with one damage line. -/
def longbow : Item :=
  { name := "Longbow", type := "weapon", actionType := "rwak"
    damageParts := [("1d8", "piercing")], actorItems := [{}] }

/-- Ammunition with two damage lines of its own. -/
def fireArrows : Item :=
  { name := "Fire Arrows", type := "consumable", actionType := "rwak"
    damageParts := [("1", "piercing"), ("1d4", "fire")], actorItems := [{}] }

/-- A roll of the longbow with the fire arrows as active ammo substitution. -/
def bowRun : RollRun :=
  { RollRun.create longbow {} [] with ammo := some fireArrows }

/-- A wand with uses configured (7 a day) and none left. -/
def emptyWand : Item :=
  { name := "Wand", type := "consumable", usesValue := 0, usesMax := 7, usesPer := "day"
    quantity := 1 }

/-- A dagger: no uses configured, one in stock. -/
def plainDagger : Item :=
  { name := "Dagger", type := "weapon", actionType := "mwak"
    damageParts := [("1d4", "piercing")], quantity := 1 }

/-- The last potion of a stack, destroyed when used up. -/
def lastPotion : Item :=
  { name := "Potion", type := "consumable", quantity := 1, autoDestroy := true }

/-- A recharging feature that is charged and linked to a resource. -/
def breathWeapon : Item :=
  { name := "Breath", type := "feat", rechargeCharged := true
    consumeTarget := "resources.primary.value", consumeType := "attribute" }

/-- A roll of `item` that asks to consume `useCharge`, with no fields. -/
def chargeRun (item : Item) (useCharge : UseCharge) : RollRun :=
  RollRun.create item { useCharge := useCharge } []

/-- The environment `quiver` with a resource collaborator that refuses. -/
def refusingEnv : Env :=
  { quiver with handleResourceConsumption := fun _ => false }

/-- The longsword, flagged to roll its damage line 1 as extra crit damage. -/
def flamingSword : Item :=
  { longsword with critDamage := some 1 }

/-- A roll of the flagged longsword with `forceCrit`, for the requested
`fields`: the run is a crit from the start. -/
def critRun (fields : List Field) : RollRun :=
  RollRun.create flamingSword { forceCrit := true } fields

/-- The environment `doubleTwentyEnv` with the crit behaviour set to "0". -/
def noCritDiceEnv : Env :=
  { doubleTwentyEnv with critBehavior := "0" }

/-- The outcome of an attack roll in `doubleTwentyEnv`: one roll, whose two
d20 both show 20, reported as a crit. -/
def doubleTwentyAttack : MultiRoll :=
  { isCrit := true
    rolls := [Roll.ofEvaluation (doubleTwentyEnv.source 0)]
    rollEntries := [rollEntry (Roll.ofEvaluation (doubleTwentyEnv.source 0)) (some 20) (.faces [20])]
    rollState := none }

/-- A scroll case with one use left on the last item of the stack, destroyed
when used up. -/
def lastCharge : Item :=
  { name := "Scroll case", type := "consumable", usesValue := 1, usesMax := 3, usesPer := "charges"
    quantity := 1, autoDestroy := true }

/-- The empty wand, three in stock. -/
def wandStack : Item :=
  { emptyWand with quantity := 3 }

/-- The dagger, three in stock. -/
def daggerStack : Item :=
  { plainDagger with quantity := 3 }

/-- A cantrip with a versatile formula, cast by a creature of challenge
rating 1: the step count of its scaling is `floor((1 + 1) / 6) = 0`. -/
def tollTheDead : Item :=
  { name := "Toll the Dead", type := "spell", actionType := "save"
    damageParts := [("1d8", "necrotic")], versatile := "1d12", scalingMode := "cantrip"
    actorIsCharacter := false, actorCr := 1 }

/-- The same cantrip cast by a character whose items are the cantrip and one
class of level 1. -/
def tollTheDeadOfCharacter : Item :=
  { tollTheDead with
    actorIsCharacter := true
    actorItems := [{ type := "spell" }, { type := "class", levels := some 1 }] }

/-- A spell of level 1 with a versatile formula and scaling by slot level. -/
def chromaticOrb : Item :=
  { name := "Chromatic Orb", type := "spell", actionType := "rsak", level := 1
    damageParts := [("3d8", "acid")], versatile := "3d10", scalingMode := "level"
    scalingFormula := "1d8", actorItems := [{ type := "class", levels := some 3 }] }

/-- The longbow, linked to the ammunition of id `arrows`. -/
def ammoBow : Item :=
  { longbow with consumeType := "ammo", consumeTarget := "arrows" }

/-- The environment `quiver` for an actor who owns the fire arrows under the
id `arrows`. -/
def archerEnv : Env :=
  { quiver with actorItem := fun _ id => if id = "arrows" then some fireArrows else none }

/-- A roll of the longbow with the fire arrows as active ammo substitution
and two damage requests for its line 0. -/
def twoShots : RollRun :=
  { RollRun.create longbow {}
      [.damage (some { index := some (.single 0) }), .damage (some { index := some (.single 0) })]
    with ammo := some fireArrows }

/-- A roll of the linked longbow that consumes the linked resource, with the
same two damage requests. -/
def twoShotsRoll : RollRun :=
  RollRun.create ammoBow { useCharge := { resource := true } }
    [.damage (some { index := some (.single 0) }), .damage (some { index := some (.single 0) })]

/-! ## Properties -/

/-! ## Lemmas on the counters of `processRoll` -/

theorem foldl_countResult (thr : Option Int) (f : Nat) (rs : List Int) (acc : Nat × Nat) :
    rs.foldl (countResult thr f) acc =
      (acc.1 + rs.countP (fun x => decide (thresholdOr thr f ≤ x)),
       acc.2 + rs.countP (fun x => decide (¬ thresholdOr thr f ≤ x ∧ x = 1))) := by
  induction rs generalizing acc with
  | nil => simp
  | cons x xs ih =>
    rw [List.foldl_cons, ih, List.countP_cons, List.countP_cons]
    unfold countResult
    by_cases h : thresholdOr thr f ≤ x
    · simp [h]; omega
    · by_cases h1 : x = 1
      · subst h1
        simp [h]
        omega
      · simp [h, h1]

theorem highHits_cons (thr : Option Int) (cc : CritChecks) (d : DiceTerm) (ds : List DiceTerm) :
    highHits thr cc (d :: ds) =
      (if diceConsidered cc d then
        d.results.countP (fun x => decide (thresholdOr thr d.faces ≤ x)) else 0)
        + highHits thr cc ds := by
  unfold highHits
  by_cases h : diceConsidered cc d = true <;> simp [List.filter_cons, h]

theorem lowHits_cons (thr : Option Int) (cc : CritChecks) (d : DiceTerm) (ds : List DiceTerm) :
    lowHits thr cc (d :: ds) =
      (if diceConsidered cc d then
        d.results.countP (fun x => decide (¬ thresholdOr thr d.faces ≤ x ∧ x = 1)) else 0)
        + lowHits thr cc ds := by
  unfold lowHits
  by_cases h : diceConsidered cc d = true <;> simp [List.filter_cons, h]

theorem foldl_countDie (thr : Option Int) (cc : CritChecks) (dice : List DiceTerm)
    (acc : Nat × Nat) :
    dice.foldl (countDie thr cc) acc =
      (acc.1 + highHits thr cc dice, acc.2 + lowHits thr cc dice) := by
  induction dice generalizing acc with
  | nil => simp [highHits, lowHits]
  | cons d ds ih =>
    rw [List.foldl_cons, ih, highHits_cons, lowHits_cons]
    unfold countDie
    by_cases h : diceConsidered cc d = true
    · simp only [h, if_true, foldl_countResult]
      ext <;> simp <;> omega
    · simp [h]

theorem countHighLow_eq (thr : Option Int) (cc : CritChecks) (dice : List DiceTerm) :
    countHighLow thr cc dice = (highHits thr cc dice, lowHits thr cc dice) := by
  simp [countHighLow, foldl_countDie]

theorem highHits_pos_iff (thr : Option Int) (cc : CritChecks) (dice : List DiceTerm) :
    0 < highHits thr cc dice ↔
      ∃ d ∈ dice, diceConsidered cc d = true ∧
        ∃ x ∈ d.results, thresholdOr thr d.faces ≤ x := by
  induction dice with
  | nil => simp [highHits]
  | cons d ds ih =>
    rw [highHits_cons, Nat.add_pos_iff_pos_or_pos, ih]
    by_cases h : diceConsidered cc d = true
    · simp [h, List.countP_pos_iff]
    · simp [h]

theorem lowHits_pos_iff (thr : Option Int) (cc : CritChecks) (dice : List DiceTerm) :
    0 < lowHits thr cc dice ↔
      ∃ d ∈ dice, diceConsidered cc d = true ∧
        ∃ x ∈ d.results, x = 1 ∧ x < thresholdOr thr d.faces := by
  induction dice with
  | nil => simp [lowHits]
  | cons d ds ih =>
    rw [lowHits_cons, Nat.add_pos_iff_pos_or_pos, ih]
    by_cases h : diceConsidered cc d = true
    · simp only [h, if_true, List.countP_pos_iff, List.mem_cons, exists_eq_or_imp, true_and]
      simp only [decide_eq_true_eq, not_le]
      constructor
      · rintro (⟨x, hx, h1, h2⟩ | h')
        · exact Or.inl ⟨x, hx, h2, h1⟩
        · exact Or.inr h'
      · rintro (⟨x, hx, h1, h2⟩ | h')
        · exact Or.inl ⟨x, hx, h2, h1⟩
        · exact Or.inr h'
    · simp [h]

theorem classify_mixed_iff (h l : Nat) : classify h l = some .mixed ↔ 0 < h ∧ 0 < l := by
  unfold classify
  by_cases h1 : 0 < h <;> by_cases h2 : 0 < l <;> simp [h1, h2]

theorem lowHits_eq_zero_of_no_one (thr : Option Int) (cc : CritChecks) (dice : List DiceTerm)
    (h : ∀ d ∈ dice, diceConsidered cc d = true → (1 : Int) ∉ d.results) :
    lowHits thr cc dice = 0 := by
  by_contra hne
  have hpos : 0 < lowHits thr cc dice := Nat.pos_of_ne_zero hne
  obtain ⟨d, hd, hc, x, hx, h1, -⟩ := (lowHits_pos_iff thr cc dice).1 hpos
  exact h d hd hc (h1 ▸ hx)

theorem specConsidered_eq (cc : CritChecks) (hcc : cc ≠ .faces [1]) (d : DiceTerm) :
    specConsidered cc d = diceConsidered cc d := by
  cases cc with
  | all => simp [specConsidered, diceConsidered, CritChecks.looseEqTrue]
  | faces l =>
    have hl : l ≠ [1] := fun h => hcc (by rw [h])
    simp [specConsidered, diceConsidered, CritChecks.looseEqTrue, CritChecks.includes, hl]

theorem countP_filter_not (p : Int → Bool) (l : List Int) :
    (l.filter fun x => !p x).countP (fun x => decide (x = 1)) =
      l.countP (fun x => !p x && decide (x = 1)) := by
  rw [List.countP_filter]
  congr 1
  funext x
  exact Bool.and_comm _ _

theorem critTypeReference_eq_classify (thr : Option Int) (cc : CritChecks)
    (hcc : cc ≠ .faces [1]) (dice : List DiceTerm) :
    critTypeReference (fun d => thresholdOr thr d.faces) cc dice =
      classify (highHits thr cc dice) (lowHits thr cc dice) := by
  have hf : dice.filter (specConsidered cc) = dice.filter (diceConsidered cc) := by
    congr 1
    funext d
    exact specConsidered_eq cc hcc d
  have hlow : ((dice.filter (diceConsidered cc)).map fun d =>
      (d.results.filter fun x => !decide (thresholdOr thr d.faces ≤ x)).countP
        fun x => decide (x = 1)).sum = lowHits thr cc dice := by
    unfold lowHits
    congr 2
    funext d
    rw [countP_filter_not]
    congr 1
    funext x
    by_cases h2 : x = 1
    · subst h2
      by_cases h1 : thresholdOr thr d.faces ≤ 1 <;> simp [h1]
    · simp [h2]
  unfold critTypeReference
  simp only [hf, hlow]
  show (match decide (0 < highHits thr cc dice), decide (0 < lowHits thr cc dice) with
    | true, true => some CritType.mixed
    | true, false => some CritType.success
    | false, true => some CritType.failure
    | false, false => none) = _
  unfold classify
  by_cases h1 : 0 < highHits thr cc dice <;> by_cases h2 : 0 < lowHits thr cc dice <;>
    simp [h1, h2]

theorem thresholdOr_eq_spec (thr : Option Int) (h0 : thr ≠ some 0) (d : DiceTerm) :
    thresholdOr thr d.faces = specThreshold thr d := by
  cases thr with
  | none => rfl
  | some t =>
    have : t ≠ 0 := fun h => h0 (by rw [h])
    simp [thresholdOr, specThreshold, this]

theorem amendedThreshold_eq (thr : Option Int) (d : DiceTerm) :
    amendedThreshold thr d = thresholdOr thr d.faces := by
  cases thr with
  | none => simp [amendedThreshold, thresholdOr]
  | some t =>
    by_cases h : t = 0 <;> simp [amendedThreshold, thresholdOr, specThreshold, h]

theorem specHighHits_eq (thr : Option Int) (cc : CritChecks) (hcc : cc ≠ .faces [1])
    (dice : List DiceTerm) :
    specHighHits (amendedThreshold thr) cc dice = highHits thr cc dice := by
  have hf : dice.filter (specConsidered cc) = dice.filter (diceConsidered cc) := by
    congr 1
    funext d
    exact specConsidered_eq cc hcc d
  unfold specHighHits highHits
  rw [hf]
  congr 2
  funext d
  rw [amendedThreshold_eq]

theorem specHighHits_spec (thr : Option Int) (h0 : thr ≠ some 0) (cc : CritChecks)
    (dice : List DiceTerm) :
    specHighHits (specThreshold thr) cc dice = specHighHits (amendedThreshold thr) cc dice := by
  unfold specHighHits
  congr 2
  funext d
  rw [amendedThreshold_eq, thresholdOr_eq_spec thr h0]

theorem rollEntry_mixed_iff (r : Roll) (thr : Option Int) (cc : CritChecks) :
    (rollEntry r thr cc).critType = some .mixed ↔
      (∃ d ∈ r.dice, diceConsidered cc d = true ∧
        ∃ x ∈ d.results, thresholdOr thr d.faces ≤ x) ∧
      (∃ d ∈ r.dice, diceConsidered cc d = true ∧
        ∃ x ∈ d.results, x = 1 ∧ x < thresholdOr thr d.faces) := by
  simp only [rollEntry, countHighLow_eq, classify_mixed_iff, highHits_pos_iff, lowHits_pos_iff]

/-- C3 (amended). For `critChecks` equal to `true` or to a list of face
counts other than `[1]`, `Utils.processRoll` returns `isCrit = true` exactly
when at least two results of the dice the specification considers meet or
exceed the threshold, where a threshold that is unspecified or 0 stands for
the die's own face count; for a threshold other than 0 this is the count as
the specification words it; with exactly one such result and no considered
result of 1 it returns `critType = "success"` and `isCrit = false`, as for a
single d20 showing 20 with the default threshold. -/
theorem processRoll_isCrit_iff_two_high (r : Roll) (thr : Option Int) (cc : CritChecks)
    (hcc : cc ≠ .faces [1]) :
    ∃ e, processRoll (some r) thr cc = some e ∧
      (e.isCrit = true ↔ 2 ≤ specHighHits (amendedThreshold thr) cc r.dice) ∧
      (thr ≠ some 0 → (e.isCrit = true ↔ 2 ≤ specHighHits (specThreshold thr) cc r.dice)) ∧
      (specHighHits (amendedThreshold thr) cc r.dice = 1 →
        (∀ d ∈ r.dice, specConsidered cc d = true → (1 : Int) ∉ d.results) →
        e.critType = some .success ∧ e.isCrit = false) ∧
      (∀ (total : Int) (ignored : Bool) (cc' : CritChecks), cc' = .all ∨ cc' = .faces [20] →
        processRoll (some ⟨total, [⟨20, [20]⟩], ignored⟩) none cc' =
          some ⟨total, ignored, some .success, false⟩) := by
  have hiff : (rollEntry r thr cc).isCrit = true ↔
      2 ≤ specHighHits (amendedThreshold thr) cc r.dice := by
    rw [specHighHits_eq thr cc hcc]
    simp [rollEntry, countHighLow_eq]
    omega
  refine ⟨rollEntry r thr cc, rfl, hiff, ?_, ?_, ?_⟩
  · intro h0
    rw [specHighHits_spec thr h0]
    exact hiff
  · intro h1 hno
    rw [specHighHits_eq thr cc hcc] at h1
    have hl := lowHits_eq_zero_of_no_one thr cc r.dice
      (fun d hd hc => hno d hd ((specConsidered_eq cc hcc d).trans hc))
    simp [rollEntry, countHighLow_eq, h1, hl, classify]
  · rintro total ignored cc' (rfl | rfl) <;> rfl

/-- Witness for C3 (amended): two d20 results 20 and 19 and a d6 showing 1,
threshold 19, `critChecks = [20]`. -/
theorem processRoll_isCrit_iff_two_high_witness :
    ∃ e, processRoll (some ⟨40, [⟨20, [20, 19]⟩, ⟨6, [1]⟩], false⟩) (some 19) (.faces [20]) =
        some e ∧
      (e.isCrit = true ↔
        2 ≤ specHighHits (amendedThreshold (some 19)) (.faces [20]) [⟨20, [20, 19]⟩, ⟨6, [1]⟩]) ∧
      (some (19 : Int) ≠ some 0 → (e.isCrit = true ↔
        2 ≤ specHighHits (specThreshold (some 19)) (.faces [20]) [⟨20, [20, 19]⟩, ⟨6, [1]⟩])) ∧
      (specHighHits (amendedThreshold (some 19)) (.faces [20]) [⟨20, [20, 19]⟩, ⟨6, [1]⟩] = 1 →
        (∀ d ∈ [(⟨20, [20, 19]⟩ : DiceTerm), ⟨6, [1]⟩],
          specConsidered (.faces [20]) d = true → (1 : Int) ∉ d.results) →
        e.critType = some .success ∧ e.isCrit = false) ∧
      (∀ (total : Int) (ignored : Bool) (cc' : CritChecks), cc' = .all ∨ cc' = .faces [20] →
        processRoll (some ⟨total, [⟨20, [20]⟩], ignored⟩) none cc' =
          some ⟨total, ignored, some .success, false⟩) :=
  processRoll_isCrit_iff_two_high ⟨40, [⟨20, [20, 19]⟩, ⟨6, [1]⟩], false⟩ (some 19)
    (.faces [20]) (by decide)

/-- C3, as stated, fails: with the threshold given as 0, the two d20 results
5 and 7 both meet or exceed the threshold, so the count of the
specification is 2, while `processRoll` takes the die's face count as
threshold and returns `isCrit = false`. -/
theorem processRoll_isCrit_counterexample :
    specHighHits (specThreshold (some 0)) .all [⟨20, [5, 7]⟩] = 2 ∧
      processRoll (some ⟨12, [⟨20, [5, 7]⟩], false⟩) (some 0) .all =
        some ⟨12, false, none, false⟩ := by
  exact ⟨by decide, rfl⟩

/-- C4 (amended). For `critChecks` equal to `true` or to a list of face
counts other than `[1]`, `Utils.processRoll` returns `critType = "mixed"`
exactly when, among the dice the specification considers, at least one
result meets or exceeds the threshold and at least one result is exactly 1
and below the threshold, where a threshold that is unspecified or 0 stands
for the die's own face count; for a threshold other than 0 this is the
threshold as the specification words it. -/
theorem processRoll_mixed_iff (r : Roll) (thr : Option Int) (cc : CritChecks)
    (hcc : cc ≠ .faces [1]) :
    ∃ e, processRoll (some r) thr cc = some e ∧
      (e.critType = some .mixed ↔
        (∃ d ∈ r.dice, specConsidered cc d = true ∧
          ∃ x ∈ d.results, amendedThreshold thr d ≤ x) ∧
        (∃ d ∈ r.dice, specConsidered cc d = true ∧
          ∃ x ∈ d.results, x = 1 ∧ x < amendedThreshold thr d)) ∧
      (thr ≠ some 0 →
        (e.critType = some .mixed ↔
          (∃ d ∈ r.dice, specConsidered cc d = true ∧
            ∃ x ∈ d.results, specThreshold thr d ≤ x) ∧
          (∃ d ∈ r.dice, specConsidered cc d = true ∧
            ∃ x ∈ d.results, x = 1 ∧ x < specThreshold thr d))) := by
  refine ⟨rollEntry r thr cc, rfl, ?_, ?_⟩
  · simp only [specConsidered_eq cc hcc, amendedThreshold_eq]
    exact rollEntry_mixed_iff r thr cc
  · intro h0
    simp only [specConsidered_eq cc hcc, ← thresholdOr_eq_spec thr h0]
    exact rollEntry_mixed_iff r thr cc

/-- Witness for C4 (amended): a d20 with the results 20 and 1 and a d4
showing 1, default threshold, `critChecks = [20]`. -/
theorem processRoll_mixed_iff_witness :
    ∃ e, processRoll (some ⟨22, [⟨20, [20, 1]⟩, ⟨4, [1]⟩], false⟩) none (.faces [20]) = some e ∧
      (e.critType = some .mixed ↔
        (∃ d ∈ [(⟨20, [20, 1]⟩ : DiceTerm), ⟨4, [1]⟩], specConsidered (.faces [20]) d = true ∧
          ∃ x ∈ d.results, amendedThreshold none d ≤ x) ∧
        (∃ d ∈ [(⟨20, [20, 1]⟩ : DiceTerm), ⟨4, [1]⟩], specConsidered (.faces [20]) d = true ∧
          ∃ x ∈ d.results, x = 1 ∧ x < amendedThreshold none d)) ∧
      ((none : Option Int) ≠ some 0 →
        (e.critType = some .mixed ↔
          (∃ d ∈ [(⟨20, [20, 1]⟩ : DiceTerm), ⟨4, [1]⟩], specConsidered (.faces [20]) d = true ∧
            ∃ x ∈ d.results, specThreshold none d ≤ x) ∧
          (∃ d ∈ [(⟨20, [20, 1]⟩ : DiceTerm), ⟨4, [1]⟩], specConsidered (.faces [20]) d = true ∧
            ∃ x ∈ d.results, x = 1 ∧ x < specThreshold none d))) :=
  processRoll_mixed_iff ⟨22, [⟨20, [20, 1]⟩, ⟨4, [1]⟩], false⟩ none (.faces [20]) (by decide)

/-- C4, as stated, fails: with threshold 1 a single d20 showing 1 has,
among the dice the specification considers, a result meeting the threshold
and a result equal to 1, yet `processRoll` classifies it `"success"`, not
`"mixed"`; and with the threshold given as 0 a d20 with the results 5 and 1
has a result meeting the threshold and a result equal to 1, yet
`processRoll` takes the die's face count as threshold and classifies it
`"failure"`. -/
theorem processRoll_mixed_counterexample :
    (processRoll (some ⟨1, [⟨20, [1]⟩], false⟩) (some 1) .all =
        some ⟨1, false, some .success, false⟩ ∧
      (∃ d ∈ [(⟨20, [1]⟩ : DiceTerm)], specConsidered .all d = true ∧
        ∃ x ∈ d.results, specThreshold (some 1) d ≤ x) ∧
      (∃ d ∈ [(⟨20, [1]⟩ : DiceTerm)], specConsidered .all d = true ∧
        ∃ x ∈ d.results, x = 1)) ∧
    (processRoll (some ⟨6, [⟨20, [5, 1]⟩], false⟩) (some 0) .all =
        some ⟨6, false, some .failure, false⟩ ∧
      (∃ d ∈ [(⟨20, [5, 1]⟩ : DiceTerm)], specConsidered .all d = true ∧
        ∃ x ∈ d.results, specThreshold (some 0) d ≤ x) ∧
      (∃ d ∈ [(⟨20, [5, 1]⟩ : DiceTerm)], specConsidered .all d = true ∧
        ∃ x ∈ d.results, x = 1)) := by
  refine ⟨⟨rfl, ⟨⟨20, [1]⟩, by simp, rfl, 1, by simp, by decide⟩,
    ⟨⟨20, [1]⟩, by simp, rfl, 1, by simp, rfl⟩⟩,
    ⟨rfl, ⟨⟨20, [5, 1]⟩, by simp, rfl, 5, by simp, by decide⟩,
    ⟨⟨20, [5, 1]⟩, by simp, rfl, 1, by simp, rfl⟩⟩⟩

/-- C5 (amended). For `critChecks` equal to `true` or to a list of face
counts other than `[1]`, the `critType` of `Utils.processRoll` equals the
reference classification in which a threshold that is unspecified or 0
defaults to the die's own face count; for a threshold other than 0 this is
the reference as the specification words it; and dice that are not
considered never change the result. -/
theorem processRoll_critType_eq_reference (r : Roll) (thr : Option Int) (cc : CritChecks)
    (hcc : cc ≠ .faces [1]) :
    ∃ e, processRoll (some r) thr cc = some e ∧
      e.critType = critTypeReference (fun d => thresholdOr thr d.faces) cc r.dice ∧
      (thr ≠ some 0 → e.critType = critTypeSpec thr cc r.dice) ∧
      (∀ r' : Roll, r'.dice.filter (specConsidered cc) = r.dice.filter (specConsidered cc) →
        ∃ e', processRoll (some r') thr cc = some e' ∧ e'.critType = e.critType) := by
  have hct : ∀ q : Roll, (rollEntry q thr cc).critType =
      critTypeReference (fun d => thresholdOr thr d.faces) cc q.dice := by
    intro q
    rw [critTypeReference_eq_classify thr cc hcc]
    simp [rollEntry, countHighLow_eq]
  refine ⟨rollEntry r thr cc, rfl, hct r, ?_, ?_⟩
  · intro h0
    rw [hct r]
    unfold critTypeSpec
    congr 1
    funext d
    exact thresholdOr_eq_spec thr h0 d
  · intro r' hr'
    refine ⟨rollEntry r' thr cc, rfl, ?_⟩
    rw [hct r', hct r]
    unfold critTypeReference
    simp only [hr']

/-- Witness for C5 (amended): a d20 showing 20 and a d4 showing 1, default
threshold, `critChecks = [20]`. -/
theorem processRoll_critType_eq_reference_witness :
    ∃ e, processRoll (some ⟨21, [⟨20, [20]⟩, ⟨4, [1]⟩], false⟩) none (.faces [20]) = some e ∧
      e.critType = critTypeReference (fun d => thresholdOr none d.faces) (.faces [20])
        [⟨20, [20]⟩, ⟨4, [1]⟩] ∧
      ((none : Option Int) ≠ some 0 →
        e.critType = critTypeSpec none (.faces [20]) [⟨20, [20]⟩, ⟨4, [1]⟩]) ∧
      (∀ r' : Roll, r'.dice.filter (specConsidered (.faces [20])) =
          [(⟨20, [20]⟩ : DiceTerm), ⟨4, [1]⟩].filter (specConsidered (.faces [20])) →
        ∃ e', processRoll (some r') none (.faces [20]) = some e' ∧ e'.critType = e.critType) :=
  processRoll_critType_eq_reference ⟨21, [⟨20, [20]⟩, ⟨4, [1]⟩], false⟩ none (.faces [20])
    (by decide)

/-- C5, as stated, fails: with the threshold given as 0, a d20 showing 5 is
a high result for the reference of the specification (`"success"`), while
`processRoll` takes the die's face count as threshold and returns `null`. -/
theorem processRoll_critType_counterexample :
    critTypeSpec (some 0) .all [⟨20, [5]⟩] = some .success ∧
      processRoll (some ⟨5, [⟨20, [5]⟩], false⟩) (some 0) .all = some ⟨5, false, none, false⟩ := by
  exact ⟨by decide, rfl⟩

/-! ## Lemmas on `tagIgnored` and `rollMultiple` -/

theorem chosenResult_highest (l : List Int) (hl : l ≠ []) :
    ∃ m, chosenResult .highest l = some m ∧ m ∈ l ∧ ∀ x ∈ l, x ≤ m := by
  have hlen : (sortNumeric l).length = l.length := List.length_insertionSort _ l
  have hpos : 0 < l.length := List.length_pos.2 hl
  have hlt : l.length - 1 < (sortNumeric l).length := by omega
  have hsorted : (sortNumeric l).Sorted (· ≤ ·) := List.sorted_insertionSort _ l
  have hperm : (sortNumeric l).Perm l := List.perm_insertionSort _ l
  refine ⟨(sortNumeric l).get ⟨l.length - 1, hlt⟩, ?_, ?_, ?_⟩
  · simp only [chosenResult]
    exact List.getElem?_eq_getElem hlt
  · exact hperm.mem_iff.1 (List.get_mem _ _ _)
  · intro x hx
    obtain ⟨i, hi⟩ := List.get_of_mem (hperm.mem_iff.2 hx)
    rw [← hi]
    apply hsorted.rel_get_of_le
    have := i.2
    simp only [Fin.le_def]
    omega

theorem chosenResult_lowest (l : List Int) (hl : l ≠ []) :
    ∃ m, chosenResult .lowest l = some m ∧ m ∈ l ∧ ∀ x ∈ l, m ≤ x := by
  have hlen : (sortNumeric l).length = l.length := List.length_insertionSort _ l
  have hpos : 0 < l.length := List.length_pos.2 hl
  have hlt : 0 < (sortNumeric l).length := by omega
  have hsorted : (sortNumeric l).Sorted (· ≤ ·) := List.sorted_insertionSort _ l
  have hperm : (sortNumeric l).Perm l := List.perm_insertionSort _ l
  refine ⟨(sortNumeric l).get ⟨0, hlt⟩, ?_, ?_, ?_⟩
  · simp only [chosenResult]
    exact List.getElem?_eq_getElem hlt
  · exact hperm.mem_iff.1 (List.get_mem _ _ _)
  · intro x hx
    obtain ⟨i, hi⟩ := List.get_of_mem (hperm.mem_iff.2 hx)
    rw [← hi]
    apply hsorted.rel_get_of_le
    simp only [Fin.le_def]
    omega

theorem freshRolls_length (n : Nat) (src : Nat → Evaluation) : (freshRolls n src).length = n := by
  simp [freshRolls]

theorem freshRolls_totals (n : Nat) (src : Nat → Evaluation) :
    (freshRolls n src).map (·.total) = (List.range n).map fun i => (src i).total := by
  simp [freshRolls, Roll.ofEvaluation, Function.comp_def]

theorem freshRolls_head (n : Nat) (src : Nat → Evaluation) (hn : 1 ≤ n) :
    (freshRolls n src).head? = some (Roll.ofEvaluation (src 0)) := by
  cases n with
  | zero => omega
  | succ k => simp [freshRolls, List.range_succ_eq_map]

theorem rollMultiple_eq (n : Nat) (src : Nat → Evaluation) (thr : Option Int)
    (rs : Option RollState) (tc : Bool) (hn : 1 ≤ n) :
    rollMultiple n src thr rs tc =
      some { isCrit := ((tagIgnored rs (freshRolls n src)).map
                fun r => rollEntry r thr (.faces [20])).any fun e => !e.ignored && e.isCrit
             rolls := tagIgnored rs (freshRolls n src)
             rollEntries := (tagIgnored rs (freshRolls n src)).map
                fun r => rollEntry r thr (.faces [20])
             rollState := rs } := by
  simp only [rollMultiple, freshRolls_head n src hn]

theorem tagIgnored_length (rs : Option RollState) (rolls : List Roll) :
    (tagIgnored rs rolls).length = rolls.length := by
  cases rs <;> simp [tagIgnored]

theorem tagIgnored_fresh_getElem? (s : RollState) (n : Nat) (src : Nat → Evaluation) (i : Nat)
    (hi : i < n) :
    (tagIgnored (some s) (freshRolls n src))[i]? =
      some { total := (src i).total
             dice := (src i).dice
             ignored := decide (some (src i).total ≠
               chosenResult s ((List.range n).map fun j => (src j).total)) } := by
  simp only [tagIgnored, freshRolls_totals]
  simp only [freshRolls, List.map_map, List.getElem?_map, List.getElem?_range hi, Option.map_some',
    Function.comp, Roll.ofEvaluation]
  by_cases h : some (src i).total = chosenResult s ((List.range n).map fun j => (src j).total)
  · simp [h]
  · simp [h]

theorem totals_ne_nil (n : Nat) (src : Nat → Evaluation) (hn : 1 ≤ n) :
    ((List.range n).map fun j => (src j).total) ≠ [] := by
  cases n with
  | zero => omega
  | succ k => simp [List.range_succ_eq_map]

theorem mem_totals (n : Nat) (src : Nat → Evaluation) (x : Int) :
    x ∈ ((List.range n).map fun j => (src j).total) ↔ ∃ j, j < n ∧ (src j).total = x := by
  simp

theorem highest_ignored_iff (n : Nat) (src : Nat → Evaluation) (hn : 1 ≤ n) (i : Nat)
    (hi : i < n) :
    some (src i).total = chosenResult .highest ((List.range n).map fun j => (src j).total) ↔
      ∀ j, j < n → (src j).total ≤ (src i).total := by
  obtain ⟨m, hm, hmem, hmax⟩ := chosenResult_highest _ (totals_ne_nil n src hn)
  rw [hm]
  constructor
  · intro h j hj
    have : (src i).total = m := Option.some.inj h
    rw [this]
    exact hmax _ ((mem_totals n src _).2 ⟨j, hj, rfl⟩)
  · intro h
    obtain ⟨j, hj, hjm⟩ := (mem_totals n src m).1 hmem
    have h1 : m ≤ (src i).total := hjm ▸ h j hj
    have h2 : (src i).total ≤ m := hmax _ ((mem_totals n src _).2 ⟨i, hi, rfl⟩)
    rw [le_antisymm h2 h1]

theorem lowest_ignored_iff (n : Nat) (src : Nat → Evaluation) (hn : 1 ≤ n) (i : Nat)
    (hi : i < n) :
    some (src i).total = chosenResult .lowest ((List.range n).map fun j => (src j).total) ↔
      ∀ j, j < n → (src i).total ≤ (src j).total := by
  obtain ⟨m, hm, hmem, hmin⟩ := chosenResult_lowest _ (totals_ne_nil n src hn)
  rw [hm]
  constructor
  · intro h j hj
    have : (src i).total = m := Option.some.inj h
    rw [this]
    exact hmin _ ((mem_totals n src _).2 ⟨j, hj, rfl⟩)
  · intro h
    obtain ⟨j, hj, hjm⟩ := (mem_totals n src m).1 hmem
    have h1 : (src i).total ≤ m := hjm ▸ h j hj
    have h2 : m ≤ (src i).total := hmin _ ((mem_totals n src _).2 ⟨i, hi, rfl⟩)
    rw [le_antisymm h1 h2]

theorem tagged_ignored (s : RollState) (n : Nat) (src : Nat → Evaluation) :
    (tagIgnored (some s) (freshRolls n src)).map (·.ignored) =
      (List.range n).map fun i => decide (some (src i).total ≠
        chosenResult s ((List.range n).map fun j => (src j).total)) := by
  apply List.ext_getElem?
  intro i
  by_cases hi : i < n
  · rw [List.getElem?_map, tagIgnored_fresh_getElem? s n src i hi]
    simp [List.getElem?_range hi]
  · have h1 : (tagIgnored (some s) (freshRolls n src)).length ≤ i := by
      rw [tagIgnored_length, freshRolls_length]; omega
    rw [List.getElem?_map, List.getElem?_eq_none h1, List.getElem?_eq_none (by simpa using hi)]
    rfl

theorem exists_attaining (better : Int → Int → Prop) (n : Nat) (src : Nat → Evaluation)
    (m : Int) (hmem : ∃ j, j < n ∧ (src j).total = m)
    (hbest : ∀ j, j < n → better (src j).total m) :
    ∃ i, i < n ∧ ∀ j, j < n → better (src j).total (src i).total := by
  obtain ⟨i, hi, him⟩ := hmem
  exact ⟨i, hi, fun j hj => him ▸ hbest j hj⟩

theorem selectsExactly_of (better : Int → Int → Prop)
    (s : RollState) (n : Nat) (src : Nat → Evaluation)
    (thr : Option Int) (tc : Bool) (hn : 1 ≤ n)
    (hiff : ∀ i, i < n →
      (some (src i).total = chosenResult s ((List.range n).map fun j => (src j).total) ↔
        ∀ j, j < n → better (src j).total (src i).total))
    (hex : ∃ i, i < n ∧ ∀ j, j < n → better (src j).total (src i).total) :
    ∃ out, rollMultiple n src thr (some s) tc = some out ∧ SelectsExactly better n src out := by
  refine ⟨_, rollMultiple_eq n src thr (some s) tc hn, ?_, ?_, ?_, ?_⟩
  · simp [tagIgnored_length, freshRolls_length]
  · intro i hi
    refine ⟨_, tagIgnored_fresh_getElem? s n src i hi, ?_⟩
    simp only [decide_eq_false_iff_not, not_not, ne_eq]
    exact hiff i hi
  · obtain ⟨i, hi, hbest⟩ := hex
    refine ⟨i, hi, _, tagIgnored_fresh_getElem? s n src i hi, ?_⟩
    simp only [decide_eq_false_iff_not, not_not, ne_eq]
    exact (hiff i hi).2 hbest
  · intro i hi huniq k hk
    refine ⟨_, tagIgnored_fresh_getElem? s n src k hk, ?_⟩
    simp only [decide_eq_false_iff_not, not_not, ne_eq]
    rw [hiff k hk]
    constructor
    · intro hbest
      by_contra hne
      exact huniq k hk hne (hbest i hi)
    · rintro rfl
      obtain ⟨i', hi', hbest'⟩ := hex
      by_cases hii : i' = k
      · exact hii ▸ hbest'
      · exact absurd (hbest' k hk) (huniq i' hi' hii)

theorem exists_best_highest (n : Nat) (src : Nat → Evaluation) (hn : 1 ≤ n) :
    ∃ i, i < n ∧ ∀ j, j < n → (src j).total ≤ (src i).total := by
  obtain ⟨m, -, hmem, hmax⟩ := chosenResult_highest _ (totals_ne_nil n src hn)
  obtain ⟨i, hi, him⟩ := (mem_totals n src m).1 hmem
  exact ⟨i, hi, fun j hj => him ▸ hmax _ ((mem_totals n src _).2 ⟨j, hj, rfl⟩)⟩

theorem exists_best_lowest (n : Nat) (src : Nat → Evaluation) (hn : 1 ≤ n) :
    ∃ i, i < n ∧ ∀ j, j < n → (src i).total ≤ (src j).total := by
  obtain ⟨m, -, hmem, hmin⟩ := chosenResult_lowest _ (totals_ne_nil n src hn)
  obtain ⟨i, hi, him⟩ := (mem_totals n src m).1 hmem
  exact ⟨i, hi, fun j hj => him ▸ hmin _ ((mem_totals n src _).2 ⟨j, hj, rfl⟩)⟩

/-- C1 (amended). For every count of at least 1, `rollMultiple` with
`rollState` "highest" leaves non-ignored exactly the evaluations whose total
is the maximum of all totals, and marks all the others ignored; at least one
evaluation is left non-ignored, and exactly one when the maximum is attained
once. Symmetrically for "lowest" and the minimum. -/
theorem rollMultiple_keeps_extremal (n : Nat) (source : Nat → Evaluation)
    (critThreshold : Option Int) (triggersCrit : Bool) (hn : 1 ≤ n) :
    (∃ out, rollMultiple n source critThreshold (some .highest) triggersCrit = some out ∧
      SelectsExactly (· ≤ ·) n source out) ∧
    (∃ out, rollMultiple n source critThreshold (some .lowest) triggersCrit = some out ∧
      SelectsExactly (· ≥ ·) n source out) :=
  ⟨selectsExactly_of (· ≤ ·) .highest n source critThreshold triggersCrit hn
      (fun i hi => highest_ignored_iff n source hn i hi) (exists_best_highest n source hn),
   selectsExactly_of (· ≥ ·) .lowest n source critThreshold triggersCrit hn
      (fun i hi => lowest_ignored_iff n source hn i hi) (exists_best_lowest n source hn)⟩

/-- Witness for C1 (amended): three evaluations, two of them tied. -/
theorem rollMultiple_keeps_extremal_witness :
    1 ≤ 3 ∧
    (∃ out, rollMultiple 3 elvenAccuracyDraws (some 20) (some .highest) true = some out ∧
      SelectsExactly (· ≤ ·) 3 elvenAccuracyDraws out) ∧
    (∃ out, rollMultiple 3 elvenAccuracyDraws (some 20) (some .lowest) true = some out ∧
      SelectsExactly (· ≥ ·) 3 elvenAccuracyDraws out) :=
  ⟨by decide, rollMultiple_keeps_extremal 3 elvenAccuracyDraws (some 20) true (by decide)⟩

/-- C1, as stated, fails: two evaluations with the same total, "highest":
both are left non-ignored. -/
theorem rollMultiple_tie_counterexample :
    (rollMultiple 2 tiedDraws none (some .highest)).map (fun out => out.rolls.map (·.ignored)) =
      some [false, false] := by
  decide

theorem selection_by_total (better : Int → Int → Prop) (s : RollState) (n : Nat)
    (source : Nat → Evaluation) (critThreshold : Option Int) (triggersCrit : Bool) (hn : 1 ≤ n)
    (hiff : ∀ (src : Nat → Evaluation) (i : Nat), i < n →
      (some (src i).total = chosenResult s ((List.range n).map fun j => (src j).total) ↔
        ∀ j, j < n → better (src j).total (src i).total))
    (hex : ∃ i, i < n ∧ ∀ j, j < n → better (source j).total (source i).total) :
    ∃ out, rollMultiple n source critThreshold (some s) triggersCrit = some out ∧
      SelectionByTotal better s n source out := by
  refine ⟨_, rollMultiple_eq n source critThreshold (some s) triggersCrit hn,
    ?_, ?_, ?_, ?_, ?_, ?_⟩
  · simp [tagIgnored_length, freshRolls_length]
  · intro i hi
    exact ⟨_, tagIgnored_fresh_getElem? s n source i hi, rfl, rfl⟩
  · intro r hr hign j hj
    obtain ⟨i, hi⟩ := List.mem_iff_getElem?.1 hr
    have hlt : i < n := by
      by_contra hge
      have h1 : (tagIgnored (some s) (freshRolls n source)).length ≤ i := by
        rw [tagIgnored_length, freshRolls_length]; omega
      have h2 := List.getElem?_eq_none h1
      simp only [] at hi
      rw [h2] at hi
      exact Option.noConfusion hi
    simp only [] at hi
    rw [tagIgnored_fresh_getElem? s n source i hlt] at hi
    have hr' := Option.some.inj hi
    subst hr'
    simp only [decide_eq_false_iff_not, not_not, ne_eq] at hign
    exact (hiff source i hlt).1 hign j hj
  · intro i hi hbest
    refine ⟨_, tagIgnored_fresh_getElem? s n source i hi, ?_⟩
    simp only [decide_eq_false_iff_not, not_not, ne_eq]
    exact (hiff source i hi).2 hbest
  · obtain ⟨i, hi, hbest⟩ := hex
    refine ⟨_, List.mem_iff_getElem?.2 ⟨i, tagIgnored_fresh_getElem? s n source i hi⟩, ?_⟩
    simp only [decide_eq_false_iff_not, not_not, ne_eq]
    exact (hiff source i hi).2 hbest
  · intro source' thr' tc' hsame
    refine ⟨_, rollMultiple_eq n source' thr' (some s) tc' hn, ?_⟩
    simp only []
    rw [tagged_ignored, tagged_ignored]
    have htot : ((List.range n).map fun j => (source' j).total) =
        (List.range n).map fun j => (source j).total := by
      apply List.map_congr_left
      intro j hj
      exact hsame j (List.mem_range.1 hj)
    rw [htot]
    apply List.map_congr_left
    intro i hi
    rw [hsame i (List.mem_range.1 hi)]

/-- C2. For every count of at least 1, after the selection step of
`rollMultiple` with "highest" every evaluation left non-ignored has a total
that is the maximum of all totals (the minimum with "lowest"), every
evaluation at the maximum (minimum) is left non-ignored, and so at least
one is; which evaluations are ignored is determined by the totals alone,
whatever the dice faces; and the outcome still holds all the evaluations,
in order. -/
theorem rollMultiple_selection_by_total (n : Nat) (source : Nat → Evaluation)
    (critThreshold : Option Int) (triggersCrit : Bool) (hn : 1 ≤ n) :
    (∃ out, rollMultiple n source critThreshold (some .highest) triggersCrit = some out ∧
      SelectionByTotal (· ≤ ·) .highest n source out) ∧
    (∃ out, rollMultiple n source critThreshold (some .lowest) triggersCrit = some out ∧
      SelectionByTotal (· ≥ ·) .lowest n source out) :=
  ⟨selection_by_total (· ≤ ·) .highest n source critThreshold triggersCrit hn
      (fun src i hi => highest_ignored_iff n src hn i hi) (exists_best_highest n source hn),
   selection_by_total (· ≥ ·) .lowest n source critThreshold triggersCrit hn
      (fun src i hi => lowest_ignored_iff n src hn i hi) (exists_best_lowest n source hn)⟩

/-- Witness for C2: three evaluations, two of them tied. -/
theorem rollMultiple_selection_by_total_witness :
    1 ≤ 3 ∧
    (∃ out, rollMultiple 3 elvenAccuracyDraws (some 20) (some .highest) true = some out ∧
      SelectionByTotal (· ≤ ·) .highest 3 elvenAccuracyDraws out) ∧
    (∃ out, rollMultiple 3 elvenAccuracyDraws (some 20) (some .lowest) true = some out ∧
      SelectionByTotal (· ≥ ·) .lowest 3 elvenAccuracyDraws out) :=
  ⟨by decide, rollMultiple_selection_by_total 3 elvenAccuracyDraws (some 20) true (by decide)⟩

theorem isCrit_iff_exists_kept (n : Nat) (source : Nat → Evaluation)
    (critThreshold : Option Int) (rollState : Option RollState) (triggersCrit : Bool)
    (hn : 1 ≤ n) :
    ∃ out, rollMultiple n source critThreshold rollState triggersCrit = some out ∧
      (out.isCrit = true ↔
        ∃ r ∈ out.rolls, r.ignored = false ∧
          ∃ e, processRoll (some r) critThreshold (.faces [20]) = some e ∧ e.isCrit = true) ∧
      (∀ d : DiceTerm, diceConsidered (.faces [20]) d = true ↔ d.faces = 20) := by
  refine ⟨_, rollMultiple_eq n source critThreshold rollState triggersCrit hn, ?_, ?_⟩
  · simp only [List.any_eq_true, List.mem_map, processRoll, Option.some.injEq,
      Bool.and_eq_true, Bool.not_eq_true']
    constructor
    · rintro ⟨e, ⟨r, hr, rfl⟩, h1, h2⟩
      exact ⟨r, hr, h1, _, rfl, h2⟩
    · rintro ⟨r, hr, h1, e, rfl, h2⟩
      exact ⟨_, ⟨r, hr, rfl⟩, h1, h2⟩
  · intro d
    simp only [diceConsidered, CritChecks.looseEqTrue, CritChecks.includes, Bool.and_eq_true,
      Bool.or_eq_true, decide_eq_true_eq, List.mem_singleton]
    constructor
    · rintro ⟨-, h | h⟩
      · exact absurd h (by decide)
      · exact h
    · intro h
      exact ⟨by omega, Or.inr h⟩

/-- C6. The `isCrit` reported by `rollMultiple` is true exactly when some
evaluation that is not marked ignored is classified `isCrit` by
`Utils.processRoll` with the given threshold over its d20 dice (the dice
considered for `critChecks = [20]` are those with 20 faces); an ignored
evaluation never makes the outcome a crit. -/
theorem rollMultiple_isCrit_iff (n : Nat) (source : Nat → Evaluation)
    (critThreshold : Option Int) (rollState : Option RollState) (triggersCrit : Bool)
    (hn : 1 ≤ n) :
    ∃ out, rollMultiple n source critThreshold rollState triggersCrit = some out ∧
      (out.isCrit = true ↔
        ∃ r ∈ out.rolls, r.ignored = false ∧
          ∃ e, processRoll (some r) critThreshold (.faces [20]) = some e ∧ e.isCrit = true) ∧
      (∀ d : DiceTerm, diceConsidered (.faces [20]) d = true ↔ d.faces = 20) :=
  isCrit_iff_exists_kept n source critThreshold rollState triggersCrit hn

/-- Witness for C6: the elven-accuracy pool of three evaluations. -/
theorem rollMultiple_isCrit_iff_witness :
    ∃ out, rollMultiple 3 elvenAccuracyDraws (some 20) (some .highest) true = some out ∧
      (out.isCrit = true ↔
        ∃ r ∈ out.rolls, r.ignored = false ∧
          ∃ e, processRoll (some r) (some 20) (.faces [20]) = some e ∧ e.isCrit = true) ∧
      (∀ d : DiceTerm, diceConsidered (.faces [20]) d = true ↔ d.faces = 20) :=
  rollMultiple_isCrit_iff 3 elvenAccuracyDraws (some 20) (some .highest) true (by decide)

/-- C7, on the code: a pool of three evaluations of one d20 with "highest",
where the two non-ignored evaluations both show 20 against threshold 20,
is reported with `isCrit = false`. -/
theorem rollMultiple_two_twenties_not_crit :
    rollMultiple 3 elvenAccuracyDraws (some 20) (some .highest) true =
      some { isCrit := false
             rolls := [⟨25, [⟨20, [20]⟩], false⟩, ⟨25, [⟨20, [20]⟩], false⟩,
                       ⟨12, [⟨20, [7]⟩], true⟩]
             rollEntries := [⟨25, false, some .success, false⟩,
                             ⟨25, false, some .success, false⟩, ⟨12, true, none, false⟩]
             rollState := some .highest } := by
  decide

theorem highHits_single_d20 (thr : Option Int) (x : Int) (rest : List DiceTerm)
    (hrest : ∀ d ∈ rest, d.faces ≠ 20) :
    highHits thr (.faces [20]) (⟨20, [x]⟩ :: rest) ≤ 1 := by
  have h0 : highHits thr (.faces [20]) rest = 0 := by
    by_contra hne
    obtain ⟨d, hd, hc, -⟩ := (highHits_pos_iff thr _ rest).1 (Nat.pos_of_ne_zero hne)
    have : d.faces = 20 := by
      simp only [diceConsidered, CritChecks.looseEqTrue, CritChecks.includes, Bool.and_eq_true,
        Bool.or_eq_true, decide_eq_true_eq, List.mem_singleton] at hc
      rcases hc with ⟨-, h | h⟩
      · exact absurd h (by decide)
      · exact h
    exact hrest d hd this
  rw [highHits_cons, h0]
  by_cases hx : thresholdOr thr 20 ≤ x <;> simp [diceConsidered, CritChecks.looseEqTrue,
    CritChecks.includes, hx]

/-- In general, when every evaluation holds a single
d20 result (one d20 term with one result, any other dice not d20s),
`rollMultiple` never reports a crit, whatever the results and the
threshold. -/
theorem rollMultiple_one_d20_never_crit (n : Nat) (source : Nat → Evaluation)
    (critThreshold : Option Int) (rollState : Option RollState) (triggersCrit : Bool)
    (hn : 1 ≤ n)
    (hone : ∀ i, i < n → ∃ x rest, (source i).dice = ⟨20, [x]⟩ :: rest ∧
      ∀ d ∈ rest, d.faces ≠ 20) :
    ∃ out, rollMultiple n source critThreshold rollState triggersCrit = some out ∧
      out.isCrit = false := by
  obtain ⟨out, hout, hiff, -⟩ :=
    isCrit_iff_exists_kept n source critThreshold rollState triggersCrit hn
  refine ⟨out, hout, ?_⟩
  by_contra hne
  have htrue : out.isCrit = true := by simpa using hne
  obtain ⟨r, hr, -, e, he, hcrit⟩ := hiff.1 htrue
  have hrolls : out.rolls = tagIgnored rollState (freshRolls n source) := by
    rw [rollMultiple_eq n source critThreshold rollState triggersCrit hn] at hout
    exact (congrArg MultiRoll.rolls (Option.some.inj hout)).symm
  have hdice : ∃ i, i < n ∧ r.dice = (source i).dice := by
    rw [hrolls] at hr
    cases rollState with
    | none =>
      simp only [tagIgnored, freshRolls, List.mem_map, List.mem_range] at hr
      obtain ⟨i, hi, rfl⟩ := hr
      exact ⟨i, hi, rfl⟩
    | some s =>
      simp only [tagIgnored, freshRolls, List.mem_map, List.mem_range] at hr
      obtain ⟨_, ⟨i, hi, rfl⟩, rfl⟩ := hr
      refine ⟨i, hi, ?_⟩
      split <;> rfl
  obtain ⟨i, hi, hd⟩ := hdice
  obtain ⟨x, rest, hx, hrest⟩ := hone i hi
  have hle := highHits_single_d20 critThreshold x rest hrest
  simp only [processRoll, Option.some.injEq] at he
  subst he
  simp only [rollEntry, countHighLow_eq, decide_eq_true_eq, hd, hx] at hcrit
  omega

theorem rollDamageFormula_frame (env : Env) (run : RollRun) (call : DamageCall) (f : String) :
    (rollDamageFormula env run call f).run.frame = run.frame ∧
    (rollDamageFormula env run call f).run.damageCalls = run.damageCalls ∧
    (rollDamageFormula env run call f).run.templates = run.templates ∧
    (rollDamageFormula env run call f).result ≠ .outOfFuel := by
  unfold rollDamageFormula
  dsimp only
  repeat' split
  all_goals simp [RollRun.frame]

theorem rollDamage_frame (env : Env) (run : RollRun) (call : DamageCall) :
    (rollDamage env run call).run.frame = run.frame := by
  unfold rollDamage
  dsimp only
  repeat' split
  all_goals first | rfl | exact (rollDamageFormula_frame env _ call _).1

theorem rollDamage_calls (env : Env) (run : RollRun) (call : DamageCall) :
    (rollDamage env run call).run.damageCalls =
      run.damageCalls ++ [{ item := run.item, call := call }] := by
  unfold rollDamage
  dsimp only
  repeat' split
  all_goals first | rfl | exact (rollDamageFormula_frame env _ call _).2.1

theorem rollDamage_templates (env : Env) (run : RollRun) (call : DamageCall) :
    (rollDamage env run call).run.templates = run.templates := by
  unfold rollDamage
  dsimp only
  repeat' split
  all_goals first | rfl | exact (rollDamageFormula_frame env _ call _).2.2.1

theorem rollDamage_not_outOfFuel (env : Env) (run : RollRun) (call : DamageCall) :
    (rollDamage env run call).result ≠ .outOfFuel := by
  unfold rollDamage
  dsimp only
  repeat' split
  all_goals first | exact (rollDamageFormula_frame env _ call _).2.2.2 | simp

theorem rollDamage_isCrit (env : Env) (run : RollRun) (call : DamageCall) :
    (rollDamage env run call).run.isCrit = run.isCrit :=
  congrArg (fun f => f.2.2.2.2.2.1) (rollDamage_frame env run call)

theorem rollDamage_item (env : Env) (run : RollRun) (call : DamageCall) :
    (rollDamage env run call).run.item = run.item :=
  congrArg (fun f => f.1) (rollDamage_frame env run call)

theorem rollDamage_ammo (env : Env) (run : RollRun) (call : DamageCall) :
    (rollDamage env run call).run.ammo = run.ammo :=
  congrArg (fun f => f.2.1) (rollDamage_frame env run call)

theorem damageLoop_frame (env : Env) (isAll : Bool) (v : Option Bool) (c : Option ForceCrit)
    (ctx : Option String) (indices : List Nat) (i : Nat) (run : RollRun) :
    (damageLoop env isAll v c ctx indices i run).run.frame = run.frame := by
  induction indices generalizing i run with
  | nil => rfl
  | cons idx rest ih =>
    unfold damageLoop
    dsimp only
    split
    · rw [ih]
      exact rollDamage_frame env run _
    · exact rollDamage_frame env run _
    · exact rollDamage_frame env run _

theorem damageLoop_not_outOfFuel (env : Env) (isAll : Bool) (v : Option Bool)
    (c : Option ForceCrit) (ctx : Option String) (indices : List Nat) (i : Nat) (run : RollRun) :
    (damageLoop env isAll v c ctx indices i run).result ≠ .outOfFuel := by
  induction indices generalizing i run with
  | nil => simp [damageLoop]
  | cons idx rest ih =>
    unfold damageLoop
    dsimp only
    split
    · exact ih _ _
    · simp
    · rename_i h
      exact absurd h (rollDamage_not_outOfFuel env run _)

theorem rollAttack_isCrit_mono (env : Env) (run : RollRun) (args : AttackArgs)
    (h : run.isCrit = true) : (rollAttack env run args).run.isCrit = true := by
  unfold rollAttack
  dsimp only
  split
  · exact h
  · split <;> simp [h]

theorem rollTool_isCrit_mono (env : Env) (run : RollRun) (args : CheckArgs)
    (h : run.isCrit = true) : (rollTool env run args).run.isCrit = true := by
  unfold rollTool
  dsimp only
  repeat' split
  all_goals simp [h]

theorem rollOther_isCrit (env : Env) (run : RollRun) :
    (rollOther env run).run.isCrit = run.isCrit := by
  unfold rollOther
  dsimp only
  repeat' split
  all_goals rfl

theorem rollCritExtra_isCrit (env : Env) (run : RollRun) :
    (rollCritExtra env run).run.isCrit = run.isCrit := by
  unfold rollCritExtra
  split
  · exact rollDamage_isCrit env run _
  · rfl

theorem pushTemplate_isCrit (ran : Ran Template) :
    (pushTemplate ran).run.isCrit = ran.run.isCrit := by
  unfold pushTemplate
  split <;> rfl

theorem fieldToTemplateFuel_isCrit_mono (env : Env) (fuel : Nat) (run : RollRun) (field : Field)
    (h : run.isCrit = true) : (fieldToTemplateFuel env fuel run field).run.isCrit = true := by
  induction fuel generalizing run field with
  | zero => exact h
  | succ fuel ih =>
    have hloop : ∀ isAll v c ctx indices,
        (damageLoop env isAll v c ctx indices 0 run).run.isCrit = true := by
      intro isAll v c ctx indices
      have := congrArg (fun f => f.2.2.2.2.2.1) (damageLoop_frame env isAll v c ctx indices 0 run)
      exact this.trans h
    cases field with
    | attack args =>
      simp only [fieldToTemplateFuel, pushTemplate_isCrit]
      exact rollAttack_isCrit_mono env run args h
    | check args =>
      simp only [fieldToTemplateFuel, pushTemplate_isCrit]
      exact rollTool_isCrit_mono env run args h
    | damage args =>
      simp only [fieldToTemplateFuel]
      split
      · exact h
      · split
        · split
          · split
            · exact ih _ _ (hloop _ _ _ _ _)
            · exact ih _ _ (hloop _ _ _ _ _)
            · exact ih _ _ (hloop _ _ _ _ _)
          · exact hloop _ _ _ _ _
        · exact hloop _ _ _ _ _
        · exact hloop _ _ _ _ _
    | savedc abl dc =>
      simp only [fieldToTemplateFuel, pushTemplate_isCrit, saveRollButton]
      split <;> exact h
    | other =>
      simp only [fieldToTemplateFuel]
      split
      · rw [pushTemplate_isCrit, rollOther_isCrit]; exact h
      · exact h
    | custom args =>
      simp only [fieldToTemplateFuel]
      split <;> exact h
    | desc =>
      simp only [fieldToTemplateFuel]
      split <;> exact h
    | text args =>
      simp only [fieldToTemplateFuel]
      repeat' split
      all_goals exact h
    | flavor text => exact h
    | crit =>
      simp only [fieldToTemplateFuel]
      rw [pushTemplate_isCrit, rollCritExtra_isCrit]; exact h
    | unknown => exact h

theorem fieldsLoop_isCrit_mono (env : Env) (fields : List Field) (run : RollRun)
    (h : run.isCrit = true) : (fieldsLoop env fields run).run.isCrit = true := by
  induction fields generalizing run with
  | nil => exact h
  | cons field rest ih =>
    have h1 : (fieldToTemplate env run field).run.isCrit = true :=
      fieldToTemplateFuel_isCrit_mono env 2 run field h
    unfold fieldsLoop
    dsimp only
    split
    · exact ih _ h1
    · exact h1
    · exact h1

/-- C9. The flag `isCrit` is monotonic over a pipeline run: if it is true
before `fieldToTemplate` processes a request, of whatever kind, it is true
afterwards (also when the processing throws), and so it stays true through
every later request of `allFieldsToTemplates`; the constructor starts it
at `params.forceCrit`. -/
theorem fieldToTemplate_isCrit_monotonic (env : Env) (run : RollRun) (field : Field)
    (h : run.isCrit = true) :
    (fieldToTemplate env run field).run.isCrit = true ∧
    (∀ fields : List Field, (fieldsLoop env fields run).run.isCrit = true) ∧
    (allFieldsToTemplates env run).run.isCrit = true ∧
    (∀ (item : Item) (params : Params) (fields : List Field),
      (RollRun.create item params fields).isCrit = params.forceCrit) := by
  refine ⟨fieldToTemplateFuel_isCrit_mono env 2 run field h,
    fun fields => fieldsLoop_isCrit_mono env fields run h, ?_, fun _ _ _ => rfl⟩
  have hl := fieldsLoop_isCrit_mono env run.fields run h
  unfold allFieldsToTemplates
  dsimp only
  split
  · split
    · exact fieldToTemplateFuel_isCrit_mono env 2 _ _ hl
    · exact hl
  · exact hl
  · exact hl

/-- Witness for C9: a forced-crit roll of a longsword processing a damage
request. -/
theorem fieldToTemplate_isCrit_monotonic_witness :
    (RollRun.create longsword { forceCrit := true } []).isCrit = true ∧
    (fieldToTemplate doubleTwentyEnv (RollRun.create longsword { forceCrit := true } [])
      (.damage (some { index := some .all }))).run.isCrit = true :=
  ⟨rfl, (fieldToTemplate_isCrit_monotonic doubleTwentyEnv
    (RollRun.create longsword { forceCrit := true } [])
    (.damage (some { index := some .all })) rfl).1⟩

/-- C8, on the code: an attack request with `triggersCrit: false` whose
evaluation holds two d20 results of 20 (bonus `"1d20"`) turns the flag
`isCrit` of a non-crit run on. -/
theorem rollAttack_triggersCrit_false_sets_isCrit :
    (RollRun.create longsword {} []).isCrit = false ∧
    (fieldToTemplate doubleTwentyEnv (RollRun.create longsword {} [])
      (.attack { triggersCrit := some false, bonus := some "1d20" })).run.isCrit = true ∧
    (fieldToTemplate doubleTwentyEnv (RollRun.create longsword {} [])
      (.attack { triggersCrit := some false, bonus := some "1d20" })).result =
        .returned true := by
  decide

/-- In general, `rollAttack` does the same whatever
`triggersCrit` is, and sets the flag whenever the outcome reports a crit. -/
theorem rollAttack_ignores_triggersCrit (env : Env) (run : RollRun) (args : AttackArgs)
    (t : Option Bool) :
    (rollAttack env run { args with triggersCrit := t }).run = (rollAttack env run args).run ∧
    (∀ out, (rollAttack env run args).result = .returned out → out.isCrit = true →
      (rollAttack env run args).run.isCrit = true) := by
  constructor
  · unfold rollAttack rollMultiple
    dsimp only
  · intro out hres hcrit
    unfold rollAttack at hres ⊢
    dsimp only at hres ⊢
    split at hres
    · exact absurd hres (by simp)
    · rename_i output hout
      simp only [hout]
      have : output = out := by simpa using hres
      subst this
      simp [hcrit]

/-- The method `rollTool` reads the bare name `triggersCrit`, not
`args.triggersCrit`, so its effect does not depend on the request's flag;
and where no global `actor` is bound it throws before rolling. -/
theorem rollTool_ignores_triggersCrit (env : Env) (run : RollRun) (args : CheckArgs)
    (t : Option Bool) :
    (rollTool env run { args with triggersCrit := t }).run = (rollTool env run args).run ∧
    (env.globalActor = false → (rollTool env run args).result = .threw ∧
      (rollTool env run args).run = run) := by
  constructor
  · unfold rollTool rollMultiple
    dsimp only
  · intro hg
    unfold rollTool
    dsimp only
    split
    · exact ⟨rfl, rfl⟩
    · simp [hg]

theorem damageLoop_all_calls (env : Env) (v : Option Bool) (c : Option ForceCrit)
    (ctx : Option String) (k i : Nat) (run : RollRun) :
    ∃ m, m ≤ k ∧
      (damageLoop env true v c ctx (List.range' i k) i run).run.damageCalls =
        run.damageCalls ++ (List.range' i m).map (allInvocation run.item v c ctx) ∧
      ((damageLoop env true v c ctx (List.range' i k) i run).result = .returned () → m = k) := by
  induction k generalizing i run with
  | zero => exact ⟨0, le_refl _, by simp [damageLoop], fun _ => rfl⟩
  | succ k ih =>
    rw [List.range'_succ]
    unfold damageLoop
    dsimp only
    have hcall : ({ damageIndex := i
                    forceVersatile := if i = 0 ∨ true = false then v else some false
                    forceCrit := c
                    customContext := ctx } : DamageCall) =
        (allInvocation run.item v c ctx i).call := by
      simp [allInvocation]
    rw [hcall]
    split
    · rename_i template hres
      obtain ⟨m, hm, hcalls, hret⟩ := ih (i + 1)
        { (rollDamage env run (allInvocation run.item v c ctx i).call).run with
          templates := (rollDamage env run (allInvocation run.item v c ctx i).call).run.templates
            ++ [template] }
      refine ⟨m + 1, by omega, ?_, fun h => by rw [hret h]⟩
      rw [hcalls]
      simp only [rollDamage_calls, rollDamage_item, List.range'_succ, List.map_cons,
        List.append_assoc, List.singleton_append]
      rfl
    · refine ⟨1, by omega, ?_, fun h => by simp at h⟩
      simp only [rollDamage_calls, List.range'_one, List.map_cons, List.map_nil]
      rfl
    · refine ⟨1, by omega, ?_, fun h => by simp at h⟩
      simp only [rollDamage_calls, List.range'_one, List.map_cons, List.map_nil]
      rfl

theorem range'_map_prefix {α : Type} (f : Nat → α) (m n : Nat) (h : m ≤ n) :
    (List.range' 0 m).map f <+: (List.range n).map f := by
  rw [List.range_eq_range']
  obtain ⟨d, rfl⟩ := Nat.exists_eq_add_of_le h
  refine ⟨(List.range' m d).map f, ?_⟩
  rw [← List.map_append]
  congr 1
  have := List.range'_append 0 m d 1
  rw [Nat.add_comm m d]
  simpa using this

theorem damageLoop_item (env : Env) (isAll : Bool) (v : Option Bool) (c : Option ForceCrit)
    (ctx : Option String) (indices : List Nat) (i : Nat) (run : RollRun) :
    (damageLoop env isAll v c ctx indices i run).run.item = run.item :=
  congrArg (fun f => f.1) (damageLoop_frame env isAll v c ctx indices i run)

theorem damageLoop_ammo (env : Env) (isAll : Bool) (v : Option Bool) (c : Option ForceCrit)
    (ctx : Option String) (indices : List Nat) (i : Nat) (run : RollRun) :
    (damageLoop env isAll v c ctx indices i run).run.ammo = run.ammo :=
  congrArg (fun f => f.2.1) (damageLoop_frame env isAll v c ctx indices i run)

/-- What `fieldToTemplateFuel` does for a damage request with index "all"
when no ammo substitution is active: the loop alone. -/
theorem fieldToTemplateFuel_all_no_ammo (env : Env) (fuel : Nat) (run : RollRun)
    (v : Option Bool) (c : Option ForceCrit) (ctx : Option String) (hammo : run.ammo = none) :
    ∃ m, m ≤ run.item.damageParts.length ∧
      (fieldToTemplateFuel env (fuel + 1) run
        (.damage (some { index := some .all, versatile := v, crit := c, context := ctx }))
        ).run.damageCalls =
        run.damageCalls ++ (List.range' 0 m).map (allInvocation run.item v c ctx) ∧
      ((fieldToTemplateFuel env (fuel + 1) run
        (.damage (some { index := some .all, versatile := v, crit := c, context := ctx }))
        ).result = .returned true → m = run.item.damageParts.length) ∧
      (fieldToTemplateFuel env (fuel + 1) run
        (.damage (some { index := some .all, versatile := v, crit := c, context := ctx }))
        ).result ≠ .outOfFuel := by
  obtain ⟨m, hm, hcalls, hret⟩ :=
    damageLoop_all_calls env v c ctx run.item.damageParts.length 0 run
  have hammo' := (damageLoop_ammo env true v c ctx
    (List.range' 0 run.item.damageParts.length) 0 run).trans hammo
  have hne := damageLoop_not_outOfFuel env true v c ctx
    (List.range' 0 run.item.damageParts.length) 0 run
  have hunit : ∀ u : Unit,
      (damageLoop env true v c ctx (List.range' 0 run.item.damageParts.length) 0 run).result =
        .returned u → m = run.item.damageParts.length := fun u h => hret (by cases u; exact h)
  refine ⟨m, hm, ?_, ?_, ?_⟩
  · simp only [fieldToTemplateFuel, Option.getD_some, indexArray, List.range_eq_range',
      decide_True]
    split
    · simp only [hammo']
      exact hcalls
    · exact hcalls
    · exact hcalls
  · simp only [fieldToTemplateFuel, Option.getD_some, indexArray, List.range_eq_range',
      decide_True]
    split
    · rename_i u h
      simp only [hammo']
      exact fun _ => hunit u h
    · simp
    · simp
  · simp only [fieldToTemplateFuel, Option.getD_some, indexArray, List.range_eq_range',
      decide_True]
    split
    · simp only [hammo']
      simp
    · simp
    · rename_i h
      exact absurd h hne

theorem scaleDamage_ne_none (env : Env) (run : RollRun) (i : Nat) (b : Bool)
    (hitems : run.item.actorItems ≠ []) : scaleDamage env run i b ≠ none := by
  have hlevel : getCharacterLevel run.item.actorItems ≠ none := by
    unfold getCharacterLevel
    split
    · rename_i h
      exact absurd h hitems
    · simp
  unfold scaleDamage
  dsimp only
  split
  · split
    · rename_i h
      split at h
      · exact absurd h hlevel
      · simp at h
    · repeat' split
      all_goals simp
  · repeat' split
    all_goals simp

theorem applyScaling_ne_none (env : Env) (run : RollRun) (call : DamageCall) (b : Bool)
    (f : String) (hitems : run.item.actorItems ≠ []) : applyScaling env run call b f ≠ none := by
  unfold applyScaling
  split
  · split
    · rename_i hs
      exact absurd hs (scaleDamage_ne_none env run _ _ hitems)
    · split <;> simp
    · simp
  · simp

theorem rollDamageFormula_returns (env : Env) (run : RollRun) (call : DamageCall) (f : String)
    (hcrit : wantsCritRoll env run (call.forceCrit.getD .no) = false) :
    ∃ t, (rollDamageFormula env run call f).result = .returned t := by
  unfold rollDamageFormula
  simp only [hcrit]
  exact ⟨_, rfl⟩

theorem rollDamage_returns (env : Env) (run : RollRun) (call : DamageCall)
    (hpart : call.damageIndex < run.item.damageParts.length)
    (hitems : run.item.actorItems ≠ [])
    (hcrit : wantsCritRoll env run (call.forceCrit.getD .no) = false) :
    ∃ t, (rollDamage env run call).result = .returned t := by
  have hp : run.item.damageParts[call.damageIndex]? =
      some (run.item.damageParts[call.damageIndex]) := List.getElem?_eq_getElem hpart
  unfold rollDamage
  dsimp only
  rw [hp]
  dsimp only
  split
  · exact ⟨_, rfl⟩
  · split
    · rename_i hs
      exact absurd hs (applyScaling_ne_none env _ call _ _ hitems)
    · apply rollDamageFormula_returns
      exact hcrit

theorem wantsCritRoll_frame (env : Env) (run run' : RollRun) (fc : ForceCrit)
    (h : run'.frame = run.frame) : wantsCritRoll env run' fc = wantsCritRoll env run fc := by
  have h1 : run'.isCrit = run.isCrit := congrArg (fun f => f.2.2.2.2.2.1) h
  have h2 : run'.params = run.params := congrArg (fun f => f.2.2.1) h
  simp [wantsCritRoll, critBehaviorOf, h1, h2]

theorem damageLoop_all_returns (env : Env) (v : Option Bool) (c : Option ForceCrit)
    (ctx : Option String) (k i : Nat) (run : RollRun)
    (hbound : i + k ≤ run.item.damageParts.length)
    (hitems : run.item.actorItems ≠ [])
    (hcrit : wantsCritRoll env run (c.getD .no) = false) :
    (damageLoop env true v c ctx (List.range' i k) i run).result = .returned () := by
  induction k generalizing i run with
  | zero => rfl
  | succ k ih =>
    rw [List.range'_succ]
    unfold damageLoop
    dsimp only
    obtain ⟨t, ht⟩ := rollDamage_returns env run
      { damageIndex := i
        forceVersatile := if i = 0 ∨ true = false then v else some false
        forceCrit := c
        customContext := ctx } (by dsimp only; omega) hitems hcrit
    rw [ht]
    dsimp only
    have hframe : ({ (rollDamage env run
        { damageIndex := i
          forceVersatile := if i = 0 ∨ true = false then v else some false
          forceCrit := c
          customContext := ctx }).run with
        templates := (rollDamage env run
          { damageIndex := i
            forceVersatile := if i = 0 ∨ true = false then v else some false
            forceCrit := c
            customContext := ctx }).run.templates ++ [t] } : RollRun).frame = run.frame :=
      rollDamage_frame env run _
    apply ih
    · have : ({ (rollDamage env run
          { damageIndex := i
            forceVersatile := if i = 0 ∨ true = false then v else some false
            forceCrit := c
            customContext := ctx }).run with
          templates := (rollDamage env run
            { damageIndex := i
              forceVersatile := if i = 0 ∨ true = false then v else some false
              forceCrit := c
              customContext := ctx }).run.templates ++ [t] } : RollRun).item = run.item :=
        congrArg (fun f => f.1) hframe
      rw [this]
      omega
    · have : ({ (rollDamage env run
          { damageIndex := i
            forceVersatile := if i = 0 ∨ true = false then v else some false
            forceCrit := c
            customContext := ctx }).run with
          templates := (rollDamage env run
            { damageIndex := i
              forceVersatile := if i = 0 ∨ true = false then v else some false
              forceCrit := c
              customContext := ctx }).run.templates ++ [t] } : RollRun).item = run.item :=
        congrArg (fun f => f.1) hframe
      rw [this]
      exact hitems
    · rw [wantsCritRoll_frame env run _ _ hframe]
      exact hcrit

theorem allInvocation_ammo (a : Item) (c : Option ForceCrit) (ctx : Option String) (m : Nat) :
    ∀ inv ∈ (List.range' 0 m).map (allInvocation a (some false) c ctx),
      inv.item = a ∧ inv.call.forceVersatile = some false := by
  intro inv hinv
  obtain ⟨j, -, rfl⟩ := List.mem_map.1 hinv
  refine ⟨rfl, ?_⟩
  simp [allInvocation]

theorem fieldToTemplateFuel_all_ammo_calls (env : Env) (fuel : Nat) (run : RollRun)
    (v : Option Bool) (c : Option ForceCrit) (ctx : Option String) (u : Unit) (a : Item)
    (hres : (damageLoop env true v c ctx (List.range' 0 run.item.damageParts.length) 0 run).result
      = .returned u)
    (hammo : (damageLoop env true v c ctx (List.range' 0 run.item.damageParts.length) 0 run
      ).run.ammo = some a) :
    (fieldToTemplateFuel env (fuel + 1) run
      (.damage (some { index := some .all, versatile := v, crit := c, context := ctx }))
      ).run.damageCalls =
    (fieldToTemplateFuel env fuel
      { (damageLoop env true v c ctx (List.range' 0 run.item.damageParts.length) 0 run).run with
        item := a, ammo := none }
      (.damage (some { index := some .all, versatile := some false, crit := c
                       context := some ("[" ++ a.name ++ "]") }))).run.damageCalls ∧
    ((fieldToTemplateFuel env (fuel + 1) run
      (.damage (some { index := some .all, versatile := v, crit := c, context := ctx }))
      ).result = .returned true →
     (fieldToTemplateFuel env (fuel + 1) run
      (.damage (some { index := some .all, versatile := v, crit := c, context := ctx }))
      ).run.item = run.item) := by
  simp only [fieldToTemplateFuel, Option.getD_some, indexArray, List.range_eq_range',
    decide_True, hres, hammo]
  constructor
  · split <;> rfl
  · split <;> simp

/-- C10. For a damage request whose index is "all" on an item with `n`
damage lines, `fieldToTemplate` invokes `rollDamage` on the item for the
damage indices 0, 1, ..., n-1 in ascending order and hands the request's
versatile override to the first invocation only (`own`); the invocations
stop early only if one of them throws, so a request that returns has made
exactly these `n`. Any further invocation (`rest`) belongs to the nested
request for an active ammo item and gets `forceVersatile = false`. Without
an ammo item, with an actor that owns items and no crit roll wanted, the
request returns. -/
theorem fieldToTemplate_damage_all (env : Env) (run : RollRun) (versatile : Option Bool)
    (crit : Option ForceCrit) (context : Option String) :
    ∃ own rest,
      (fieldToTemplate env run (.damage (some
        { index := some .all, versatile := versatile, crit := crit, context := context }))
        ).run.damageCalls = run.damageCalls ++ own ++ rest ∧
      own <+: allExpansion run.item versatile crit context ∧
      ((fieldToTemplate env run (.damage (some
        { index := some .all, versatile := versatile, crit := crit, context := context }))
        ).result = .returned true → own = allExpansion run.item versatile crit context) ∧
      (rest ≠ [] → own = allExpansion run.item versatile crit context) ∧
      (∀ inv ∈ rest, run.ammo = some inv.item ∧ inv.call.forceVersatile = some false) ∧
      (run.ammo = none → run.item.actorItems ≠ [] →
        wantsCritRoll env run (crit.getD .no) = false →
        (fieldToTemplate env run (.damage (some
          { index := some .all, versatile := versatile, crit := crit, context := context }))
          ).result = .returned true) := by
  obtain ⟨m, hm, hcalls, hret⟩ :=
    damageLoop_all_calls env versatile crit context run.item.damageParts.length 0 run
  have hunit : ∀ u : Unit,
      (damageLoop env true versatile crit context
        (List.range' 0 run.item.damageParts.length) 0 run).result = .returned u →
      m = run.item.damageParts.length := fun u h => hret (by cases u; exact h)
  have hammo := damageLoop_ammo env true versatile crit context
    (List.range' 0 run.item.damageParts.length) 0 run
  have hprefix : (List.range' 0 m).map (allInvocation run.item versatile crit context) <+:
      allExpansion run.item versatile crit context := range'_map_prefix _ m _ hm
  have hfull : m = run.item.damageParts.length →
      (List.range' 0 m).map (allInvocation run.item versatile crit context) =
        allExpansion run.item versatile crit context := by
    intro h
    rw [h, allExpansion, List.range_eq_range']
  have hreturns : run.item.actorItems ≠ [] → wantsCritRoll env run (crit.getD .no) = false →
      (damageLoop env true versatile crit context
        (List.range' 0 run.item.damageParts.length) 0 run).result = .returned () :=
    fun h1 h2 => damageLoop_all_returns env versatile crit context _ 0 run (by omega) h1 h2
  cases hres : (damageLoop env true versatile crit context
      (List.range' 0 run.item.damageParts.length) 0 run).result with
  | returned u =>
    cases hrun : run.ammo with
    | none =>
      refine ⟨_, [], ?_, hprefix, fun _ => hfull (hunit u hres), fun h => absurd rfl h,
        fun _ h => absurd h (List.not_mem_nil _), ?_⟩
      · simp only [fieldToTemplate, fieldToTemplateFuel, Option.getD_some, indexArray,
          List.range_eq_range', decide_True, hres, hammo, hrun, List.append_nil]
        exact hcalls
      · intro _ _ _
        simp only [fieldToTemplate, fieldToTemplateFuel, Option.getD_some, indexArray,
          List.range_eq_range', decide_True, hres, hammo, hrun]
    | some a =>
      obtain ⟨m2, -, hcalls2, -, -⟩ := fieldToTemplateFuel_all_no_ammo env 0
        { (damageLoop env true versatile crit context
            (List.range' 0 run.item.damageParts.length) 0 run).run with
          item := a, ammo := none } (some false) crit (some ("[" ++ a.name ++ "]")) rfl
      refine ⟨_, (List.range' 0 m2).map
          (allInvocation a (some false) crit (some ("[" ++ a.name ++ "]"))), ?_, hprefix,
        fun _ => hfull (hunit u hres), fun _ => hfull (hunit u hres), ?_, ?_⟩
      · rw [fieldToTemplate, (fieldToTemplateFuel_all_ammo_calls env 1 run versatile crit context
          u a hres (hammo.trans hrun)).1, hcalls2]
        simp only [hcalls]
      · intro inv hinv
        obtain ⟨h1, h2⟩ := allInvocation_ammo a crit _ m2 inv hinv
        exact ⟨by rw [h1], h2⟩
      · intro h
        exact absurd h (by simp)
  | threw =>
    refine ⟨_, [], ?_, hprefix, ?_, fun h => absurd rfl h,
      fun _ h => absurd h (List.not_mem_nil _), ?_⟩
    · simp only [fieldToTemplate, fieldToTemplateFuel, Option.getD_some, indexArray,
        List.range_eq_range', decide_True, hres, List.append_nil]
      exact hcalls
    · simp only [fieldToTemplate, fieldToTemplateFuel, Option.getD_some, indexArray,
        List.range_eq_range', decide_True, hres]
      intro h
      exact absurd h (by simp)
    · intro _ h1 h2
      rw [hreturns h1 h2] at hres
      exact absurd hres (by simp)
  | outOfFuel =>
    exact absurd hres (damageLoop_not_outOfFuel env true versatile crit context _ 0 run)

theorem fieldToTemplateFuel_no_ammo (env : Env) (fuel : Nat) (run : RollRun) (field : Field)
    (hammo : run.ammo = none) :
    fieldToTemplateFuel env (fuel + 1) run field = fieldToTemplateFuel env 1 run field := by
  cases field with
  | damage args =>
    simp only [fieldToTemplateFuel]
    split
    · rfl
    · rename_i index hindex
      have h := (damageLoop_ammo env (decide ((args.getD {}).index = some .all))
        (args.getD {}).versatile (args.getD {}).crit (args.getD {}).context index 0 run).trans
        hammo
      simp only [h]
  | _ => rfl

theorem fieldToTemplate_fuel (env : Env) (fuel : Nat) (run : RollRun) (field : Field) :
    fieldToTemplateFuel env (fuel + 2) run field = fieldToTemplate env run field := by
  unfold fieldToTemplate
  cases field with
  | damage args =>
    simp only [fieldToTemplateFuel]
    split
    · rfl
    · rename_i index hindex
      split
      · split
        · rename_i a _
          have h := fieldToTemplateFuel_no_ammo env fuel
            { (damageLoop env (decide ((args.getD {}).index = some .all))
                (args.getD {}).versatile (args.getD {}).crit (args.getD {}).context index 0
                run).run
              with item := a, ammo := none }
            (.damage (some { index := some .all, versatile := some false
                             crit := (args.getD {}).crit
                             context := some ("[" ++ a.name ++ "]") })) rfl
          simp only [fieldToTemplateFuel] at h
          simp only [h]
        · rfl
      · rfl
      · rfl
  | _ => rfl

theorem rollAttack_not_outOfFuel (env : Env) (run : RollRun) (args : AttackArgs) :
    (rollAttack env run args).result ≠ .outOfFuel := by
  unfold rollAttack
  dsimp only
  split <;> simp

theorem rollTool_not_outOfFuel (env : Env) (run : RollRun) (args : CheckArgs) :
    (rollTool env run args).result ≠ .outOfFuel := by
  unfold rollTool
  dsimp only
  repeat' split
  all_goals simp

theorem rollOther_not_outOfFuel (env : Env) (run : RollRun) :
    (rollOther env run).result ≠ .outOfFuel := by
  unfold rollOther
  dsimp only
  repeat' split
  all_goals simp

theorem pushTemplate_not_outOfFuel (ran : Ran Template) (h : ran.result ≠ .outOfFuel) :
    (pushTemplate ran).result ≠ .outOfFuel := by
  unfold pushTemplate
  split
  · simp
  · simp
  · rename_i h'
    exact absurd h' h

theorem fieldToTemplateFuel_one_not_outOfFuel (env : Env) (run : RollRun) (field : Field)
    (hammo : run.ammo = none) : (fieldToTemplateFuel env 1 run field).result ≠ .outOfFuel := by
  cases field with
  | attack args =>
    simp only [fieldToTemplateFuel]
    apply pushTemplate_not_outOfFuel
    have := rollAttack_not_outOfFuel env run args
    dsimp only
    split <;> simp_all
  | check args =>
    simp only [fieldToTemplateFuel]
    apply pushTemplate_not_outOfFuel
    have := rollTool_not_outOfFuel env run args
    dsimp only
    split <;> simp_all
  | damage args =>
    simp only [fieldToTemplateFuel]
    split
    · simp
    · rename_i index hindex
      have h := (damageLoop_ammo env (decide ((args.getD {}).index = some .all))
        (args.getD {}).versatile (args.getD {}).crit (args.getD {}).context index 0 run).trans
        hammo
      have hne := damageLoop_not_outOfFuel env (decide ((args.getD {}).index = some .all))
        (args.getD {}).versatile (args.getD {}).crit (args.getD {}).context index 0 run
      simp only [h]
      split
      · simp
      · simp
      · rename_i h'
        exact absurd h' hne
  | savedc abl dc =>
    simp only [fieldToTemplateFuel]
    apply pushTemplate_not_outOfFuel
    unfold saveRollButton
    split <;> simp
  | other =>
    simp only [fieldToTemplateFuel]
    split
    · exact pushTemplate_not_outOfFuel _ (rollOther_not_outOfFuel env run)
    · simp
  | custom args =>
    simp only [fieldToTemplateFuel]
    split <;> simp
  | desc =>
    simp only [fieldToTemplateFuel]
    split <;> simp
  | text args =>
    simp only [fieldToTemplateFuel]
    repeat' split
    all_goals simp
  | flavor text => simp [fieldToTemplateFuel]
  | crit =>
    simp only [fieldToTemplateFuel]
    apply pushTemplate_not_outOfFuel
    unfold rollCritExtra
    split
    · exact rollDamage_not_outOfFuel env run _
    · simp
  | unknown => simp [fieldToTemplateFuel]

/-- The recursion budget of `fieldToTemplate` is never used up. -/
theorem fieldToTemplate_not_outOfFuel (env : Env) (run : RollRun) (field : Field) :
    (fieldToTemplate env run field).result ≠ .outOfFuel := by
  cases hrun : run.ammo with
  | none =>
    have h := fieldToTemplateFuel_no_ammo env 1 run field hrun
    unfold fieldToTemplate
    rw [h]
    exact fieldToTemplateFuel_one_not_outOfFuel env run field hrun
  | some a =>
    cases field with
    | damage args =>
      simp only [fieldToTemplate, fieldToTemplateFuel]
      split
      · simp
      · rename_i index hindex
        have hne := damageLoop_not_outOfFuel env (decide ((args.getD {}).index = some .all))
          (args.getD {}).versatile (args.getD {}).crit (args.getD {}).context index 0 run
        split
        · split
          · rename_i a' _
            have h1 := fieldToTemplateFuel_one_not_outOfFuel env
              { (damageLoop env (decide ((args.getD {}).index = some .all))
                  (args.getD {}).versatile (args.getD {}).crit (args.getD {}).context index 0
                  run).run with item := a', ammo := none }
              (.damage (some { index := some .all, versatile := some false
                               crit := (args.getD {}).crit
                               context := some ("[" ++ a'.name ++ "]") })) rfl
            simp only [fieldToTemplateFuel] at h1
            split
            · simp
            · simp
            · rename_i h'
              exact absurd h' h1
          · simp
        · simp
        · rename_i h'
          exact absurd h' hne
    | attack args =>
      simp only [fieldToTemplate, fieldToTemplateFuel]
      apply pushTemplate_not_outOfFuel
      have := rollAttack_not_outOfFuel env run args
      dsimp only
      split <;> simp_all
    | check args =>
      simp only [fieldToTemplate, fieldToTemplateFuel]
      apply pushTemplate_not_outOfFuel
      have := rollTool_not_outOfFuel env run args
      dsimp only
      split <;> simp_all
    | savedc abl dc =>
      simp only [fieldToTemplate, fieldToTemplateFuel]
      apply pushTemplate_not_outOfFuel
      unfold saveRollButton
      split <;> simp
    | other =>
      simp only [fieldToTemplate, fieldToTemplateFuel]
      split
      · exact pushTemplate_not_outOfFuel _ (rollOther_not_outOfFuel env run)
      · simp
    | custom args =>
      simp only [fieldToTemplate, fieldToTemplateFuel]
      split <;> simp
    | desc =>
      simp only [fieldToTemplate, fieldToTemplateFuel]
      split <;> simp
    | text args =>
      simp only [fieldToTemplate, fieldToTemplateFuel]
      repeat' split
      all_goals simp
    | flavor text => simp [fieldToTemplate, fieldToTemplateFuel]
    | crit =>
      simp only [fieldToTemplate, fieldToTemplateFuel]
      apply pushTemplate_not_outOfFuel
      unfold rollCritExtra
      split
      · exact rollDamage_not_outOfFuel env run _
      · simp
    | unknown => simp [fieldToTemplate, fieldToTemplateFuel]

/-- An example: a longsword with two damage lines and no ammo,
versatile requested. -/
theorem fieldToTemplate_damage_all_longsword :
    (fieldToTemplate quiver (RollRun.create { longsword with actorItems := [{}] } {} [])
      (.damage (some { index := some .all, versatile := some true }))).run.damageCalls.map
        (fun inv => (inv.call.damageIndex, inv.call.forceVersatile)) =
      [(0, some true), (1, some false)] ∧
    (fieldToTemplate quiver (RollRun.create { longsword with actorItems := [{}] } {} [])
      (.damage (some { index := some .all, versatile := some true }))).result =
        .returned true := by
  decide

/-! ## Properties of `consumeCharge` -/

theorem consumeCharge_of_check_fails (env : Env) (run : RollRun)
    (h : usesCheckFails run.item run.params.useCharge = true ∨
      quantityCheckFails run.item run.params.useCharge = true ∨
      usesAndQuantityCheckFails run.item run.params.useCharge = true ∨
      rechargeCheckFails run.item run.params.useCharge = true) :
    consumeCharge env run = { output := .error, update := none, resourceConsulted := false } := by
  unfold consumeCharge
  dsimp only
  rcases h with h | h | h | h
  · simp [h]
  · by_cases h1 : usesCheckFails run.item run.params.useCharge = true
    · simp [h1]
    · simp [h1, h]
  · by_cases h1 : usesCheckFails run.item run.params.useCharge = true
    · simp [h1]
    · by_cases h2 : quantityCheckFails run.item run.params.useCharge = true
      · simp [h1, h2]
      · simp [h1, h2, h]
  · by_cases h1 : usesCheckFails run.item run.params.useCharge = true
    · simp [h1]
    · by_cases h2 : quantityCheckFails run.item run.params.useCharge = true
      · simp [h1, h2]
      · by_cases h3 : usesAndQuantityCheckFails run.item run.params.useCharge = true
        · simp [h1, h2, h3]
        · simp [h1, h2, h3, h]

theorem consumeCharge_of_checks_pass (env : Env) (run : RollRun)
    (h1 : usesCheckFails run.item run.params.useCharge = false)
    (h2 : quantityCheckFails run.item run.params.useCharge = false)
    (h3 : usesAndQuantityCheckFails run.item run.params.useCharge = false)
    (h4 : rechargeCheckFails run.item run.params.useCharge = false) :
    consumeCharge env run =
      if hasResource run.item && run.params.useCharge.resource then
        if env.handleResourceConsumption run.item then
          commitUpdates run.params.useCharge (chargeUpdates run.item run.params.useCharge) true
        else { output := .error, update := none, resourceConsulted := true }
      else commitUpdates run.params.useCharge (chargeUpdates run.item run.params.useCharge)
        false := by
  unfold consumeCharge
  simp [h1, h2, h3, h4]

theorem chargeUpdates_ne_error (item : Item) (request : UseCharge) :
    (chargeUpdates item request).1 ≠ .error := by
  unfold chargeUpdates
  dsimp only
  repeat' split
  all_goals simp

/-- C16 (amended). For every item on which uses are configured (one of
`uses.value`, `uses.max`, `uses.per` is set), when `consumeCharge` is called
with uses requested and quantity not requested and the item's current
use-count is zero, it returns `"error"`, without an update and without
consulting the resource collaborator. -/
theorem consumeCharge_no_uses_left (env : Env) (run : RollRun)
    (hconfigured : hasUses run.item = true)
    (huse : run.params.useCharge.use = true)
    (hquantity : run.params.useCharge.quantity = false)
    (hzero : run.item.usesValue = 0) :
    consumeCharge env run = { output := .error, update := none, resourceConsulted := false } :=
  consumeCharge_of_check_fails env run
    (Or.inl (by simp [usesCheckFails, hconfigured, huse, hquantity, hzero]))

/-- Witness for C16 (amended): a wand with 7 uses a day and none left. -/
theorem consumeCharge_no_uses_left_witness :
    consumeCharge quiver (chargeRun emptyWand { use := true }) =
      { output := .error, update := none, resourceConsulted := false } :=
  consumeCharge_no_uses_left quiver (chargeRun emptyWand { use := true }) rfl rfl rfl rfl

/-- C16, as stated, fails: a dagger has no uses configured, so with uses
requested, quantity not requested and a use-count of zero `consumeCharge`
returns `"success"` and commits an empty update. -/
theorem consumeCharge_unconfigured_uses_counterexample :
    plainDagger.usesValue = 0 ∧
    consumeCharge quiver (chargeRun plainDagger { use := true }) =
      { output := .success, update := some {}, resourceConsulted := false } := by
  decide

/-- C17. When `consumeCharge` is called with quantity requested and uses not
requested, and neither the recharge check nor the resource collaborator
fails, it returns `"error"` exactly when the item's quantity is zero;
otherwise it commits `quantity - 1` (and no use-count) and returns
`"destroy"` exactly when that new quantity is zero and the item is flagged
`autoDestroy`, `"success"` otherwise. -/
theorem consumeCharge_quantity_only (env : Env) (run : RollRun)
    (hquantity : run.params.useCharge.quantity = true)
    (huse : run.params.useCharge.use = false)
    (hrecharge : rechargeCheckFails run.item run.params.useCharge = false)
    (hresource : hasResource run.item = true → run.params.useCharge.resource = true →
      env.handleResourceConsumption run.item = true) :
    ((consumeCharge env run).output = .error ↔ run.item.quantity = 0) ∧
    (run.item.quantity ≠ 0 →
      (∃ u, (consumeCharge env run).update = some u ∧
        u.quantity = some ((run.item.quantity : Int) - 1) ∧ u.usesValue = none) ∧
      ((consumeCharge env run).output = .destroy ↔
        ((run.item.quantity : Int) - 1 = 0 ∧ run.item.autoDestroy = true)) ∧
      ((consumeCharge env run).output = .success ↔
        ¬ ((run.item.quantity : Int) - 1 = 0 ∧ run.item.autoDestroy = true))) := by
  have hu : chargeUpdates run.item run.params.useCharge =
      (if decide ((run.item.quantity : Int) ≤ 1) && run.item.autoDestroy then .destroy
        else .success, { quantity := some ((run.item.quantity : Int) - 1) }) := by
    unfold chargeUpdates
    simp [hquantity, huse]
  by_cases hq : run.item.quantity = 0
  · have := consumeCharge_of_check_fails env run
      (Or.inr (Or.inl (by simp [quantityCheckFails, hquantity, huse, hq])))
    simp [this, hq]
  · have hpass := consumeCharge_of_checks_pass env run
      (by simp [usesCheckFails, huse])
      (by simp [quantityCheckFails, hq])
      (by simp [usesAndQuantityCheckFails, huse]) hrecharge
    have hcommit : consumeCharge env run =
        commitUpdates run.params.useCharge (chargeUpdates run.item run.params.useCharge)
          (hasResource run.item && run.params.useCharge.resource) := by
      rw [hpass]
      by_cases hr : (hasResource run.item && run.params.useCharge.resource) = true
      · have h1 : hasResource run.item = true := by simp at hr; exact hr.1
        have h2 : run.params.useCharge.resource = true := by simp at hr; exact hr.2
        simp [hr, hresource h1 h2]
      · simp only [hr]
        simp at hr
        simp [hr]
    have hle : ((run.item.quantity : Int) ≤ 1) ↔ ((run.item.quantity : Int) - 1 = 0) := by
      omega
    rw [hcommit, hu]
    refine ⟨by simp [commitUpdates, hq]; split <;> simp, fun _ => ⟨?_, ?_, ?_⟩⟩
    · simp only [commitUpdates]
      split <;> exact ⟨_, rfl, rfl, rfl⟩
    · simp only [commitUpdates]
      by_cases ha : run.item.autoDestroy = true <;> by_cases hl : (run.item.quantity : Int) ≤ 1
        <;> simp [ha, hl, hle.symm]
    · simp only [commitUpdates]
      by_cases ha : run.item.autoDestroy = true <;> by_cases hl : (run.item.quantity : Int) ≤ 1
        <;> simp [ha, hl, hle.symm]

/-- Witness for C17: the last potion of a stack, flagged `autoDestroy`. -/
theorem consumeCharge_quantity_only_witness :
    ((consumeCharge quiver (chargeRun lastPotion { quantity := true })).output = .error ↔
      lastPotion.quantity = 0) ∧
    (lastPotion.quantity ≠ 0 →
      (∃ u, (consumeCharge quiver (chargeRun lastPotion { quantity := true })).update = some u ∧
        u.quantity = some ((lastPotion.quantity : Int) - 1) ∧ u.usesValue = none) ∧
      ((consumeCharge quiver (chargeRun lastPotion { quantity := true })).output = .destroy ↔
        ((lastPotion.quantity : Int) - 1 = 0 ∧ lastPotion.autoDestroy = true)) ∧
      ((consumeCharge quiver (chargeRun lastPotion { quantity := true })).output = .success ↔
        ¬ ((lastPotion.quantity : Int) - 1 = 0 ∧ lastPotion.autoDestroy = true))) :=
  consumeCharge_quantity_only quiver (chargeRun lastPotion { quantity := true }) rfl rfl rfl
    (fun h => absurd h (by decide))

/-- An example for C17: the last potion is committed at quantity 0 and the
call returns `"destroy"`. -/
theorem consumeCharge_last_potion :
    consumeCharge quiver (chargeRun lastPotion { quantity := true }) =
      { output := .destroy, update := some { quantity := some 0 }, resourceConsulted := false } := by
  decide

/-- C18 (amended). For an item on which uses are configured (one of
`uses.value`, `uses.max`, `uses.per` is set), when `consumeCharge` is called
with both uses and quantity requested, and neither the recharge check nor
the resource collaborator fails, it returns `"error"` exactly when the
item's current uses are zero and its quantity is at most 1. -/
theorem consumeCharge_uses_and_quantity (env : Env) (run : RollRun)
    (hconfigured : hasUses run.item = true)
    (huse : run.params.useCharge.use = true)
    (hquantity : run.params.useCharge.quantity = true)
    (hrecharge : rechargeCheckFails run.item run.params.useCharge = false)
    (hresource : hasResource run.item = true → run.params.useCharge.resource = true →
      env.handleResourceConsumption run.item = true) :
    (consumeCharge env run).output = .error ↔
      (run.item.usesValue = 0 ∧ run.item.quantity ≤ 1) := by
  by_cases hc : run.item.usesValue = 0 ∧ run.item.quantity ≤ 1
  · have := consumeCharge_of_check_fails env run
      (Or.inr (Or.inr (Or.inl (by
        simp [usesAndQuantityCheckFails, hconfigured, huse, hquantity, hc.1, hc.2]))))
    simp [this, hc]
  · have hpass := consumeCharge_of_checks_pass env run
      (by simp [usesCheckFails, hquantity])
      (by simp [quantityCheckFails, huse])
      (by
        simp only [usesAndQuantityCheckFails, hconfigured, huse, hquantity, Bool.true_and,
          Bool.and_eq_false_imp, decide_eq_true_eq, decide_eq_false_iff_not]
        intro h0 h1
        exact hc ⟨h0, h1⟩) hrecharge
    have hne := chargeUpdates_ne_error run.item run.params.useCharge
    rw [hpass]
    simp only [hc, iff_false]
    by_cases hr : (hasResource run.item && run.params.useCharge.resource) = true
    · have h1 : hasResource run.item = true := by simp at hr; exact hr.1
      have h2 : run.params.useCharge.resource = true := by simp at hr; exact hr.2
      simp only [hr, hresource h1 h2, if_true, commitUpdates]
      exact hne
    · simp only [hr, commitUpdates]
      exact hne

/-- Witness for C18 (amended): a wand with no uses left and one in stock. -/
theorem consumeCharge_uses_and_quantity_witness :
    (consumeCharge quiver (chargeRun emptyWand { use := true, quantity := true })).output =
        .error ↔
      (emptyWand.usesValue = 0 ∧ emptyWand.quantity ≤ 1) :=
  consumeCharge_uses_and_quantity quiver (chargeRun emptyWand { use := true, quantity := true })
    rfl rfl rfl rfl (fun h => absurd h (by decide))

/-- C18, as stated, fails: a dagger has no uses configured, so with uses and
quantity both requested, zero uses and a quantity of 1, `consumeCharge`
returns `"success"` and commits an empty update. -/
theorem consumeCharge_unconfigured_both_counterexample :
    plainDagger.usesValue = 0 ∧ plainDagger.quantity ≤ 1 ∧
    consumeCharge quiver (chargeRun plainDagger { use := true, quantity := true }) =
      { output := .success, update := some {}, resourceConsulted := false } := by
  decide

/-- C19. When `consumeCharge` is called with the recharge requested, it
returns `"error"` unless the item's `recharge.charged` flag is set; and when
it does not return `"error"`, it commits an update that sets
`recharge.charged` to `false`. -/
theorem consumeCharge_recharge (env : Env) (run : RollRun)
    (hcharge : run.params.useCharge.charge = true) :
    (run.item.rechargeCharged = false →
      consumeCharge env run = { output := .error, update := none, resourceConsulted := false }) ∧
    ((consumeCharge env run).output ≠ .error →
      run.item.rechargeCharged = true ∧
      ∃ u, (consumeCharge env run).update = some u ∧ u.rechargeCharged = some false) := by
  have hfail : run.item.rechargeCharged = false →
      consumeCharge env run = { output := .error, update := none, resourceConsulted := false } :=
    fun h => consumeCharge_of_check_fails env run
      (Or.inr (Or.inr (Or.inr (by simp [rechargeCheckFails, hcharge, h]))))
  refine ⟨hfail, fun hne => ?_⟩
  have hcharged : run.item.rechargeCharged = true := by
    by_contra h
    have h' : run.item.rechargeCharged = false := by simpa using h
    rw [hfail h'] at hne
    exact hne rfl
  refine ⟨hcharged, ?_⟩
  unfold consumeCharge at hne ⊢
  dsimp only at hne ⊢
  repeat' split
  all_goals first
    | exact absurd rfl (by simpa using hne)
    | (simp only [commitUpdates, hcharge, if_true]; exact ⟨_, rfl, rfl⟩)
    | simp_all

/-- Witness for C19: a charged breath weapon. -/
theorem consumeCharge_recharge_witness :
    (breathWeapon.rechargeCharged = false →
      consumeCharge quiver (chargeRun breathWeapon { charge := true }) =
        { output := .error, update := none, resourceConsulted := false }) ∧
    ((consumeCharge quiver (chargeRun breathWeapon { charge := true })).output ≠ .error →
      breathWeapon.rechargeCharged = true ∧
      ∃ u, (consumeCharge quiver (chargeRun breathWeapon { charge := true })).update = some u ∧
        u.rechargeCharged = some false) :=
  consumeCharge_recharge quiver (chargeRun breathWeapon { charge := true }) rfl

/-- An example for C19: the charged breath weapon succeeds and is committed
as not charged; the same feature not charged returns `"error"`. -/
theorem consumeCharge_breath_weapon :
    consumeCharge quiver (chargeRun breathWeapon { charge := true }) =
      { output := .success, update := some { rechargeCharged := some false }
        resourceConsulted := false } ∧
    consumeCharge quiver
        (chargeRun { breathWeapon with rechargeCharged := false } { charge := true }) =
      { output := .error, update := none, resourceConsulted := false } := by
  decide

/-- C20. When the linked resource is requested, a refusal by the resource
collaborator makes `consumeCharge` return `"error"` (with no update); the
collaborator is consulted exactly when the uses, quantity and recharge
checks have all passed, the item names a resource and the request asks for
it; so a call that fails one of those checks returns `"error"` without
consulting the collaborator. -/
theorem consumeCharge_resource_last (env : Env) (run : RollRun) :
    ((consumeCharge env run).resourceConsulted = true →
      env.handleResourceConsumption run.item = false →
      (consumeCharge env run).output = .error ∧ (consumeCharge env run).update = none) ∧
    ((consumeCharge env run).resourceConsulted = true ↔
      (usesCheckFails run.item run.params.useCharge = false ∧
        quantityCheckFails run.item run.params.useCharge = false ∧
        usesAndQuantityCheckFails run.item run.params.useCharge = false ∧
        rechargeCheckFails run.item run.params.useCharge = false ∧
        hasResource run.item = true ∧ run.params.useCharge.resource = true)) ∧
    ((usesCheckFails run.item run.params.useCharge = true ∨
        quantityCheckFails run.item run.params.useCharge = true ∨
        usesAndQuantityCheckFails run.item run.params.useCharge = true ∨
        rechargeCheckFails run.item run.params.useCharge = true) →
      (consumeCharge env run).resourceConsulted = false ∧
      (consumeCharge env run).output = .error) := by
  by_cases h1 : usesCheckFails run.item run.params.useCharge = true
  · have := consumeCharge_of_check_fails env run (Or.inl h1)
    simp [this, h1]
  by_cases h2 : quantityCheckFails run.item run.params.useCharge = true
  · have := consumeCharge_of_check_fails env run (Or.inr (Or.inl h2))
    simp [this, h2]
  by_cases h3 : usesAndQuantityCheckFails run.item run.params.useCharge = true
  · have := consumeCharge_of_check_fails env run (Or.inr (Or.inr (Or.inl h3)))
    simp [this, h3]
  by_cases h4 : rechargeCheckFails run.item run.params.useCharge = true
  · have := consumeCharge_of_check_fails env run (Or.inr (Or.inr (Or.inr h4)))
    simp [this, h4]
  have h1' : usesCheckFails run.item run.params.useCharge = false := by simpa using h1
  have h2' : quantityCheckFails run.item run.params.useCharge = false := by simpa using h2
  have h3' : usesAndQuantityCheckFails run.item run.params.useCharge = false := by
    simpa using h3
  have h4' : rechargeCheckFails run.item run.params.useCharge = false := by simpa using h4
  rw [consumeCharge_of_checks_pass env run h1' h2' h3' h4']
  simp only [h1', h2', h3', h4', true_and]
  by_cases hr : (hasResource run.item && run.params.useCharge.resource) = true
  · have hr1 : hasResource run.item = true := by simp at hr; exact hr.1
    have hr2 : run.params.useCharge.resource = true := by simp at hr; exact hr.2
    by_cases ha : env.handleResourceConsumption run.item = true
    · simp [hr1, hr2, ha, commitUpdates]
    · simp [hr1, hr2, ha]
  · have hr' : ¬ (hasResource run.item = true ∧ run.params.useCharge.resource = true) := by
      simpa using hr
    simp only [hr, commitUpdates]
    simp [hr']

/-- An example for C20: the collaborator refuses a charged breath weapon
linked to a resource, so the call returns `"error"` after consulting it;
the same feature not charged returns `"error"` without consulting it. -/
theorem consumeCharge_refused :
    consumeCharge refusingEnv (chargeRun breathWeapon { charge := true, resource := true }) =
      { output := .error, update := none, resourceConsulted := true } ∧
    consumeCharge refusingEnv
        (chargeRun { breathWeapon with rechargeCharged := false }
          { charge := true, resource := true }) =
      { output := .error, update := none, resourceConsulted := false } := by
  decide

/-! ## The damage loop for any index array -/

theorem damageLoop_calls (env : Env) (isAll : Bool) (v : Option Bool) (c : Option ForceCrit)
    (ctx : Option String) (indices : List Nat) (i : Nat) (run : RollRun)
    (hret : (damageLoop env isAll v c ctx indices i run).result = .returned ()) :
    (damageLoop env isAll v c ctx indices i run).run.damageCalls =
      run.damageCalls ++ requestExpansionFrom run.item isAll v c ctx i indices := by
  induction indices generalizing i run with
  | nil => simp [damageLoop, requestExpansionFrom]
  | cons idx rest ih =>
    unfold damageLoop at hret ⊢
    dsimp only at hret ⊢
    split at hret
    · rename_i template hres
      rw [ih _ _ hret]
      simp only [rollDamage_calls, rollDamage_item, requestExpansionFrom, requestInvocation,
        List.append_assoc, List.singleton_append]
    · simp at hret
    · simp at hret

theorem damageLoop_templates (env : Env) (isAll : Bool) (v : Option Bool)
    (c : Option ForceCrit) (ctx : Option String) (indices : List Nat) (i : Nat) (run : RollRun) :
    ∃ ts, (damageLoop env isAll v c ctx indices i run).run.templates = run.templates ++ ts ∧
      ts.length ≤ indices.length ∧
      ((damageLoop env isAll v c ctx indices i run).result = .returned () →
        ts.length = indices.length) ∧
      ∀ k t, ts[k]? = some t → ∃ idx run', indices[k]? = some idx ∧ run'.frame = run.frame ∧
        (rollDamage env run' (requestInvocation run.item isAll v c ctx (i + k) idx).call).result
          = .returned t := by
  induction indices generalizing i run with
  | nil =>
    refine ⟨[], by simp [damageLoop], le_refl _, fun _ => rfl, ?_⟩
    intro k t h
    simp at h
  | cons idx rest ih =>
    unfold damageLoop
    dsimp only
    split
    · rename_i template hres
      obtain ⟨ts, hts, hlen, hfull, hall⟩ := ih (i + 1)
        { (rollDamage env run
            { damageIndex := idx
              forceVersatile := if i = 0 ∨ isAll = false then v else some false
              forceCrit := c
              customContext := ctx }).run with
          templates := (rollDamage env run
            { damageIndex := idx
              forceVersatile := if i = 0 ∨ isAll = false then v else some false
              forceCrit := c
              customContext := ctx }).run.templates ++ [template] }
      refine ⟨template :: ts, ?_, ?_, ?_, ?_⟩
      · rw [hts]
        simp [rollDamage_templates]
      · simp only [List.length_cons]
        omega
      · intro h
        simp only [List.length_cons]
        rw [hfull h]
      · intro k t hk
        cases k with
        | zero =>
          simp only [List.getElem?_cons_zero, Option.some.injEq] at hk
          subst hk
          exact ⟨idx, run, by simp, rfl, hres⟩
        | succ k =>
          simp only [List.getElem?_cons_succ] at hk
          obtain ⟨idx', run', h1, h2, h3⟩ := hall k t hk
          refine ⟨idx', run', by simpa using h1, h2.trans (rollDamage_frame env run _), ?_⟩
          have hitem : ({ (rollDamage env run
              { damageIndex := idx
                forceVersatile := if i = 0 ∨ isAll = false then v else some false
                forceCrit := c
                customContext := ctx }).run with
              templates := (rollDamage env run
                { damageIndex := idx
                  forceVersatile := if i = 0 ∨ isAll = false then v else some false
                  forceCrit := c
                  customContext := ctx }).run.templates ++ [template] } : RollRun).item
              = run.item := rollDamage_item env run _
          rw [hitem] at h3
          have hk' : i + 1 + k = i + (k + 1) := by omega
          rw [hk'] at h3
          exact h3
    · refine ⟨[], by simp [rollDamage_templates], Nat.zero_le _, fun h => by simp at h, ?_⟩
      intro k t h
      simp at h
    · refine ⟨[], by simp [rollDamage_templates], Nat.zero_le _, fun h => by simp at h, ?_⟩
      intro k t h
      simp at h

/-! ## Unfolding the `damage` branch of `fieldToTemplate` -/

theorem fieldToTemplateFuel_damage_threw (env : Env) (fuel : Nat) (run : RollRun)
    (req : DamageRequest) (index : List Nat)
    (hindex : indexArray run.item req.index = some index)
    (hres : (damageLoop env (decide (req.index = some .all)) req.versatile req.crit req.context
      index 0 run).result = .threw) :
    fieldToTemplateFuel env (fuel + 1) run (.damage (some req)) =
      { run := (damageLoop env (decide (req.index = some .all)) req.versatile req.crit
          req.context index 0 run).run
        result := .threw } := by
  simp only [fieldToTemplateFuel, Option.getD_some, hindex, hres]

theorem fieldToTemplateFuel_damage_no_ammo (env : Env) (fuel : Nat) (run : RollRun)
    (req : DamageRequest) (index : List Nat)
    (hindex : indexArray run.item req.index = some index) (hammo : run.ammo = none)
    (hres : (damageLoop env (decide (req.index = some .all)) req.versatile req.crit req.context
      index 0 run).result = .returned ()) :
    fieldToTemplateFuel env (fuel + 1) run (.damage (some req)) =
      { run := (damageLoop env (decide (req.index = some .all)) req.versatile req.crit
          req.context index 0 run).run
        result := .returned true } := by
  have h := (damageLoop_ammo env (decide (req.index = some .all)) req.versatile req.crit
    req.context index 0 run).trans hammo
  simp only [fieldToTemplateFuel, Option.getD_some, hindex, hres, h]

theorem fieldToTemplateFuel_damage_ammo (env : Env) (fuel : Nat) (run : RollRun)
    (req : DamageRequest) (index : List Nat) (a : Item)
    (hindex : indexArray run.item req.index = some index) (hammo : run.ammo = some a)
    (hres : (damageLoop env (decide (req.index = some .all)) req.versatile req.crit req.context
      index 0 run).result = .returned ()) :
    fieldToTemplateFuel env (fuel + 1) run (.damage (some req)) =
      match (fieldToTemplateFuel env fuel
          { (damageLoop env (decide (req.index = some .all)) req.versatile req.crit
              req.context index 0 run).run with item := a, ammo := none }
          (.damage (some { index := some .all, versatile := some false, crit := req.crit
                           context := some ("[" ++ a.name ++ "]") }))).result with
      | .returned _ =>
        { run := { (fieldToTemplateFuel env fuel
            { (damageLoop env (decide (req.index = some .all)) req.versatile req.crit
                req.context index 0 run).run with item := a, ammo := none }
            (.damage (some { index := some .all, versatile := some false, crit := req.crit
                             context := some ("[" ++ a.name ++ "]") }))).run with
            item := run.item }
          result := .returned true }
      | .threw =>
        { run := (fieldToTemplateFuel env fuel
            { (damageLoop env (decide (req.index = some .all)) req.versatile req.crit
                req.context index 0 run).run with item := a, ammo := none }
            (.damage (some { index := some .all, versatile := some false, crit := req.crit
                             context := some ("[" ++ a.name ++ "]") }))).run
          result := .threw }
      | .outOfFuel =>
        { run := (fieldToTemplateFuel env fuel
            { (damageLoop env (decide (req.index = some .all)) req.versatile req.crit
                req.context index 0 run).run with item := a, ammo := none }
            (.damage (some { index := some .all, versatile := some false, crit := req.crit
                             context := some ("[" ++ a.name ++ "]") }))).run
          result := .outOfFuel } := by
  have h := (damageLoop_ammo env (decide (req.index = some .all)) req.versatile req.crit
    req.context index 0 run).trans hammo
  simp only [fieldToTemplateFuel, Option.getD_some, hindex, hres, h]

theorem requestExpansionFrom_all (item : Item) (v : Option Bool) (c : Option ForceCrit)
    (ctx : Option String) (k i : Nat) :
    requestExpansionFrom item true v c ctx i (List.range' i k) =
      (List.range' i k).map (allInvocation item v c ctx) := by
  induction k generalizing i with
  | zero => rfl
  | succ k ih =>
    rw [List.range'_succ, requestExpansionFrom, ih, List.map_cons]
    congr 1
    simp [requestInvocation, allInvocation]

theorem requestExpansion_all (item : Item) (v : Option Bool) (c : Option ForceCrit)
    (ctx : Option String) :
    requestExpansion item { index := some .all, versatile := v, crit := c, context := ctx }
        (List.range item.damageParts.length) = allExpansion item v c ctx := by
  unfold requestExpansion allExpansion
  rw [List.range_eq_range']
  exact requestExpansionFrom_all item v c ctx _ 0

theorem damage_with_ammo (env : Env) (run : RollRun) (req : DamageRequest) (index : List Nat)
    (a : Item) (hindex : indexArray run.item req.index = some index)
    (hammo : run.ammo = some a)
    (hret : (fieldToTemplate env run (.damage (some req))).result = .returned true) :
    (fieldToTemplate env run (.damage (some req))).run.damageCalls =
      run.damageCalls ++ requestExpansion run.item req index ++
        allExpansion a (some false) req.crit (some ("[" ++ a.name ++ "]")) ∧
    (∃ own sub, (fieldToTemplate env run (.damage (some req))).run.templates =
        run.templates ++ own ++ sub ∧
      own.length = index.length ∧ sub.length = a.damageParts.length) ∧
    (fieldToTemplate env run (.damage (some req))).run.item = run.item ∧
    (fieldToTemplate env run (.damage (some req))).run.ammo = none := by
  unfold fieldToTemplate at hret ⊢
  cases hres : (damageLoop env (decide (req.index = some .all)) req.versatile req.crit
      req.context index 0 run).result with
  | threw =>
    rw [fieldToTemplateFuel_damage_threw env 1 run req index hindex hres] at hret
    simp at hret
  | outOfFuel => exact absurd hres (damageLoop_not_outOfFuel env _ _ _ _ _ _ _)
  | returned u =>
    have hcalls := damageLoop_calls env _ _ _ _ index 0 run hres
    obtain ⟨own, hown, -, hownlen, -⟩ := damageLoop_templates env
      (decide (req.index = some .all)) req.versatile req.crit req.context index 0 run
    have hitem := damageLoop_item env (decide (req.index = some .all)) req.versatile req.crit
      req.context index 0 run
    rw [fieldToTemplateFuel_damage_ammo env 1 run req index a hindex hammo hres] at hret ⊢
    -- the nested request on the ammo item
    have hindex2 : indexArray a (some IndexSelector.all) =
        some (List.range a.damageParts.length) := rfl
    cases hres2 : (damageLoop env true (some false) req.crit (some ("[" ++ a.name ++ "]"))
        (List.range a.damageParts.length) 0
        { (damageLoop env (decide (req.index = some .all)) req.versatile req.crit req.context
            index 0 run).run with item := a, ammo := none }).result with
    | threw =>
      rw [fieldToTemplateFuel_damage_threw env 0 _
        { index := some .all, versatile := some false, crit := req.crit
          context := some ("[" ++ a.name ++ "]") } _ hindex2 hres2] at hret
      simp at hret
    | outOfFuel => exact absurd hres2 (damageLoop_not_outOfFuel env _ _ _ _ _ _ _)
    | returned u2 =>
      have hcalls2 := damageLoop_calls env true (some false) req.crit
        (some ("[" ++ a.name ++ "]")) (List.range a.damageParts.length) 0
        { (damageLoop env (decide (req.index = some .all)) req.versatile req.crit req.context
            index 0 run).run with item := a, ammo := none } hres2
      obtain ⟨sub, hsub, -, hsublen, -⟩ := damageLoop_templates env true (some false) req.crit
        (some ("[" ++ a.name ++ "]")) (List.range a.damageParts.length) 0
        { (damageLoop env (decide (req.index = some .all)) req.versatile req.crit req.context
            index 0 run).run with item := a, ammo := none }
      have hammo2 := damageLoop_ammo env true (some false) req.crit
        (some ("[" ++ a.name ++ "]")) (List.range a.damageParts.length) 0
        { (damageLoop env (decide (req.index = some .all)) req.versatile req.crit req.context
            index 0 run).run with item := a, ammo := none }
      have hinner := fieldToTemplateFuel_damage_no_ammo env 0
        { (damageLoop env (decide (req.index = some .all)) req.versatile req.crit req.context
            index 0 run).run with item := a, ammo := none }
        { index := some .all, versatile := some false, crit := req.crit
          context := some ("[" ++ a.name ++ "]") } _ hindex2 rfl hres2
      rw [hinner]
      refine ⟨?_, ⟨own, sub, ?_, hownlen hres, ?_⟩, rfl, hammo2⟩
      · refine hcalls2.trans ?_
        have h1 : ({ (damageLoop env (decide (req.index = some .all)) req.versatile req.crit
            req.context index 0 run).run with item := a, ammo := none } : RollRun).damageCalls =
            run.damageCalls ++ requestExpansion run.item req index := hcalls
        have h2 := requestExpansionFrom_all a (some false) req.crit
          (some ("[" ++ a.name ++ "]")) a.damageParts.length 0
        rw [← List.range_eq_range'] at h2
        rw [h1]
        congr 1
      · refine hsub.trans ?_
        have h1 : ({ (damageLoop env (decide (req.index = some .all)) req.versatile req.crit
            req.context index 0 run).run with item := a, ammo := none } : RollRun).templates =
            run.templates ++ own := hown
        rw [h1]
      · rw [hsublen hres2, List.length_range]

/-- The `damage` branch of `fieldToTemplate` in terms of its two loops. -/
theorem fieldToTemplate_damage_eq (env : Env) (run : RollRun) (req : DamageRequest)
    (index : List Nat) (hindex : indexArray run.item req.index = some index) :
    fieldToTemplate env run (.damage (some req)) =
      match (ownLoop env run req index).result with
      | .returned _ =>
        match run.ammo with
        | none => { run := (ownLoop env run req index).run, result := .returned true }
        | some a =>
          match (ammoLoop env run req index a).result with
          | .returned _ =>
            { run := { (ammoLoop env run req index a).run with item := run.item }
              result := .returned true }
          | .threw => { run := (ammoLoop env run req index a).run, result := .threw }
          | .outOfFuel => { run := (ammoLoop env run req index a).run, result := .outOfFuel }
      | .threw => { run := (ownLoop env run req index).run, result := .threw }
      | .outOfFuel => { run := (ownLoop env run req index).run, result := .outOfFuel } := by
  unfold fieldToTemplate
  cases hres : (ownLoop env run req index).result with
  | threw =>
    exact fieldToTemplateFuel_damage_threw env 1 run req index hindex hres
  | outOfFuel => exact absurd hres (damageLoop_not_outOfFuel env _ _ _ _ _ _ _)
  | returned u =>
    cases hrun : run.ammo with
    | none => exact fieldToTemplateFuel_damage_no_ammo env 1 run req index hindex hrun hres
    | some a =>
      rw [fieldToTemplateFuel_damage_ammo env 1 run req index a hindex hrun hres]
      cases hres2 : (ammoLoop env run req index a).result with
      | threw =>
        have hinner := fieldToTemplateFuel_damage_threw env 0
          { (ownLoop env run req index).run with item := a, ammo := none }
          { index := some .all, versatile := some false, crit := req.crit
            context := some ("[" ++ a.name ++ "]") } (List.range a.damageParts.length) rfl hres2
        unfold ownLoop at hinner
        rw [hinner]
        simp only [ammoLoop, ownLoop] at hres2 ⊢
        simp [hres2]
      | outOfFuel => exact absurd hres2 (damageLoop_not_outOfFuel env _ _ _ _ _ _ _)
      | returned u2 =>
        have hinner := fieldToTemplateFuel_damage_no_ammo env 0
          { (ownLoop env run req index).run with item := a, ammo := none }
          { index := some .all, versatile := some false, crit := req.crit
            context := some ("[" ++ a.name ++ "]") } (List.range a.damageParts.length) rfl rfl
          hres2
        unfold ownLoop at hinner
        rw [hinner]
        simp only [ammoLoop, ownLoop] at hres2 ⊢
        simp [hres2]

theorem fieldToTemplate_damage_no_index (env : Env) (run : RollRun) (req : DamageRequest)
    (hindex : indexArray run.item req.index = none) :
    fieldToTemplate env run (.damage (some req)) = { run := run, result := .threw } := by
  simp only [fieldToTemplate, fieldToTemplateFuel, Option.getD_some, hindex]

/-! ## The templates a damage request appends -/

theorem allInvocation_call_eq (a : Item) (c : Option ForceCrit)
    (ctx : Option String) (k : Nat) :
    (requestInvocation a true (some false) c ctx k k).call = (allInvocation a (some false) c ctx k).call := by
  simp [requestInvocation, allInvocation]

theorem fieldToTemplate_damage_templates (env : Env) (run : RollRun) (req : DamageRequest)
    (index : List Nat) (hindex : indexArray run.item req.index = some index) :
    ∃ own sub, (fieldToTemplate env run (.damage (some req))).run.templates =
        run.templates ++ own ++ sub ∧
      own.length ≤ index.length ∧
      (own.length < index.length → sub = []) ∧
      ((fieldToTemplate env run (.damage (some req))).result = .returned true →
        own.length = index.length ∧ ∀ a, run.ammo = some a → sub.length = a.damageParts.length) ∧
      (∀ k t, own[k]? = some t → ∃ idx run', index[k]? = some idx ∧ run'.frame = run.frame ∧
        (rollDamage env run' (requestInvocation run.item (decide (req.index = some .all))
          req.versatile req.crit req.context k idx).call).result = .returned t) ∧
      (∀ k t, sub[k]? = some t → ∃ a run', run.ammo = some a ∧ k < a.damageParts.length ∧
        run'.item = a ∧ run'.params = run.params ∧ run'.isCrit = run.isCrit ∧
        (rollDamage env run' (allInvocation a (some false) req.crit
          (some ("[" ++ a.name ++ "]")) k).call).result = .returned t) := by
  obtain ⟨own, hown, hownle, hownfull, hownall⟩ := damageLoop_templates env
    (decide (req.index = some .all)) req.versatile req.crit req.context index 0 run
  have hownall' : ∀ k t, own[k]? = some t → ∃ idx run', index[k]? = some idx ∧
      run'.frame = run.frame ∧
      (rollDamage env run' (requestInvocation run.item (decide (req.index = some .all))
        req.versatile req.crit req.context k idx).call).result = .returned t := by
    intro k t hk
    obtain ⟨idx, run', h1, h2, h3⟩ := hownall k t hk
    rw [Nat.zero_add] at h3
    exact ⟨idx, run', h1, h2, h3⟩
  have hnosub : ∀ (k : Nat) (t : Template), ([] : List Template)[k]? = some t →
      ∃ a run', run.ammo = some a ∧ k < a.damageParts.length ∧
        run'.item = a ∧ run'.params = run.params ∧ run'.isCrit = run.isCrit ∧
        (rollDamage env run' (allInvocation a (some false) req.crit
          (some ("[" ++ a.name ++ "]")) k).call).result = .returned t := by
    intro k t h
    simp at h
  have hown' : (ownLoop env run req index).run.templates = run.templates ++ own := hown
  have hframe : (ownLoop env run req index).run.frame = run.frame :=
    damageLoop_frame env _ _ _ _ _ _ _
  rw [fieldToTemplate_damage_eq env run req index hindex]
  cases hres : (ownLoop env run req index).result with
  | threw =>
    refine ⟨own, [], by simp [hown'], hownle, fun _ => rfl, fun h => by simp at h, hownall',
      hnosub⟩
  | outOfFuel => exact absurd hres (damageLoop_not_outOfFuel env _ _ _ _ _ _ _)
  | returned u =>
    have hlen : own.length = index.length := by
      apply hownfull
      cases u
      exact hres
    cases hammo : run.ammo with
    | none =>
      refine ⟨own, [], by simp [hown'], hownle, fun _ => rfl,
        fun _ => ⟨hlen, fun a ha => by simp at ha⟩,
        hownall', fun k t h => by simp at h⟩
    | some a =>
      obtain ⟨sub, hsub, hsuble, hsubfull, hsuball⟩ := damageLoop_templates env true (some false)
        req.crit (some ("[" ++ a.name ++ "]")) (List.range a.damageParts.length) 0
        { (ownLoop env run req index).run with item := a, ammo := none }
      have hsub' : (ammoLoop env run req index a).run.templates = run.templates ++ own ++ sub := by
        refine hsub.trans ?_
        have h1 : ({ (ownLoop env run req index).run with item := a, ammo := none } :
            RollRun).templates = run.templates ++ own := hown'
        rw [h1]
      have hsuball' : ∀ k t, sub[k]? = some t → ∃ a' run', some a = some a' ∧
          k < a'.damageParts.length ∧
          run'.item = a' ∧ run'.params = run.params ∧ run'.isCrit = run.isCrit ∧
          (rollDamage env run' (allInvocation a' (some false) req.crit
            (some ("[" ++ a'.name ++ "]")) k).call).result = .returned t := by
        intro k t hk
        obtain ⟨idx, run', h1, h2, h3⟩ := hsuball k t hk
        have hk' : k < a.damageParts.length ∧ idx = k := by
          have := List.getElem?_eq_some_iff.mp h1
          obtain ⟨hlt, heq⟩ := this
          simp at hlt heq
          exact ⟨hlt, heq.symm⟩
        obtain ⟨hklt, hidx⟩ := hk'
        subst hidx
        rw [Nat.zero_add] at h3
        have hitem : run'.item = a := congrArg (fun f => f.1) h2
        have hparams : run'.params = run.params :=
          (congrArg (fun f => f.2.2.1) h2).trans (congrArg (fun f => f.2.2.1) hframe)
        have hisCrit : run'.isCrit = run.isCrit :=
          (congrArg (fun f => f.2.2.2.2.2.1) h2).trans (congrArg (fun f => f.2.2.2.2.2.1) hframe)
        refine ⟨a, run', rfl, hklt, hitem, hparams, hisCrit, ?_⟩
        have hcall := allInvocation_call_eq a req.crit
          (some ("[" ++ a.name ++ "]")) idx
        have h3' : (rollDamage env run' (requestInvocation a true (some false) req.crit
            (some ("[" ++ a.name ++ "]")) idx idx).call).result = .returned t := h3
        rw [hcall] at h3'
        exact h3'
      dsimp only
      refine ⟨own, sub, ?_, hownle, fun h => absurd hlen (Nat.ne_of_lt h), ?_, hownall',
        hsuball'⟩
      · cases hres2 : (ammoLoop env run req index a).result <;> exact hsub'
      · intro hret
        refine ⟨hlen, ?_⟩
        intro a' ha'
        cases ha'
        cases hres2 : (ammoLoop env run req index a).result with
        | threw => simp [hres2] at hret
        | outOfFuel => simp [hres2] at hret
        | returned u2 =>
          cases u2
          rw [hsubfull hres2, List.length_range]

/-! ## Damage evaluations with `forceCrit: "never"` -/

theorem wantsCritRoll_never (env : Env) (run : RollRun) :
    wantsCritRoll env run .never = false := by
  simp [wantsCritRoll]

theorem rollDamageFormula_no_crit (env : Env) (run : RollRun) (call : DamageCall) (f : String)
    (hcrit : wantsCritRoll env run (call.forceCrit.getD .no) = false) :
    ∃ rolled, rollDamageFormula env run call f =
      { run := { run with drawn := run.drawn + 1
                          dicePool := run.dicePool ++ [Roll.ofEvaluation (env.source run.drawn)] }
        result := .returned (.damage rolled (Roll.ofEvaluation (env.source run.drawn)) none) } := by
  unfold rollDamageFormula
  simp only [hcrit]
  exact ⟨_, rfl⟩

theorem rollDamage_no_crit (env : Env) (run : RollRun) (call : DamageCall)
    (hcrit : wantsCritRoll env run (call.forceCrit.getD .no) = false) :
    (∀ t, (rollDamage env run call).result = .returned t → t.critRoll = none) ∧
    (rollDamage env run call).run.dicePool.length ≤ run.dicePool.length + 1 := by
  have hcrit' : wantsCritRoll env
      { run with damageCalls := run.damageCalls ++ [{ item := run.item, call := call }],
                 hasDamage := true } (call.forceCrit.getD .no) = false :=
    (wantsCritRoll_frame env run _ _ rfl).trans hcrit
  unfold rollDamage
  dsimp only
  split
  · simp
  · split
    · refine ⟨?_, by simp⟩
      intro t ht
      simp only [Completion.returned.injEq] at ht
      subst ht
      rfl
    · split
      · simp
      · rename_i f hf
        obtain ⟨rolled, h⟩ := rollDamageFormula_no_crit env _ call f hcrit'
        rw [h]
        refine ⟨?_, by simp⟩
        intro t ht
        simp only [Completion.returned.injEq] at ht
        subst ht
        rfl

theorem rollDamage_never (env : Env) (run : RollRun) (call : DamageCall)
    (hnever : call.forceCrit = some .never) :
    (∀ t, (rollDamage env run call).result = .returned t → t.critRoll = none) ∧
    (rollDamage env run call).run.dicePool.length ≤ run.dicePool.length + 1 :=
  rollDamage_no_crit env run call (by rw [hnever]; exact wantsCritRoll_never env run)

theorem rollCritExtra_no_crit (env : Env) (run : RollRun) (t : Template)
    (hres : (rollCritExtra env run).result = .returned t) : t.critRoll = none := by
  unfold rollCritExtra at hres
  split at hres
  · exact (rollDamage_never env run _ rfl).1 t hres
  · simp only [Completion.returned.injEq] at hres
    subst hres
    rfl

theorem pushTemplate_templates (ran : Ran Template) :
    ∃ ts, (pushTemplate ran).run.templates = ran.run.templates ++ ts ∧
      ∀ t ∈ ts, ran.result = .returned t := by
  unfold pushTemplate
  split
  · rename_i template h
    exact ⟨[template], rfl, fun t ht => by simp at ht; rw [ht, h]⟩
  · exact ⟨[], by simp, fun t ht => by simp at ht⟩
  · exact ⟨[], by simp, fun t ht => by simp at ht⟩

theorem rollCritExtra_templates (env : Env) (run : RollRun) :
    (rollCritExtra env run).run.templates = run.templates := by
  unfold rollCritExtra
  split
  · exact rollDamage_templates env run _
  · rfl

theorem fieldToTemplate_crit_templates (env : Env) (run : RollRun) :
    ∃ ts, (fieldToTemplate env run .crit).run.templates = run.templates ++ ts ∧
      ∀ t ∈ ts, t.critRoll = none := by
  obtain ⟨ts, h1, h2⟩ := pushTemplate_templates (rollCritExtra env run)
  refine ⟨ts, ?_, fun t ht => rollCritExtra_no_crit env run t (h2 t ht)⟩
  have : fieldToTemplate env run .crit = pushTemplate (rollCritExtra env run) := rfl
  rw [this, h1, rollCritExtra_templates]

theorem fieldToTemplate_damage_never (env : Env) (run : RollRun) (req : DamageRequest)
    (hnever : req.crit = some .never) :
    ∃ ts, (fieldToTemplate env run (.damage (some req))).run.templates = run.templates ++ ts ∧
      ∀ t ∈ ts, t.critRoll = none := by
  cases hindex : indexArray run.item req.index with
  | none =>
    refine ⟨[], ?_, fun t ht => by simp at ht⟩
    rw [fieldToTemplate_damage_no_index env run req hindex]
    simp
  | some index =>
    obtain ⟨own, sub, htemplates, -, -, -, hown, hsub⟩ :=
      fieldToTemplate_damage_templates env run req index hindex
    refine ⟨own ++ sub, by rw [htemplates, List.append_assoc], ?_⟩
    intro t ht
    rcases List.mem_append.mp ht with h | h
    · obtain ⟨k, hk⟩ := List.getElem?_of_mem h
      obtain ⟨idx, run', -, -, hres⟩ := hown k t hk
      exact (rollDamage_never env run' _ hnever).1 t hres
    · obtain ⟨k, hk⟩ := List.getElem?_of_mem h
      obtain ⟨a, run', -, -, -, -, -, hres⟩ := hsub k t hk
      exact (rollDamage_never env run' _ hnever).1 t hres

/-- C15. A damage evaluation made with `forceCrit = "never"` produces no
crit-bonus roll, for every state of the run (its `isCrit` flag included) and
every environment (its crit-behaviour setting included). For `rollDamage`
itself: a template it returns holds no crit roll, the dice pool grows by the
base roll at most, and it does return when the damage line exists and the
actor owns an item. For a Damage request carrying the override, and for the
synthetic crit-extra request: every template they append holds no crit
roll. -/
theorem damage_never_no_crit_roll (env : Env) (run : RollRun) :
    (∀ call : DamageCall, call.forceCrit = some .never →
      (∀ t, (rollDamage env run call).result = .returned t → t.critRoll = none) ∧
      (rollDamage env run call).run.dicePool.length ≤ run.dicePool.length + 1 ∧
      (call.damageIndex < run.item.damageParts.length → run.item.actorItems ≠ [] →
        ∃ t, (rollDamage env run call).result = .returned t)) ∧
    (∀ req : DamageRequest, req.crit = some .never →
      ∃ ts, (fieldToTemplate env run (.damage (some req))).run.templates = run.templates ++ ts ∧
        ∀ t ∈ ts, t.critRoll = none) ∧
    (∃ ts, (fieldToTemplate env run .crit).run.templates = run.templates ++ ts ∧
      ∀ t ∈ ts, t.critRoll = none) := by
  refine ⟨?_, fieldToTemplate_damage_never env run, fieldToTemplate_crit_templates env run⟩
  intro call hnever
  refine ⟨(rollDamage_never env run call hnever).1, (rollDamage_never env run call hnever).2, ?_⟩
  intro hline hitems
  exact rollDamage_returns env run call hline hitems
    (by rw [hnever]; exact wantsCritRoll_never env run)

/-- An example for C15: on a run that is a crit, the first
damage line of the longsword is rolled with a crit roll by default and
without one when the request carries `crit: "never"`. -/
theorem damage_never_on_crit_run :
    (fieldToTemplate doubleTwentyEnv (RollRun.create longsword { forceCrit := true } [])
      (.damage (some { index := some (.single 0) }))).run.templates =
      [.damage "1d8" (Roll.ofEvaluation (doubleTwentyEnv.source 0))
        (some (Roll.ofEvaluation ⟨5, [⟨8, [5]⟩]⟩))] ∧
    (fieldToTemplate doubleTwentyEnv (RollRun.create longsword { forceCrit := true } [])
      (.damage (some { index := some (.single 0), crit := some .never }))).run.templates =
      [.damage "1d8" (Roll.ofEvaluation (doubleTwentyEnv.source 0)) none] := by
  decide

/-! ## The formula rolled for a damage line other than the first -/

theorem rollDamageFormula_formula (env : Env) (run : RollRun) (call : DamageCall) (f : String)
    (hidx : call.damageIndex ≠ 0) (t : Template)
    (hres : (rollDamageFormula env run call f).result = .returned t) :
    ∃ base crit, t = .damage f base crit := by
  unfold rollDamageFormula at hres
  simp only [hidx, false_and, if_false, String.append_empty] at hres
  split at hres
  · split at hres
    · simp at hres
    · simp only [Completion.returned.injEq] at hres
      exact ⟨_, _, hres.symm⟩
  · simp only [Completion.returned.injEq] at hres
    exact ⟨_, _, hres.symm⟩

theorem selectDamageFormula_other_line (run : RollRun) (call : DamageCall)
    (part : String × String) (hidx : call.damageIndex ≠ 0) :
    (selectDamageFormula run call part).1 =
      otherLineFormula run.item call.forceVersatile part.1 := by
  unfold selectDamageFormula otherLineFormula
  cases hv : call.forceVersatile with
  | none => simp [hidx]
  | some b => cases b <;> simp [hidx]

theorem rollDamage_other_line (env : Env) (run : RollRun) (call : DamageCall)
    (part : String × String) (hidx : call.damageIndex ≠ 0)
    (hpart : run.item.damageParts[call.damageIndex]? = some part) (t : Template)
    (hres : (rollDamage env run call).result = .returned t) :
    (otherLineFormula run.item call.forceVersatile part.1 = "" → t = .null) ∧
    (otherLineFormula run.item call.forceVersatile part.1 ≠ "" →
      ∃ base crit, t = .damage (otherLineFormula run.item call.forceVersatile part.1) base crit) := by
  have hsel := selectDamageFormula_other_line run call part hidx
  unfold rollDamage at hres
  simp only [hpart, hsel, applyScaling, hidx, if_false] at hres
  split at hres
  · rename_i hempty
    simp only [Completion.returned.injEq] at hres
    exact ⟨fun _ => hres.symm, fun h => absurd hempty h⟩
  · rename_i hne
    refine ⟨fun h => absurd h hne, fun _ => ?_⟩
    exact rollDamageFormula_formula env _ call _ hidx t hres

theorem damage_line_template (env : Env) (run : RollRun) (req : DamageRequest)
    (index : List Nat) (k : Nat) (t : Template)
    (hindex : indexArray run.item req.index = some index) (hk : k < index.length)
    (ht : (fieldToTemplate env run (.damage (some req))).run.templates[run.templates.length + k]?
      = some t) :
    ∃ idx run', index[k]? = some idx ∧ run'.frame = run.frame ∧
      (rollDamage env run' (requestInvocation run.item (decide (req.index = some .all))
        req.versatile req.crit req.context k idx).call).result = .returned t := by
  obtain ⟨own, sub, htemplates, hle, hshort, -, hown, -⟩ :=
    fieldToTemplate_damage_templates env run req index hindex
  rw [htemplates] at ht
  by_cases hlt : k < own.length
  · apply hown k t
    rw [List.append_assoc, List.getElem?_append_right (Nat.le_add_right _ _),
      Nat.add_sub_cancel_left, List.getElem?_append_left hlt] at ht
    exact ht
  · have hsub : sub = [] := hshort (by omega)
    subst hsub
    rw [List.append_nil, List.getElem?_append_right (Nat.le_add_right _ _),
      Nat.add_sub_cancel_left] at ht
    have := List.getElem?_eq_some_iff.mp ht
    obtain ⟨h, -⟩ := this
    exact absurd h hlt

theorem requestInvocation_forceVersatile (item : Item) (req : DamageRequest) (index : List Nat)
    (k idx : Nat) (hindex : indexArray item req.index = some index)
    (hk : index[k]? = some idx) (hidx : idx ≠ 0) :
    (requestInvocation item (decide (req.index = some .all)) req.versatile req.crit
      req.context k idx).call.forceVersatile =
      if req.index = some .all then some false else req.versatile := by
  unfold requestInvocation
  dsimp only
  by_cases hall : req.index = some .all
  · have hrange : index = List.range item.damageParts.length := by
      rw [hall] at hindex
      simp only [indexArray, Option.some.injEq] at hindex
      exact hindex.symm
    subst hrange
    have := List.getElem?_eq_some_iff.mp hk
    obtain ⟨hlt, heq⟩ := this
    simp only [List.getElem_range] at heq
    subst heq
    simp [hall, hidx]
  · simp [hall]

/-- C11 (amended). For a Damage request and a position `k` of its index
array that names a damage line `idx` other than 0, the template appended for
that position is the roll of `otherLineFormula`: with index "all" the line's
own formula; with a single index or a list of indices the item's versatile
formula when the request sets `versatile: true` and the item has a non-empty
one, and the line's own formula otherwise. An empty formula gives the `null`
template. The roll-wide `params.versatile` plays no part. -/
theorem damage_other_line_formula (env : Env) (run : RollRun) (req : DamageRequest)
    (index : List Nat) (k idx : Nat) (part : String × String) (t : Template)
    (hindex : indexArray run.item req.index = some index)
    (hk : index[k]? = some idx) (hidx : idx ≠ 0)
    (hpart : run.item.damageParts[idx]? = some part)
    (ht : (fieldToTemplate env run (.damage (some req))).run.templates[run.templates.length + k]?
      = some t) :
    (otherLineFormula run.item (if req.index = some .all then some false else req.versatile)
        part.1 = "" → t = .null) ∧
    (otherLineFormula run.item (if req.index = some .all then some false else req.versatile)
        part.1 ≠ "" →
      ∃ base crit, t = .damage (otherLineFormula run.item
        (if req.index = some .all then some false else req.versatile) part.1) base crit) := by
  have hklt : k < index.length := (List.getElem?_eq_some_iff.mp hk).1
  obtain ⟨idx', run', hk', hframe, hres⟩ :=
    damage_line_template env run req index k t hindex hklt ht
  rw [hk] at hk'
  cases hk'
  have hitem : run'.item = run.item := congrArg (fun f => f.1) hframe
  have hv := requestInvocation_forceVersatile run.item req index k idx hindex hk hidx
  have h := rollDamage_other_line env run' _ part hidx (by rw [hitem]; exact hpart) t hres
  rw [hitem, hv] at h
  exact h

/-- Witness for C11 (amended): the second line of the longsword, named by a
single index in a request that sets `versatile: true`, is rolled with the
versatile formula. -/
theorem damage_other_line_formula_witness :
    (indexArray (RollRun.create longsword {} []).item
        (some (IndexSelector.single 1)) = some [1] ∧
      [1][0]? = some 1 ∧ 1 ≠ 0 ∧
      (RollRun.create longsword {} []).item.damageParts[1]? = some ("1d6", "fire") ∧
      (fieldToTemplate quiver (RollRun.create longsword {} [])
        (.damage (some { index := some (.single 1), versatile := some true }))).run.templates[
          (RollRun.create longsword {} []).templates.length + 0]? =
        some (.damage "1d10" (Roll.ofEvaluation (quiver.source 0)) none)) ∧
    ((otherLineFormula (RollRun.create longsword {} []).item
        (if (some (IndexSelector.single 1)) = some .all then some false else some true)
        ("1d6", "fire").1 = "" →
        Template.damage "1d10" (Roll.ofEvaluation (quiver.source 0)) none = .null) ∧
    (otherLineFormula (RollRun.create longsword {} []).item
        (if (some (IndexSelector.single 1)) = some .all then some false else some true)
        ("1d6", "fire").1 ≠ "" →
      ∃ base crit, Template.damage "1d10" (Roll.ofEvaluation (quiver.source 0)) none =
        .damage (otherLineFormula (RollRun.create longsword {} []).item
          (if (some (IndexSelector.single 1)) = some .all then some false else some true)
          ("1d6", "fire").1) base crit)) :=
  ⟨⟨by decide, by decide, by decide, by decide, by decide⟩,
    damage_other_line_formula quiver (RollRun.create longsword {} [])
      { index := some (.single 1), versatile := some true } [1] 0 1 ("1d6", "fire")
      (.damage "1d10" (Roll.ofEvaluation (quiver.source 0)) none)
      (by decide) (by decide) (by decide) (by decide) (by decide)⟩

/-- C11, as stated, fails: the longsword has the own formula `1d6` on its
line 1 and the versatile formula `1d10`; a Damage request for the single
index 1 with `versatile: true` rolls `1d10` for that line, and so does a
request for the list of indices 0 and 1. -/
theorem damage_versatile_second_line_counterexample :
    longsword.damageParts[1]? = some ("1d6", "fire") ∧
    longsword.versatile = "1d10" ∧
    (fieldToTemplate quiver (RollRun.create longsword {} [])
      (.damage (some { index := some (.single 1), versatile := some true }))).run.templates =
      [.damage "1d10" (Roll.ofEvaluation (quiver.source 0)) none] ∧
    (fieldToTemplate quiver (RollRun.create longsword {} [])
      (.damage (some { index := some (.list [0, 1]), versatile := some true }))).run.templates =
      [.damage "1d10" (Roll.ofEvaluation (quiver.source 0)) none,
       .damage "1d10" (Roll.ofEvaluation (quiver.source 1)) none] := by
  decide

/-- C12. A Damage request processed while an ammo substitution `a` is
active, when it completes. The invocations of `rollDamage` are those of the
request on the current item followed by one for each damage line of `a` in
ascending order, each with versatile `false`, the request's `crit` and the
context label `[name of a]`; the templates appended are the results `own` of
the former followed by the results `sub` of the latter, position by
position; afterwards `this.item` is the original item again and the
substitution is gone. -/
theorem fieldToTemplate_damage_with_ammo (env : Env) (run : RollRun) (req : DamageRequest)
    (index : List Nat) (a : Item) (hindex : indexArray run.item req.index = some index)
    (hammo : run.ammo = some a)
    (hret : (fieldToTemplate env run (.damage (some req))).result = .returned true) :
    (fieldToTemplate env run (.damage (some req))).run.damageCalls =
      run.damageCalls ++ requestExpansion run.item req index ++
        allExpansion a (some false) req.crit (some ("[" ++ a.name ++ "]")) ∧
    (∃ own sub, (fieldToTemplate env run (.damage (some req))).run.templates =
        run.templates ++ own ++ sub ∧
      own.length = index.length ∧ sub.length = a.damageParts.length ∧
      (∀ k t, own[k]? = some t → ∃ idx run', index[k]? = some idx ∧ run'.item = run.item ∧
        (rollDamage env run' (requestInvocation run.item (decide (req.index = some .all))
          req.versatile req.crit req.context k idx).call).result = .returned t) ∧
      (∀ k t, sub[k]? = some t → ∃ run', run'.item = a ∧
        (rollDamage env run' (allInvocation a (some false) req.crit
          (some ("[" ++ a.name ++ "]")) k).call).result = .returned t)) ∧
    (fieldToTemplate env run (.damage (some req))).run.item = run.item ∧
    (fieldToTemplate env run (.damage (some req))).run.ammo = none := by
  obtain ⟨hcalls, -, hitem, hnone⟩ := damage_with_ammo env run req index a hindex hammo hret
  obtain ⟨own, sub, htemplates, -, -, hfull, hown, hsub⟩ :=
    fieldToTemplate_damage_templates env run req index hindex
  refine ⟨hcalls, ⟨own, sub, htemplates, (hfull hret).1, (hfull hret).2 a hammo, ?_, ?_⟩,
    hitem, hnone⟩
  · intro k t hk
    obtain ⟨idx, run', h1, h2, h3⟩ := hown k t hk
    exact ⟨idx, run', h1, congrArg (fun f => f.1) h2, h3⟩
  · intro k t hk
    obtain ⟨a', run', h1, -, h3, -, -, h4⟩ := hsub k t hk
    rw [hammo] at h1
    cases h1
    exact ⟨run', h3, h4⟩

/-- Witness for C12: the longbow shot with fire arrows: the bow's line, then the two lines of
the arrows, and the bow is the current item again. -/
theorem fieldToTemplate_damage_with_ammo_witness :
    (indexArray bowRun.item (some (IndexSelector.single 0)) = some [0] ∧
      bowRun.ammo = some fireArrows ∧
      (fieldToTemplate quiver bowRun (.damage (some { index := some (.single 0) }))).result =
        .returned true) ∧
    ((fieldToTemplate quiver bowRun
        (.damage (some { index := some (.single 0) }))).run.damageCalls =
      bowRun.damageCalls ++ requestExpansion bowRun.item { index := some (.single 0) } [0] ++
        allExpansion fireArrows (some false) none (some ("[" ++ fireArrows.name ++ "]")) ∧
    (∃ own sub, (fieldToTemplate quiver bowRun
        (.damage (some { index := some (.single 0) }))).run.templates =
        bowRun.templates ++ own ++ sub ∧
      own.length = [0].length ∧ sub.length = fireArrows.damageParts.length ∧
      (∀ k t, own[k]? = some t → ∃ idx run', [0][k]? = some idx ∧ run'.item = bowRun.item ∧
        (rollDamage quiver run' (requestInvocation bowRun.item
          (decide ((some (IndexSelector.single 0)) = some .all))
          none none none k idx).call).result = .returned t) ∧
      (∀ k t, sub[k]? = some t → ∃ run', run'.item = fireArrows ∧
        (rollDamage quiver run' (allInvocation fireArrows (some false) none
          (some ("[" ++ fireArrows.name ++ "]")) k).call).result = .returned t)) ∧
    (fieldToTemplate quiver bowRun
      (.damage (some { index := some (.single 0) }))).run.item = bowRun.item ∧
    (fieldToTemplate quiver bowRun
      (.damage (some { index := some (.single 0) }))).run.ammo = none) :=
  ⟨⟨by decide, by decide, by decide⟩,
    fieldToTemplate_damage_with_ammo quiver bowRun { index := some (.single 0) } [0] fireArrows
      (by decide) (by decide) (by decide)⟩

/-- An example for C12: the templates and the invocations of the longbow
shot with fire arrows. -/
theorem fieldToTemplate_damage_fire_arrows :
    (fieldToTemplate quiver bowRun (.damage (some { index := some (.single 0) }))).run.templates =
      [.damage "1d8" (Roll.ofEvaluation (quiver.source 0)) none,
       .damage "1" (Roll.ofEvaluation (quiver.source 1)) none,
       .damage "1d4" (Roll.ofEvaluation (quiver.source 2)) none] ∧
    (fieldToTemplate quiver bowRun
      (.damage (some { index := some (.single 0) }))).run.damageCalls.map
        (fun inv => (inv.item.name, inv.call.damageIndex, inv.call.forceVersatile,
          inv.call.customContext)) =
      [("Longbow", 0, none, none),
       ("Fire Arrows", 0, some false, some "[Fire Arrows]"),
       ("Fire Arrows", 1, some false, some "[Fire Arrows]")] := by
  decide

/-! ## The flag `hasDamage` and the invocations of `rollDamage` -/

theorem rollDamageFormula_hasDamage (env : Env) (run : RollRun) (call : DamageCall)
    (f : String) : (rollDamageFormula env run call f).run.hasDamage = run.hasDamage := by
  unfold rollDamageFormula
  dsimp only
  repeat' split
  all_goals rfl

theorem rollDamage_hasDamage (env : Env) (run : RollRun) (call : DamageCall) :
    (rollDamage env run call).run.hasDamage =
      (run.hasDamage || decide (call.damageIndex < run.item.damageParts.length)) := by
  unfold rollDamage
  dsimp only
  split
  · rename_i h
    have hlen : ¬ call.damageIndex < run.item.damageParts.length := by
      intro hlt
      rw [List.getElem?_eq_getElem hlt] at h
      simp at h
    simp [hlen]
  · rename_i part h
    have hlen : call.damageIndex < run.item.damageParts.length :=
      (List.getElem?_eq_some_iff.mp h).1
    split
    · simp [hlen]
    · split
      · simp [hlen]
      · rw [rollDamageFormula_hasDamage]
        simp [hlen]

theorem rollDamage_damageLogged (env : Env) (run : RollRun) (call : DamageCall)
    (h : run.damageLogged) : (rollDamage env run call).run.damageLogged := by
  unfold RollRun.damageLogged at h ⊢
  rw [rollDamage_hasDamage, rollDamage_calls, h]
  simp [DamageInvocation.onExistingLine]

theorem damageLoop_damageLogged (env : Env) (isAll : Bool) (v : Option Bool)
    (c : Option ForceCrit) (ctx : Option String) (indices : List Nat) (i : Nat) (run : RollRun)
    (h : run.damageLogged) : (damageLoop env isAll v c ctx indices i run).run.damageLogged := by
  induction indices generalizing i run with
  | nil => exact h
  | cons idx rest ih =>
    unfold damageLoop
    dsimp only
    split
    · exact ih _ _ (rollDamage_damageLogged env run _ h)
    · exact rollDamage_damageLogged env run _ h
    · exact rollDamage_damageLogged env run _ h

theorem rollAttack_damage_same (env : Env) (run : RollRun) (args : AttackArgs) :
    (rollAttack env run args).run.hasDamage = run.hasDamage ∧
    (rollAttack env run args).run.damageCalls = run.damageCalls := by
  unfold rollAttack
  dsimp only
  split
  · exact ⟨rfl, rfl⟩
  · split <;> exact ⟨rfl, rfl⟩

theorem rollTool_damage_same (env : Env) (run : RollRun) (args : CheckArgs) :
    (rollTool env run args).run.hasDamage = run.hasDamage ∧
    (rollTool env run args).run.damageCalls = run.damageCalls := by
  unfold rollTool
  dsimp only
  repeat' split
  all_goals exact ⟨rfl, rfl⟩

theorem rollOther_damage_same (env : Env) (run : RollRun) :
    (rollOther env run).run.hasDamage = run.hasDamage ∧
    (rollOther env run).run.damageCalls = run.damageCalls := by
  unfold rollOther
  dsimp only
  repeat' split
  all_goals exact ⟨rfl, rfl⟩

theorem pushTemplate_damage_same (ran : Ran Template) :
    (pushTemplate ran).run.hasDamage = ran.run.hasDamage ∧
    (pushTemplate ran).run.damageCalls = ran.run.damageCalls := by
  unfold pushTemplate
  split <;> exact ⟨rfl, rfl⟩

/-- A field that is neither a damage request nor a crit-extra request leaves
`hasDamage` and the invocations of `rollDamage` as they are. -/
theorem fieldToTemplateFuel_damage_same (env : Env) (fuel : Nat) (run : RollRun)
    (field : Field) (hdamage : field.isDamage = false) (hcrit : field ≠ .crit) :
    (fieldToTemplateFuel env fuel run field).run.hasDamage = run.hasDamage ∧
    (fieldToTemplateFuel env fuel run field).run.damageCalls = run.damageCalls := by
  cases fuel with
  | zero => exact ⟨rfl, rfl⟩
  | succ fuel =>
    cases field with
    | attack args =>
      simp only [fieldToTemplateFuel]
      exact ⟨(pushTemplate_damage_same _).1.trans (rollAttack_damage_same env run args).1,
        (pushTemplate_damage_same _).2.trans (rollAttack_damage_same env run args).2⟩
    | check args =>
      simp only [fieldToTemplateFuel]
      exact ⟨(pushTemplate_damage_same _).1.trans (rollTool_damage_same env run args).1,
        (pushTemplate_damage_same _).2.trans (rollTool_damage_same env run args).2⟩
    | damage args => simp [Field.isDamage] at hdamage
    | savedc abl dc =>
      simp only [fieldToTemplateFuel, saveRollButton]
      split <;> exact pushTemplate_damage_same _
    | other =>
      simp only [fieldToTemplateFuel]
      split
      · exact ⟨(pushTemplate_damage_same _).1.trans (rollOther_damage_same env run).1,
          (pushTemplate_damage_same _).2.trans (rollOther_damage_same env run).2⟩
      · exact ⟨rfl, rfl⟩
    | custom args =>
      simp only [fieldToTemplateFuel]
      split <;> exact ⟨rfl, rfl⟩
    | desc =>
      simp only [fieldToTemplateFuel]
      split <;> exact ⟨rfl, rfl⟩
    | text args =>
      simp only [fieldToTemplateFuel]
      repeat' split
      all_goals exact ⟨rfl, rfl⟩
    | flavor text => exact ⟨rfl, rfl⟩
    | crit => exact absurd rfl hcrit
    | unknown => exact ⟨rfl, rfl⟩

theorem damageLogged_of_same (run run' : RollRun)
    (hsame : run'.hasDamage = run.hasDamage ∧ run'.damageCalls = run.damageCalls)
    (h : run.damageLogged) : run'.damageLogged := by
  unfold RollRun.damageLogged at h ⊢
  rw [hsame.1, hsame.2]
  exact h

theorem rollCritExtra_damageLogged (env : Env) (run : RollRun) (h : run.damageLogged) :
    (rollCritExtra env run).run.damageLogged := by
  unfold rollCritExtra
  split
  · exact rollDamage_damageLogged env run _ h
  · exact h

theorem fieldToTemplateFuel_damageLogged (env : Env) (fuel : Nat) (run : RollRun)
    (field : Field) (h : run.damageLogged) :
    (fieldToTemplateFuel env fuel run field).run.damageLogged := by
  induction fuel generalizing run field with
  | zero => exact h
  | succ fuel ih =>
    by_cases hcrit : field = .crit
    · subst hcrit
      simp only [fieldToTemplateFuel]
      exact damageLogged_of_same _ _ (pushTemplate_damage_same _)
        (rollCritExtra_damageLogged env run h)
    · cases hdamage : field.isDamage with
      | false =>
        exact damageLogged_of_same _ _
          (fieldToTemplateFuel_damage_same env (fuel + 1) run field hdamage hcrit) h
      | true =>
        cases field with
        | damage args =>
          have hloop : ∀ isAll v c ctx indices,
              (damageLoop env isAll v c ctx indices 0 run).run.damageLogged :=
            fun isAll v c ctx indices => damageLoop_damageLogged env isAll v c ctx indices 0 run h
          simp only [fieldToTemplateFuel]
          split
          · exact h
          · split
            · split
              · split
                · exact ih _ _ (hloop _ _ _ _ _)
                · exact ih _ _ (hloop _ _ _ _ _)
                · exact ih _ _ (hloop _ _ _ _ _)
              · exact hloop _ _ _ _ _
            · exact hloop _ _ _ _ _
            · exact hloop _ _ _ _ _
        | _ => simp [Field.isDamage] at hdamage

theorem fieldsLoop_damageLogged (env : Env) (fields : List Field) (run : RollRun)
    (h : run.damageLogged) : (fieldsLoop env fields run).run.damageLogged := by
  induction fields generalizing run with
  | nil => exact h
  | cons field rest ih =>
    have h1 : (fieldToTemplate env run field).run.damageLogged :=
      fieldToTemplateFuel_damageLogged env 2 run field h
    unfold fieldsLoop
    dsimp only
    split
    · exact ih _ h1
    · exact h1
    · exact h1

theorem fieldsLoop_hasDamage_same (env : Env) (fields : List Field) (run : RollRun)
    (hfields : ∀ field ∈ fields, field.isDamage = false ∧ field ≠ .crit) :
    (fieldsLoop env fields run).run.hasDamage = run.hasDamage := by
  induction fields generalizing run with
  | nil => rfl
  | cons field rest ih =>
    have h1 : (fieldToTemplate env run field).run.hasDamage = run.hasDamage :=
      (fieldToTemplateFuel_damage_same env 2 run field
        (hfields field (List.mem_cons_self _ _)).1 (hfields field (List.mem_cons_self _ _)).2).1
    have hrest : ∀ f ∈ rest, f.isDamage = false ∧ f ≠ .crit :=
      fun f hf => hfields f (List.mem_cons_of_mem _ hf)
    unfold fieldsLoop
    dsimp only
    split
    · exact (ih _ hrest).trans h1
    · exact h1
    · exact h1

theorem fieldsLoop_result (env : Env) (fields : List Field) (run : RollRun) (b : Bool)
    (h : (fieldsLoop env fields run).result = .returned b) : b = true := by
  induction fields generalizing run with
  | nil =>
    simp only [fieldsLoop, Completion.returned.injEq] at h
    exact h.symm
  | cons field rest ih =>
    unfold fieldsLoop at h
    dsimp only at h
    split at h
    · exact ih _ h
    · simp at h
    · simp at h

theorem allFieldsToTemplates_eq (env : Env) (run : RollRun) :
    allFieldsToTemplates env run =
      if (fieldsLoop env run.fields run).result = .returned true ∧
          (fieldsLoop env run.fields run).run.isCrit = true ∧
          (fieldsLoop env run.fields run).run.hasDamage = true ∧
          (fieldsLoop env run.fields run).run.item.critDamage.isSome = true then
        fieldToTemplate env (fieldsLoop env run.fields run).run .crit
      else fieldsLoop env run.fields run := by
  unfold allFieldsToTemplates
  dsimp only
  split
  · rename_i b hres
    have hb := fieldsLoop_result env run.fields run b hres
    subst hb
    simp only [hres, true_and, Bool.and_eq_true]
    by_cases h : ((fieldsLoop env run.fields run).run.isCrit = true ∧
        (fieldsLoop env run.fields run).run.hasDamage = true) ∧
        (fieldsLoop env run.fields run).run.item.critDamage.isSome = true
    · rw [if_pos h, if_pos ⟨h.1.1, h.1.2, h.2⟩]
    · rw [if_neg h, if_neg (fun h' => h ⟨⟨h'.1, h'.2.1⟩, h'.2.2⟩)]
  · rename_i hres
    simp [hres]
  · rename_i hres
    simp [hres]

/-- C13 (amended). On a run that has rolled no damage yet,
`allFieldsToTemplates` processes the crit-extra request once after the
declared requests exactly when their processing completed, the run is then a
crit, the item is flagged to roll extra crit damage, and `rollDamage` was
invoked on an existing damage line while the declared requests were
processed; in every other case its outcome is that of the declared requests
alone. The invocation may come from a Damage request or from a declared
crit-extra request; a declared list with neither leads to no appended
request. -/
theorem allFieldsToTemplates_crit_extra (env : Env) (run : RollRun)
    (hflag : run.hasDamage = false) (hcalls : run.damageCalls = []) :
    allFieldsToTemplates env run =
      (if (fieldsLoop env run.fields run).result = .returned true ∧
          (fieldsLoop env run.fields run).run.isCrit = true ∧
          (fieldsLoop env run.fields run).run.damageCalls.any
            DamageInvocation.onExistingLine = true ∧
          (fieldsLoop env run.fields run).run.item.critDamage.isSome = true then
        fieldToTemplate env (fieldsLoop env run.fields run).run .crit
      else fieldsLoop env run.fields run) ∧
    ((∀ field ∈ run.fields, field.isDamage = false ∧ field ≠ .crit) →
      allFieldsToTemplates env run = fieldsLoop env run.fields run) := by
  have hlogged : run.damageLogged := by
    unfold RollRun.damageLogged
    rw [hflag, hcalls]
    rfl
  have hprocessed : (fieldsLoop env run.fields run).run.hasDamage =
      (fieldsLoop env run.fields run).run.damageCalls.any DamageInvocation.onExistingLine :=
    fieldsLoop_damageLogged env run.fields run hlogged
  refine ⟨?_, ?_⟩
  · rw [allFieldsToTemplates_eq, hprocessed]
  · intro hfields
    have hsame := fieldsLoop_hasDamage_same env run.fields run hfields
    rw [allFieldsToTemplates_eq, hsame, hflag]
    simp

/-- Witness for C13 (amended): the flagged longsword on a crit run with one
Damage request for line 0. -/
theorem allFieldsToTemplates_crit_extra_witness :
    ((critRun [.damage (some { index := some (.single 0) })]).hasDamage = false ∧
      (critRun [.damage (some { index := some (.single 0) })]).damageCalls = []) ∧
    (allFieldsToTemplates quiver (critRun [.damage (some { index := some (.single 0) })]) =
      (if (fieldsLoop quiver (critRun [.damage (some { index := some (.single 0) })]).fields
            (critRun [.damage (some { index := some (.single 0) })])).result = .returned true ∧
          (fieldsLoop quiver (critRun [.damage (some { index := some (.single 0) })]).fields
            (critRun [.damage (some { index := some (.single 0) })])).run.isCrit = true ∧
          (fieldsLoop quiver (critRun [.damage (some { index := some (.single 0) })]).fields
            (critRun [.damage (some { index := some (.single 0) })])).run.damageCalls.any
              DamageInvocation.onExistingLine = true ∧
          (fieldsLoop quiver (critRun [.damage (some { index := some (.single 0) })]).fields
            (critRun [.damage (some { index := some (.single 0) })])).run.item.critDamage.isSome
              = true then
        fieldToTemplate quiver
          (fieldsLoop quiver (critRun [.damage (some { index := some (.single 0) })]).fields
            (critRun [.damage (some { index := some (.single 0) })])).run .crit
      else fieldsLoop quiver (critRun [.damage (some { index := some (.single 0) })]).fields
        (critRun [.damage (some { index := some (.single 0) })])) ∧
    ((∀ field ∈ (critRun [.damage (some { index := some (.single 0) })]).fields,
        field.isDamage = false ∧ field ≠ .crit) →
      allFieldsToTemplates quiver (critRun [.damage (some { index := some (.single 0) })]) =
        fieldsLoop quiver (critRun [.damage (some { index := some (.single 0) })]).fields
          (critRun [.damage (some { index := some (.single 0) })]))) :=
  ⟨⟨rfl, rfl⟩,
    allFieldsToTemplates_crit_extra quiver
      (critRun [.damage (some { index := some (.single 0) })]) rfl rfl⟩

/-- An example for C13: the templates of the flagged longsword on a crit run with one Damage
request for line 0: the damage roll with its crit roll, then the extra crit
damage of line 1, rolled without a crit roll. -/
theorem allFieldsToTemplates_flaming_sword :
    (allFieldsToTemplates quiver
      (critRun [.damage (some { index := some (.single 0) })])).run.templates =
      [.damage "1d8" (Roll.ofEvaluation (quiver.source 0))
        (some (Roll.ofEvaluation ⟨5, [⟨8, [5]⟩]⟩)),
       .damage "1d6" (Roll.ofEvaluation (quiver.source 1)) none] := by
  decide

/-- C13, as stated, fails on two runs of the flagged longsword that are
crits. With the one declared request `crit`, which is no Damage request, the
declared request appends one template and a second crit-extra request is
processed after it. With the one declared request `damage` for the empty
list of indices, nothing is appended after the declared requests. -/
theorem allFieldsToTemplates_crit_extra_counterexample :
    ((critRun [.crit]).isCrit = true ∧ (critRun [.crit]).item.critDamage = some 1 ∧
      (critRun [.crit]).fields.any Field.isDamage = false ∧
      (fieldsLoop quiver (critRun [.crit]).fields (critRun [.crit])).run.templates =
        [.damage "1d6" (Roll.ofEvaluation (quiver.source 0)) none] ∧
      (allFieldsToTemplates quiver (critRun [.crit])).run.templates =
        [.damage "1d6" (Roll.ofEvaluation (quiver.source 0)) none,
         .damage "1d6" (Roll.ofEvaluation (quiver.source 1)) none]) ∧
    ((critRun [.damage (some { index := some (.list []) })]).isCrit = true ∧
      (critRun [.damage (some { index := some (.list []) })]).item.critDamage = some 1 ∧
      (critRun [.damage (some { index := some (.list []) })]).fields.any Field.isDamage = true ∧
      (allFieldsToTemplates quiver
        (critRun [.damage (some { index := some (.list []) })])).result = .returned true ∧
      (allFieldsToTemplates quiver
        (critRun [.damage (some { index := some (.list []) })])).run.templates = [] ∧
      (allFieldsToTemplates quiver
        (critRun [.damage (some { index := some (.list []) })])).run.damageCalls = []) := by
  decide

/-! ## An attack that crits, followed by a damage request -/

theorem selectDamageFormula_ne_empty (run : RollRun) (call : DamageCall)
    (part : String × String) (h : part.1 ≠ "") : (selectDamageFormula run call part).1 ≠ "" := by
  unfold selectDamageFormula
  dsimp only
  split
  · rename_i hv
    simp only [Bool.and_eq_true, decide_eq_true_eq] at hv
    intro hempty
    rw [hempty] at hv
    simp at hv
  · exact h

theorem scaleDamage_frame (env : Env) (run run' : RollRun) (i : Nat) (versatile : Bool)
    (hitem : run'.item = run.item) (hparams : run'.params = run.params) :
    scaleDamage env run' i versatile = scaleDamage env run i versatile := by
  unfold scaleDamage
  rw [hitem, hparams]

theorem applyScaling_frame (env : Env) (run run' : RollRun) (call : DamageCall) (b : Bool)
    (f : String) (hitem : run'.item = run.item) (hparams : run'.params = run.params) :
    applyScaling env run' call b f = applyScaling env run call b f := by
  unfold applyScaling
  rw [scaleDamage_frame env run run' call.damageIndex b hitem hparams]

theorem rolledFormula_frame (env : Env) (run run' : RollRun) (call : DamageCall)
    (hitem : run'.item = run.item) (hparams : run'.params = run.params) :
    rolledFormula env run' call = rolledFormula env run call := by
  unfold rolledFormula selectDamageFormula
  simp only [hitem, hparams, applyScaling_frame env run run' call _ _ hitem hparams]

theorem rolledFormula_ne_none (env : Env) (run : RollRun) (call : DamageCall)
    (part : String × String) (hpart : run.item.damageParts[call.damageIndex]? = some part)
    (hformula : part.1 ≠ "") (hitems : run.item.actorItems ≠ []) :
    ∃ f, rolledFormula env run call = some f := by
  have hsel := selectDamageFormula_ne_empty run call part hformula
  unfold rolledFormula
  simp only [hpart, hsel, if_false]
  cases hscale : applyScaling env run call (selectDamageFormula run call part).2
      (selectDamageFormula run call part).1 with
  | none => exact absurd hscale (applyScaling_ne_none env _ call _ _ hitems)
  | some f => exact ⟨_, rfl⟩

theorem rollDamage_rolledFormula (env : Env) (run : RollRun) (call : DamageCall) (f : String)
    (hf : rolledFormula env run call = some f) :
    (wantsCritRoll env run (call.forceCrit.getD .no) = false →
      (rollDamage env run call).result =
        .returned (.damage f (Roll.ofEvaluation (env.source run.drawn)) none)) ∧
    (wantsCritRoll env run (call.forceCrit.getD .no) = true →
      ∀ crit, env.getCritRoll run.item f (env.source run.drawn) (critBehaviorOf env run) =
          some crit →
        (rollDamage env run call).result =
          .returned (.damage f (Roll.ofEvaluation (env.source run.drawn))
            (some (Roll.ofEvaluation crit)))) := by
  have hwants : wantsCritRoll env
      { run with damageCalls := run.damageCalls ++ [{ item := run.item, call := call }],
                 hasDamage := true } (call.forceCrit.getD .no) =
      wantsCritRoll env run (call.forceCrit.getD .no) :=
    wantsCritRoll_frame env run _ _ rfl
  unfold rolledFormula at hf
  unfold rollDamage
  cases hpart : run.item.damageParts[call.damageIndex]? with
  | none => simp [hpart] at hf
  | some part =>
    simp only [hpart] at hf
    dsimp only
    by_cases hsel : (selectDamageFormula run call part).1 = ""
    · simp [hsel] at hf
    · simp only [hsel, if_false] at hf ⊢
      have hframe := applyScaling_frame env run
        { run with damageCalls := run.damageCalls ++ [{ item := run.item, call := call }],
                   hasDamage := true } call (selectDamageFormula run call part).2
        (selectDamageFormula run call part).1 rfl rfl
      rw [hframe]
      cases hscale : applyScaling env run call (selectDamageFormula run call part).2
          (selectDamageFormula run call part).1 with
      | none => simp [hscale] at hf
      | some df =>
        simp only [hscale, Option.map_some', Option.some.injEq] at hf
        dsimp only
        refine ⟨?_, ?_⟩
        · intro hno
          unfold rollDamageFormula
          simp only [hwants.trans hno]
          simp [hf]
        · intro hyes crit hcrit
          unfold rollDamageFormula
          simp only [hwants.trans hyes, if_true]
          have hcrit' : env.getCritRoll run.item
              (df ++ if call.damageIndex = 0 ∧ run.item.damageBonus ≠ "" then
                "+" ++ run.item.damageBonus else "")
              (env.source run.drawn) (critBehaviorOf env run) = some crit := by
            rw [hf]; exact hcrit
          have hcrit2 : env.getCritRoll
              ({ run with damageCalls := run.damageCalls ++ [{ item := run.item, call := call }],
                          hasDamage := true } : RollRun).item
              (df ++ if call.damageIndex = 0 ∧
                ({ run with damageCalls := run.damageCalls ++ [{ item := run.item, call := call }],
                            hasDamage := true } : RollRun).item.damageBonus ≠ "" then
                "+" ++ ({ run with
                  damageCalls := run.damageCalls ++ [{ item := run.item, call := call }],
                  hasDamage := true } : RollRun).item.damageBonus else "")
              (env.source ({ run with
                damageCalls := run.damageCalls ++ [{ item := run.item, call := call }],
                hasDamage := true } : RollRun).drawn)
              (critBehaviorOf env { run with
                damageCalls := run.damageCalls ++ [{ item := run.item, call := call }],
                hasDamage := true }) = some crit := hcrit'
          simp only [hcrit2]
          simp [hf]

theorem damageLoop_single (env : Env) (isAll : Bool) (v : Option Bool) (c : Option ForceCrit)
    (ctx : Option String) (idx : Nat) (run : RollRun) (t : Template)
    (hres : (rollDamage env run (requestInvocation run.item isAll v c ctx 0 idx).call).result
      = .returned t) :
    (damageLoop env isAll v c ctx [idx] 0 run).result = .returned () ∧
    (damageLoop env isAll v c ctx [idx] 0 run).run.templates = run.templates ++ [t] := by
  have hres' : (rollDamage env run
      { damageIndex := idx
        forceVersatile := if 0 = 0 ∨ isAll = false then v else some false
        forceCrit := c
        customContext := ctx }).result = .returned t := hres
  unfold damageLoop
  dsimp only
  split
  · rename_i template h
    have ht : template = t := by
      have := h.symm.trans hres'
      simp only [Completion.returned.injEq] at this
      exact this
    subst ht
    unfold damageLoop
    exact ⟨rfl, by simp [rollDamage_templates]⟩
  · rename_i h
    rw [hres'] at h
    simp at h
  · rename_i h
    rw [hres'] at h
    simp at h

theorem fieldToTemplate_damage_single (env : Env) (run : RollRun) (req : DamageRequest)
    (idx : Nat) (t : Template) (hindex : indexArray run.item req.index = some [idx])
    (hres : (rollDamage env run (requestInvocation run.item (decide (req.index = some .all))
      req.versatile req.crit req.context 0 idx).call).result = .returned t) :
    ∃ sub, (fieldToTemplate env run (.damage (some req))).run.templates =
      run.templates ++ [t] ++ sub := by
  obtain ⟨hret, htemplates⟩ := damageLoop_single env (decide (req.index = some .all))
    req.versatile req.crit req.context idx run t hres
  have hret' : (ownLoop env run req [idx]).result = .returned () := hret
  have htemplates' : (ownLoop env run req [idx]).run.templates = run.templates ++ [t] :=
    htemplates
  rw [fieldToTemplate_damage_eq env run req [idx] hindex, hret']
  dsimp only
  cases hammo : run.ammo with
  | none => exact ⟨[], by simp [htemplates']⟩
  | some a =>
    obtain ⟨sub, hsub, -⟩ := damageLoop_templates env true (some false)
      req.crit (some ("[" ++ a.name ++ "]")) (List.range a.damageParts.length) 0
      { (ownLoop env run req [idx]).run with item := a, ammo := none }
    have hsub' : (ammoLoop env run req [idx] a).run.templates = run.templates ++ [t] ++ sub := by
      refine hsub.trans ?_
      have h1 : ({ (ownLoop env run req [idx]).run with item := a, ammo := none } :
          RollRun).templates = run.templates ++ [t] := htemplates'
      rw [h1]
    dsimp only
    refine ⟨sub, ?_⟩
    cases hres2 : (ammoLoop env run req [idx] a).result <;> exact hsub'

theorem rollAttack_returned (env : Env) (run : RollRun) (args : AttackArgs) (out : MultiRoll)
    (hout : (rollAttack env run args).result = .returned out) :
    (rollAttack env run args).run.item = run.item ∧
    (rollAttack env run args).run.params = run.params ∧
    (rollAttack env run args).run.templates = run.templates ∧
    (out.isCrit = true → (rollAttack env run args).run.isCrit = true) := by
  unfold rollAttack at hout ⊢
  dsimp only at hout ⊢
  split at hout
  · simp at hout
  · rename_i output heq
    simp only [Completion.returned.injEq] at hout
    subst hout
    simp only [heq]
    refine ⟨?_, ?_, ?_, ?_⟩
    · split <;> rfl
    · split <;> rfl
    · split <;> rfl
    · intro hcrit
      simp [hcrit]

theorem fieldToTemplate_attack_returned (env : Env) (run : RollRun) (args : AttackArgs)
    (out : MultiRoll) (hout : (rollAttack env run args).result = .returned out) :
    fieldToTemplate env run (.attack args) =
      { run := { (rollAttack env run args).run with
          templates := (rollAttack env run args).run.templates ++ [.attack out] }
        result := .returned true } := by
  simp only [fieldToTemplate, fieldToTemplateFuel, hout, pushTemplate]

theorem fieldsLoop_pair_run (env : Env) (first second : Field) (run : RollRun) (b : Bool)
    (h : (fieldToTemplate env run first).result = .returned b) :
    (fieldsLoop env [first, second] run).run =
      (fieldToTemplate env (fieldToTemplate env run first).run second).run := by
  simp only [fieldsLoop, h]
  split <;> rfl

theorem damage_after_crit (env : Env) (run : RollRun) (f : String)
    (hcrit : run.isCrit = true) (hf : rolledFormula env run {} = some f) :
    (critBehaviorOf env run ≠ "0" →
      ∀ crit, env.getCritRoll run.item f (env.source run.drawn) (critBehaviorOf env run) =
          some crit →
        ∃ sub,
          (fieldToTemplate env run (.damage (some { index := some (.single 0) }))).run.templates =
            run.templates ++ [.damage f (Roll.ofEvaluation (env.source run.drawn))
              (some (Roll.ofEvaluation crit))] ++ sub) ∧
    (critBehaviorOf env run = "0" →
      ∃ sub,
        (fieldToTemplate env run (.damage (some { index := some (.single 0) }))).run.templates =
          run.templates ++ [.damage f (Roll.ofEvaluation (env.source run.drawn)) none] ++ sub) := by
  obtain ⟨hno, hyes⟩ := rollDamage_rolledFormula env run
    (requestInvocation run.item (decide ((some (IndexSelector.single 0)) = some .all))
      none none none 0 0).call f hf
  refine ⟨?_, ?_⟩
  · intro hbehavior crit hdice
    have hwants : wantsCritRoll env run .no = true := by
      simp [wantsCritRoll, hcrit, hbehavior]
    exact fieldToTemplate_damage_single env run { index := some (.single 0) } 0
      _ rfl (hyes hwants crit hdice)
  · intro hbehavior
    have hwants : wantsCritRoll env run .no = false := by
      simp [wantsCritRoll, hbehavior]
    exact fieldToTemplate_damage_single env run { index := some (.single 0) } 0
      _ rfl (hno hwants)

/-- C14 (amended). The request list `[attack, damage of index 0]` on a
run whose item has a first damage line with a non-empty formula and whose
actor owns an item. The damage request rolls one formula, `rolledFormula`.
When the attack returns an outcome with `isCrit = true`, the attack's
template is followed by the template of the damage roll; when the crit
behaviour in force is not "0" and `getCritRoll` gives a roll for the rolled
formula and its base evaluation, that template holds the base roll and this
crit roll; when the crit behaviour in force is "0" it holds the base roll
and no crit roll. -/
theorem attack_crit_then_damage (env : Env) (run : RollRun) (args : AttackArgs)
    (out : MultiRoll) (part : String × String)
    (hout : (rollAttack env run args).result = .returned out) (hcrit : out.isCrit = true)
    (hpart : run.item.damageParts[0]? = some part) (hformula : part.1 ≠ "")
    (hitems : run.item.actorItems ≠ []) :
    ∃ f, rolledFormula env run {} = some f ∧
      (critBehaviorOf env run ≠ "0" →
        ∀ crit, env.getCritRoll run.item f (env.source (rollAttack env run args).run.drawn)
            (critBehaviorOf env run) = some crit →
          ∃ sub,
            (fieldsLoop env [.attack args, .damage (some { index := some (.single 0) })]
              run).run.templates =
              run.templates ++ [.attack out,
                .damage f (Roll.ofEvaluation (env.source (rollAttack env run args).run.drawn))
                  (some (Roll.ofEvaluation crit))] ++ sub) ∧
      (critBehaviorOf env run = "0" →
        ∃ sub,
          (fieldsLoop env [.attack args, .damage (some { index := some (.single 0) })]
            run).run.templates =
            run.templates ++ [.attack out,
              .damage f (Roll.ofEvaluation (env.source (rollAttack env run args).run.drawn))
                none] ++ sub) := by
  obtain ⟨f, hf⟩ := rolledFormula_ne_none env run {} part hpart hformula hitems
  obtain ⟨hitem, hparams, htemplates, hisCrit⟩ := rollAttack_returned env run args out hout
  have h1 := fieldToTemplate_attack_returned env run args out hout
  have hrun := fieldsLoop_pair_run env (.attack args)
    (.damage (some { index := some (.single 0) })) run true (by rw [h1])
  rw [hrun, h1]
  have hbeh : critBehaviorOf env { (rollAttack env run args).run with
      templates := (rollAttack env run args).run.templates ++ [.attack out] } =
      critBehaviorOf env run := by
    unfold critBehaviorOf
    dsimp only
    rw [hparams]
  have hf' : rolledFormula env { (rollAttack env run args).run with
      templates := (rollAttack env run args).run.templates ++ [.attack out] } {} = some f :=
    (rolledFormula_frame env run _ {} hitem hparams).trans hf
  obtain ⟨hyes, hno⟩ := damage_after_crit env
    { (rollAttack env run args).run with
      templates := (rollAttack env run args).run.templates ++ [.attack out] } f
    (hisCrit hcrit) hf'
  rw [hbeh] at hyes hno
  dsimp only at hyes hno ⊢
  refine ⟨f, hf, ?_, ?_⟩
  · intro hbehavior crit hdice
    obtain ⟨sub, h⟩ := hyes hbehavior crit (by rw [hitem]; exact hdice)
    exact ⟨sub, by rw [h, htemplates]; simp⟩
  · intro hbehavior
    obtain ⟨sub, h⟩ := hno hbehavior
    exact ⟨sub, by rw [h, htemplates]; simp⟩

/-- Witness for C14 (amended): the longbow in `critDiceEnv`, whose attack
crits and whose `getCritRoll` gives a roll for formulas with dice only; the
crit behaviour in force is "1", the rolled formula is `1d8` and
`getCritRoll` gives a roll for it. -/
theorem attack_crit_then_damage_witness :
    ((rollAttack critDiceEnv (RollRun.create longbow {} [])
        { triggersCrit := some true }).result = .returned doubleTwentyAttack ∧
      doubleTwentyAttack.isCrit = true ∧
      (RollRun.create longbow {} []).item.damageParts[0]? = some ("1d8", "piercing") ∧
      ("1d8", "piercing").1 ≠ "" ∧
      (RollRun.create longbow {} []).item.actorItems ≠ []) ∧
    (critBehaviorOf critDiceEnv (RollRun.create longbow {} []) ≠ "0" ∧
      rolledFormula critDiceEnv (RollRun.create longbow {} []) {} = some "1d8" ∧
      critDiceEnv.getCritRoll (RollRun.create longbow {} []).item "1d8"
        (critDiceEnv.source (rollAttack critDiceEnv (RollRun.create longbow {} [])
          { triggersCrit := some true }).run.drawn)
        (critBehaviorOf critDiceEnv (RollRun.create longbow {} [])) =
        some ⟨5, [⟨8, [5]⟩]⟩) ∧
    ∃ f, rolledFormula critDiceEnv (RollRun.create longbow {} []) {} = some f ∧
      (critBehaviorOf critDiceEnv (RollRun.create longbow {} []) ≠ "0" →
        ∀ crit, critDiceEnv.getCritRoll (RollRun.create longbow {} []).item f
            (critDiceEnv.source (rollAttack critDiceEnv (RollRun.create longbow {} [])
              { triggersCrit := some true }).run.drawn)
            (critBehaviorOf critDiceEnv (RollRun.create longbow {} [])) = some crit →
          ∃ sub,
            (fieldsLoop critDiceEnv
              [.attack { triggersCrit := some true },
               .damage (some { index := some (.single 0) })]
              (RollRun.create longbow {} [])).run.templates =
              (RollRun.create longbow {} []).templates ++ [.attack doubleTwentyAttack,
                .damage f (Roll.ofEvaluation (critDiceEnv.source
                    (rollAttack critDiceEnv (RollRun.create longbow {} [])
                      { triggersCrit := some true }).run.drawn))
                  (some (Roll.ofEvaluation crit))] ++ sub) ∧
      (critBehaviorOf critDiceEnv (RollRun.create longbow {} []) = "0" →
        ∃ sub,
          (fieldsLoop critDiceEnv
            [.attack { triggersCrit := some true },
             .damage (some { index := some (.single 0) })]
            (RollRun.create longbow {} [])).run.templates =
            (RollRun.create longbow {} []).templates ++ [.attack doubleTwentyAttack,
              .damage f (Roll.ofEvaluation (critDiceEnv.source
                  (rollAttack critDiceEnv (RollRun.create longbow {} [])
                    { triggersCrit := some true }).run.drawn))
                none] ++ sub) :=
  ⟨⟨by decide, by decide, by decide, by decide, by decide⟩,
    ⟨by decide, by decide, by decide⟩,
    attack_crit_then_damage critDiceEnv (RollRun.create longbow {} [])
      { triggersCrit := some true } doubleTwentyAttack ("1d8", "piercing")
      (by decide) (by decide) (by decide) (by decide) (by decide)⟩

/-- An example for C14: the longbow in `critDiceEnv`. The rolled formula is
`1d8`, for which `getCritRoll` gives a roll, and the templates are the
attack, then the damage roll with its crit roll. -/
theorem attack_crit_then_damage_longbow :
    rolledFormula critDiceEnv (RollRun.create longbow {} []) {} = some "1d8" ∧
    critDiceEnv.getCritRoll longbow "1d8" (critDiceEnv.source 1) "1" = some ⟨5, [⟨8, [5]⟩]⟩ ∧
    critDiceEnv.getCritRoll longbow "3" (critDiceEnv.source 1) "1" = none ∧
    (fieldsLoop critDiceEnv
      [.attack { triggersCrit := some true }, .damage (some { index := some (.single 0) })]
      (RollRun.create longbow {} [])).run.templates =
      [.attack doubleTwentyAttack,
       .damage "1d8" (Roll.ofEvaluation (critDiceEnv.source 1))
         (some (Roll.ofEvaluation ⟨5, [⟨8, [5]⟩]⟩))] := by
  decide

/-- C14, as stated, fails: with the crit behaviour set to "0", the attack of the longbow reports a
crit and the damage roll that follows holds no crit roll. -/
theorem attack_crit_no_crit_dice_counterexample :
    (rollAttack noCritDiceEnv (RollRun.create longbow {} [])
      { triggersCrit := some true }).result = .returned doubleTwentyAttack ∧
    doubleTwentyAttack.isCrit = true ∧
    (fieldsLoop noCritDiceEnv
      [.attack { triggersCrit := some true }, .damage (some { index := some (.single 0) })]
      (RollRun.create longbow {} [])).result = .returned true ∧
    (fieldsLoop noCritDiceEnv
      [.attack { triggersCrit := some true }, .damage (some { index := some (.single 0) })]
      (RollRun.create longbow {} [])).run.templates =
      [.attack doubleTwentyAttack,
       .damage "1d8" (Roll.ofEvaluation (noCritDiceEnv.source 1)) none] := by
  decide

/-! ## What `consumeCharge` commits -/

theorem consumeCharge_cases (env : Env) (run : RollRun) :
    (consumeCharge env run).output = .error ∧ (consumeCharge env run).update = none ∨
    ∃ consulted, consumeCharge env run =
      commitUpdates run.params.useCharge (chargeUpdates run.item run.params.useCharge)
        consulted := by
  by_cases h1 : usesCheckFails run.item run.params.useCharge = true
  · exact Or.inl (by rw [consumeCharge_of_check_fails env run (Or.inl h1)]; exact ⟨rfl, rfl⟩)
  by_cases h2 : quantityCheckFails run.item run.params.useCharge = true
  · exact Or.inl (by
      rw [consumeCharge_of_check_fails env run (Or.inr (Or.inl h2))]; exact ⟨rfl, rfl⟩)
  by_cases h3 : usesAndQuantityCheckFails run.item run.params.useCharge = true
  · exact Or.inl (by
      rw [consumeCharge_of_check_fails env run (Or.inr (Or.inr (Or.inl h3)))]; exact ⟨rfl, rfl⟩)
  by_cases h4 : rechargeCheckFails run.item run.params.useCharge = true
  · exact Or.inl (by
      rw [consumeCharge_of_check_fails env run (Or.inr (Or.inr (Or.inr h4)))]; exact ⟨rfl, rfl⟩)
  rw [consumeCharge_of_checks_pass env run (by simpa using h1) (by simpa using h2)
    (by simpa using h3) (by simpa using h4)]
  by_cases hr : (hasResource run.item && run.params.useCharge.resource) = true
  · by_cases ha : env.handleResourceConsumption run.item = true
    · exact Or.inr ⟨true, by simp [hr, ha]⟩
    · exact Or.inl (by simp [hr, ha])
  · exact Or.inr ⟨false, by simp [hr]⟩

theorem commitUpdates_output (request : UseCharge) (updates : ChargeOutput × ItemUpdate)
    (consulted : Bool) : (commitUpdates request updates consulted).output = updates.1 := rfl

theorem commitUpdates_update (request : UseCharge) (updates : ChargeOutput × ItemUpdate)
    (consulted : Bool) :
    (commitUpdates request updates consulted).update =
      some (if request.charge then { updates.2 with rechargeCharged := some false }
            else updates.2) := rfl

/-- C21. The method `consumeCharge` is atomic on the item's counters: it
returns `"error"` exactly when it has not called `item.update`; and when it
does not return `"error"`, its one call of `item.update` carries all the new
counters together: the uses and the quantity computed by lines 1426-1455,
and `recharge.charged` set to `false` when the recharge was requested. -/
theorem consumeCharge_atomic (env : Env) (run : RollRun) :
    ((consumeCharge env run).output = .error ↔ (consumeCharge env run).update = none) ∧
    ((consumeCharge env run).output ≠ .error →
      (consumeCharge env run).output = (chargeUpdates run.item run.params.useCharge).1 ∧
      (consumeCharge env run).update =
        some (if run.params.useCharge.charge then
            { (chargeUpdates run.item run.params.useCharge).2 with rechargeCharged := some false }
          else (chargeUpdates run.item run.params.useCharge).2)) := by
  rcases consumeCharge_cases env run with ⟨h1, h2⟩ | ⟨consulted, h⟩
  · exact ⟨⟨fun _ => h2, fun _ => h1⟩, fun hne => absurd h1 hne⟩
  · rw [h]
    have hne := chargeUpdates_ne_error run.item run.params.useCharge
    refine ⟨⟨fun he => absurd he hne, fun hn => ?_⟩, fun _ => ⟨rfl, rfl⟩⟩
    rw [commitUpdates_update] at hn
    simp at hn

/-- An example for C21: the empty wand gives `"error"` and no update; the
charged breath weapon gives one update. -/
theorem consumeCharge_atomic_examples :
    consumeCharge quiver (chargeRun emptyWand { use := true, charge := true }) =
      { output := .error, update := none, resourceConsulted := false } ∧
    consumeCharge quiver (chargeRun { emptyWand with usesValue := 2, rechargeCharged := true }
        { use := true, charge := true }) =
      { output := .success
        update := some { usesValue := some 1, rechargeCharged := some false }
        resourceConsulted := false } := by
  decide

theorem consumeCharge_both_of_pass (env : Env) (run : RollRun)
    (hconfigured : hasUses run.item = true)
    (huse : run.params.useCharge.use = true)
    (hquantity : run.params.useCharge.quantity = true)
    (hstock : ¬ (run.item.usesValue = 0 ∧ run.item.quantity ≤ 1))
    (hrecharge : rechargeCheckFails run.item run.params.useCharge = false)
    (hresource : hasResource run.item = true → run.params.useCharge.resource = true →
      env.handleResourceConsumption run.item = true) :
    ∃ consulted, consumeCharge env run =
      commitUpdates run.params.useCharge (chargeUpdates run.item run.params.useCharge)
        consulted := by
  have hpass := consumeCharge_of_checks_pass env run
    (by simp [usesCheckFails, hquantity])
    (by simp [quantityCheckFails, huse])
    (by
      simp only [usesAndQuantityCheckFails, hconfigured, huse, hquantity, Bool.true_and,
        Bool.and_eq_false_imp, decide_eq_true_eq, decide_eq_false_iff_not]
      intro h0 h1
      exact hstock ⟨h0, h1⟩) hrecharge
  rw [hpass]
  by_cases hr : (hasResource run.item && run.params.useCharge.resource) = true
  · have h1 : hasResource run.item = true := by simp at hr; exact hr.1
    have h2 : run.params.useCharge.resource = true := by simp at hr; exact hr.2
    exact ⟨true, by simp [hr, hresource h1 h2]⟩
  · exact ⟨false, by simp [hr]⟩

/-- C22. For an item with one use left and a quantity of 1, `consumeCharge`
with both uses and quantity requested (the recharge check and the resource
collaborator not failing) commits `uses.value = 0` and `quantity = 0`, and
returns `"destroy"` when the item is flagged `autoDestroy` and `"success"`
when it is not. -/
theorem consumeCharge_last_use_of_last_item (env : Env) (run : RollRun)
    (huses : run.item.usesValue = 1) (hstock : run.item.quantity = 1)
    (huse : run.params.useCharge.use = true)
    (hquantity : run.params.useCharge.quantity = true)
    (hrecharge : rechargeCheckFails run.item run.params.useCharge = false)
    (hresource : hasResource run.item = true → run.params.useCharge.resource = true →
      env.handleResourceConsumption run.item = true) :
    (consumeCharge env run).output = (if run.item.autoDestroy then .destroy else .success) ∧
    ∃ u, (consumeCharge env run).update = some u ∧
      u.usesValue = some 0 ∧ u.quantity = some 0 := by
  have hconfigured : hasUses run.item = true := by simp [hasUses, huses]
  obtain ⟨consulted, h⟩ := consumeCharge_both_of_pass env run hconfigured huse hquantity
    (by simp [huses]) hrecharge hresource
  have hu : chargeUpdates run.item run.params.useCharge =
      (if run.item.autoDestroy then .destroy else .success,
        { quantity := some 0, usesValue := some 0 }) := by
    unfold chargeUpdates remainingUses
    simp [hconfigured, huse, hquantity, huses, hstock]
  rw [h, commitUpdates_output, commitUpdates_update, hu]
  refine ⟨rfl, ?_⟩
  split <;> exact ⟨_, rfl, rfl, rfl⟩

/-- Witness for C22: the last use of the last scroll case, flagged
`autoDestroy`. -/
theorem consumeCharge_last_use_of_last_item_witness :
    (consumeCharge quiver (chargeRun lastCharge { use := true, quantity := true })).output =
      (if lastCharge.autoDestroy then .destroy else .success) ∧
    ∃ u, (consumeCharge quiver
        (chargeRun lastCharge { use := true, quantity := true })).update = some u ∧
      u.usesValue = some 0 ∧ u.quantity = some 0 :=
  consumeCharge_last_use_of_last_item quiver
    (chargeRun lastCharge { use := true, quantity := true }) rfl rfl rfl rfl rfl
    (fun h => absurd h (by decide))

/-- An example for C22: the scroll case flagged `autoDestroy` and the same
item without the flag. -/
theorem consumeCharge_last_charge :
    consumeCharge quiver (chargeRun lastCharge { use := true, quantity := true }) =
      { output := .destroy, update := some { usesValue := some 0, quantity := some 0 }
        resourceConsulted := false } ∧
    consumeCharge quiver
        (chargeRun { lastCharge with autoDestroy := false } { use := true, quantity := true }) =
      { output := .success, update := some { usesValue := some 0, quantity := some 0 }
        resourceConsulted := false } := by
  decide

/-- C23 (amended). For an item on which uses are configured, with at most
one use left and a quantity of at least 2, `consumeCharge` with both uses
and quantity requested (the recharge check and the resource collaborator not
failing) returns `"success"` and commits the quantity less one and
`uses.value` reset to the item's maximum uses. -/
theorem consumeCharge_restock (env : Env) (run : RollRun)
    (hconfigured : hasUses run.item = true)
    (huses : run.item.usesValue ≤ 1) (hstock : 2 ≤ run.item.quantity)
    (huse : run.params.useCharge.use = true)
    (hquantity : run.params.useCharge.quantity = true)
    (hrecharge : rechargeCheckFails run.item run.params.useCharge = false)
    (hresource : hasResource run.item = true → run.params.useCharge.resource = true →
      env.handleResourceConsumption run.item = true) :
    (consumeCharge env run).output = .success ∧
    ∃ u, (consumeCharge env run).update = some u ∧
      u.quantity = some ((run.item.quantity : Int) - 1) ∧
      u.usesValue = some (run.item.usesMax : Int) := by
  obtain ⟨consulted, h⟩ := consumeCharge_both_of_pass env run hconfigured huse hquantity
    (by omega) hrecharge hresource
  have hu : chargeUpdates run.item run.params.useCharge =
      (.success, { quantity := some ((run.item.quantity : Int) - 1)
                   usesValue := some (run.item.usesMax : Int) }) := by
    have h1 : max ((run.item.usesValue : Int) - 1) 0 < 1 := by omega
    have h2 : (1 : Int) ≤ (run.item.quantity : Int) - 1 := by omega
    have h3 : ¬ ((run.item.quantity : Int) - 1 < 1) := by omega
    have h4 : max ((run.item.quantity : Int) - 1) 0 = (run.item.quantity : Int) - 1 := by omega
    have h5 : max (run.item.usesMax : Int) 0 = (run.item.usesMax : Int) := by omega
    unfold chargeUpdates remainingUses
    simp [hconfigured, huse, hquantity, h1, h2, h3, h4, h5]
  rw [h, commitUpdates_output, commitUpdates_update, hu]
  refine ⟨rfl, ?_⟩
  split <;> exact ⟨_, rfl, rfl, rfl⟩

/-- Witness for C23 (amended): the empty wand with three in stock and a
maximum of 7 uses. -/
theorem consumeCharge_restock_witness :
    (consumeCharge quiver (chargeRun wandStack { use := true, quantity := true })).output =
      .success ∧
    ∃ u, (consumeCharge quiver
        (chargeRun wandStack { use := true, quantity := true })).update = some u ∧
      u.quantity = some ((wandStack.quantity : Int) - 1) ∧
      u.usesValue = some (wandStack.usesMax : Int) :=
  consumeCharge_restock quiver (chargeRun wandStack { use := true, quantity := true })
    rfl (by decide) (by decide) rfl rfl rfl (fun h => absurd h (by decide))

/-- C23, as stated, fails: a dagger has no uses configured, so with zero
uses, three in stock and both uses and quantity requested, `consumeCharge`
returns `"success"` and commits an empty update: the quantity stays 3. -/
theorem consumeCharge_unconfigured_restock_counterexample :
    daggerStack.usesValue = 0 ∧ daggerStack.quantity = 3 ∧
    consumeCharge quiver (chargeRun daggerStack { use := true, quantity := true }) =
      { output := .success, update := some {}, resourceConsulted := false } := by
  decide

/-! ## Scaling: the level of a character and the step count -/

theorem LevelValue.plus_ne_number (v : LevelValue) (n : Int) (h : ∀ q, v ≠ .number q) :
    ∀ q, v.plus n ≠ .number q := by
  intro q
  cases v with
  | number p => exact absurd rfl (h p)
  | object => simp [LevelValue.plus]
  | string s => simp [LevelValue.plus]

theorem foldl_level_ne_number (items : List OwnedItem) (v : LevelValue)
    (h : ∀ q, v ≠ .number q) :
    ∀ q, items.foldl (fun runningTotal item =>
      if item.type = "class" then runningTotal.plus (classLevels item) else runningTotal) v
        ≠ .number q := by
  induction items generalizing v with
  | nil => exact h
  | cons item rest ih =>
    simp only [List.foldl_cons]
    apply ih
    split
    · exact LevelValue.plus_ne_number v _ h
    · exact h

/-- For no list of items is the value of `getCharacterLevel` a number. -/
theorem getCharacterLevel_ne_number (items : List OwnedItem) (q : Rat) :
    getCharacterLevel items ≠ some (.number q) := by
  unfold getCharacterLevel
  split
  · simp
  · rename_i first rest
    intro h
    simp only [Option.some.injEq] at h
    exact foldl_level_ne_number rest .object (by simp) q h

theorem cantripSteps_of_character (items : List OwnedItem) (level : LevelValue)
    (h : getCharacterLevel items = some level) : cantripSteps level = .nan := by
  cases level with
  | number q => exact absurd h (getCharacterLevel_ne_number items q)
  | object => rfl
  | string s => rfl

/-- C27, on the code: for an actor with one class of level 3 and one of
level 2 (character level 5), `getCharacterLevel` returns the string
`"[object Object]2"`; with the one class of level 5 it returns the class
item itself; and the value depends on the position of the class items:
after a weapon the classes of levels 3 and 2 give `"[object Object]32"`,
around it the classes of levels 2 and 3 give `"[object Object]3"`. The
`reduce` of lines 95-102 has no initial value, so the first item is the
accumulator and is never counted. -/
theorem getCharacterLevel_not_the_sum :
    getCharacterLevel [{ type := "class", levels := some 3 }, { type := "class", levels := some 2 }]
      = some (.string "[object Object]2") ∧
    getCharacterLevel [{ type := "class", levels := some 5 }] = some .object ∧
    getCharacterLevel [{ type := "weapon" }, { type := "class", levels := some 3 },
      { type := "class", levels := some 2 }] = some (.string "[object Object]32") ∧
    getCharacterLevel [{ type := "class", levels := some 2 }, { type := "weapon" },
      { type := "class", levels := some 3 }] = some (.string "[object Object]3") ∧
    getCharacterLevel [] = none := by
  decide

/-! ## Scaling: the calls of the system's routine -/

theorem scaleDamage_of_calls (env : Env) (run : RollRun) (i : Nat) (versatile : Bool)
    (calls : List ScaleCall) (c : ScaleCall)
    (hcalls : scaleDamageCalls run i versatile = some calls) (hlast : calls.getLast? = some c) :
    scaleDamage env run i versatile =
      some (some (env.systemScaleDamage c.parts c.scaling c.times)) := by
  unfold scaleDamageCalls at hcalls
  unfold scaleDamage
  dsimp only at hcalls ⊢
  split at hcalls
  · rename_i hbranch
    simp only [hbranch, and_self, if_true]
    split at hcalls
    · simp at hcalls
    · rename_i level hlevel
      split at hcalls
      · simp only [Option.some.injEq] at hcalls
        subst hcalls
        simp at hlast
      · rename_i hadd
        simp only [Option.some.injEq] at hcalls
        subst hcalls
        simp only [hadd, if_false]
        cases versatile <;> simp at hlast <;> subst hlast <;> simp
  · rename_i hbranch
    simp only [hbranch, if_false]
    split at hcalls
    · rename_i hlevel
      simp only [hlevel, if_true]
      split at hcalls
      · simp only [Option.some.injEq] at hcalls
        subst hcalls
        simp at hlast
      · rename_i htext
        simp only [htext, if_false]
        split at hcalls
        · rename_i hadd
          simp only [Option.some.injEq] at hcalls
          subst hcalls
          simp only [hadd, if_true]
          cases versatile <;> simp at hlast <;> subst hlast <;> simp
        · simp only [Option.some.injEq] at hcalls
          subst hcalls
          simp at hlast
    · simp only [Option.some.injEq] at hcalls
      subst hcalls
      simp at hlast

/-- The step count of every call that `scaleDamage` makes: in the cantrip
branch `floor((level + 1) / 6)` of the level read (`NaN` for a level that is
no number) and never 0; in the slot branch the slot level less the level of
the spell, and positive. -/
theorem scaleDamageCalls_times (run : RollRun) (i : Nat) (versatile : Bool)
    (calls : List ScaleCall) (c : ScaleCall)
    (hcalls : scaleDamageCalls run i versatile = some calls) (hc : c ∈ calls) :
    run.item.type = "spell" ∧
    ((run.item.scalingMode = "cantrip" ∧ c.times ≠ .count 0 ∧
        ∃ level, (if run.item.actorIsCharacter then getCharacterLevel run.item.actorItems
            else some (.number run.item.actorCr)) = some level ∧
          c.times = cantripSteps level) ∨
      (run.item.scalingMode = "level" ∧
        c.times = .count ((run.params.slotLevel.getD 0) - run.item.level) ∧
        0 < (run.params.slotLevel.getD 0) - run.item.level)) := by
  unfold scaleDamageCalls at hcalls
  dsimp only at hcalls
  split at hcalls
  · rename_i hbranch
    refine ⟨hbranch.1, Or.inl ⟨hbranch.2, ?_⟩⟩
    split at hcalls
    · simp at hcalls
    · rename_i level hlevel
      split at hcalls
      · simp only [Option.some.injEq] at hcalls
        subst hcalls
        simp at hc
      · rename_i hadd
        simp only [Option.some.injEq] at hcalls
        subst hcalls
        have htimes : c.times = cantripSteps level := by
          cases versatile <;> simp at hc
          · rw [hc]
          · rcases hc with hc | hc <;> rw [hc]
        exact ⟨by rw [htimes]; exact hadd, level, hlevel, htimes⟩
  · split at hcalls
    · rename_i hbranch
      refine ⟨hbranch.1, Or.inr ⟨hbranch.2.1, ?_⟩⟩
      split at hcalls
      · simp only [Option.some.injEq] at hcalls
        subst hcalls
        simp at hc
      · split at hcalls
        · rename_i hadd
          simp only [Option.some.injEq] at hcalls
          subst hcalls
          refine ⟨?_, hadd⟩
          cases versatile <;> simp at hc
          · rw [hc]
          · rcases hc with hc | hc <;> rw [hc]
        · simp only [Option.some.injEq] at hcalls
          subst hcalls
          simp at hc
    · simp only [Option.some.injEq] at hcalls
      subst hcalls
      simp at hc

/-- The scaling routine is called for damage line 0 only. -/
theorem rollDamageScaleCalls_other_line (run : RollRun) (call : DamageCall)
    (hidx : call.damageIndex ≠ 0) : rollDamageScaleCalls run call = some [] := by
  unfold rollDamageScaleCalls
  split
  · rfl
  · simp [hidx]

/-- For a cantrip of a character the scaling routine is called, and every
call hands it the step count `NaN`. -/
theorem scaleDamageCalls_of_character (run : RollRun) (i : Nat) (versatile : Bool)
    (hspell : run.item.type = "spell") (hmode : run.item.scalingMode = "cantrip")
    (hcharacter : run.item.actorIsCharacter = true) (hitems : run.item.actorItems ≠ []) :
    ∃ calls, scaleDamageCalls run i versatile = some calls ∧ calls ≠ [] ∧
      ∀ c ∈ calls, c.times = .nan := by
  cases hlevel : getCharacterLevel run.item.actorItems with
  | none =>
    unfold getCharacterLevel at hlevel
    split at hlevel
    · rename_i h
      exact absurd h hitems
    · simp at hlevel
  | some level =>
    have hnan := cantripSteps_of_character run.item.actorItems level hlevel
    unfold scaleDamageCalls
    simp only [hspell, hmode, and_self, if_true, hcharacter, hlevel, hnan]
    refine ⟨_, rfl, by simp, ?_⟩
    intro c hc
    cases versatile <;> simp at hc
    · rw [hc]
    · rcases hc with hc | hc <;> rw [hc]

/-- C25, on the code: for the cantrip of a character of level 1, whose step
count `floor((1 + 1) / 6)` is 0, `scaleDamage` calls the scaling routine for
damage line 0 with the step count `NaN`; with the versatile formula active
it calls it twice. The level comes from `getCharacterLevel`, which returns
the string `"[object Object]1"` here. -/
theorem scaleDamage_character_cantrip_steps :
    getCharacterLevel tollTheDeadOfCharacter.actorItems = some (.string "[object Object]1") ∧
    scaleDamageCalls (RollRun.create tollTheDeadOfCharacter {} []) 0 false =
      some [{ parts := ["1d8"], scaling := "1d8", times := .nan }] ∧
    rollDamageScaleCalls (RollRun.create tollTheDeadOfCharacter {} [])
        { damageIndex := 0, forceVersatile := some true } =
      some [{ parts := ["1d8"], scaling := "1d8", times := .nan },
            { parts := ["1d12"], scaling := "1d12", times := .nan }] := by
  decide

theorem cantripSteps_number (q : Rat) (n : Int) (hlow : (n : Rat) * 6 ≤ q + 1)
    (hhigh : q + 1 < ((n : Rat) + 1) * 6) : cantripSteps (.number q) = .count n := by
  show Steps.count ⌊(q + 1) / 6⌋ = .count n
  congr 1
  rw [Int.floor_eq_iff]
  constructor
  · rw [le_div_iff₀ (by norm_num)]
    exact hlow
  · rw [div_lt_iff₀ (by norm_num)]
    exact hhigh

/-- An example for C25: the step counts for creatures of challenge rating
1/2, 1, 5 and 11, and the calls for a spell of level 1 cast with a slot of
level 3 and of level 1. -/
theorem scaleDamageCalls_examples :
    cantripSteps (.number (1 / 2)) = .count 0 ∧
    cantripSteps (.number 1) = .count 0 ∧
    cantripSteps (.number 5) = .count 1 ∧
    cantripSteps (.number 11) = .count 2 ∧
    scaleDamageCalls (RollRun.create chromaticOrb { slotLevel := some 3 } []) 0 false =
      some [{ parts := ["3d8"], scaling := "1d8", times := .count 2 }] ∧
    scaleDamageCalls (RollRun.create chromaticOrb { slotLevel := some 3 } []) 0 true =
      some [{ parts := ["3d8"], scaling := "1d8", times := .count 2 },
            { parts := ["3d10"], scaling := "3d10", times := .count 2 }] ∧
    scaleDamageCalls (RollRun.create chromaticOrb { slotLevel := some 1 } []) 0 false =
      some [] := by
  refine ⟨cantripSteps_number _ 0 (by norm_num) (by norm_num),
    cantripSteps_number _ 0 (by norm_num) (by norm_num),
    cantripSteps_number _ 1 (by norm_num) (by norm_num),
    cantripSteps_number _ 2 (by norm_num) (by norm_num), by decide, by decide, by decide⟩

/-! ## Scaling by zero steps and the versatile formula -/

/-- With a step count of 0 (a cantrip whose level gives 0, a spell cast with
a slot of its own level or lower) `scaleDamage` returns the formula of the
damage line, whatever the value of `versatile`. -/
theorem scaleDamage_zero_steps (env : Env) (run : RollRun) (i : Nat) (versatile : Bool)
    (hspell : run.item.type = "spell")
    (hzero : (run.item.scalingMode = "cantrip" ∧ run.item.actorIsCharacter = false ∧
        cantripSteps (.number run.item.actorCr) = .count 0) ∨
      (run.item.scalingMode = "level" ∧ run.params.slotLevelText = none ∧
        ∃ l, run.params.slotLevel = some l ∧ l ≠ 0 ∧ l - run.item.level ≤ 0)) :
    scaleDamage env run i versatile =
      some (some (((run.item.damageParts[i]?).map (·.1)).getD "")) := by
  unfold scaleDamage
  rcases hzero with ⟨hmode, hnpc, hsteps⟩ | ⟨hmode, htext, l, hl, hl0, hle⟩
  · simp [hspell, hmode, hnpc, hsteps]
  · have hne : ¬ (0 < l - run.item.level) := by omega
    simp [hspell, hmode, htext, hl, hl0, hne]

/-- With a step count of 0, a first damage line with a non-empty formula is
rolled with that formula (and the damage bonus, if any), whatever formula
was selected for the line. -/
theorem rollDamage_zero_steps (env : Env) (run : RollRun) (call : DamageCall)
    (part : String × String) (t : Template)
    (hspell : run.item.type = "spell")
    (hzero : (run.item.scalingMode = "cantrip" ∧ run.item.actorIsCharacter = false ∧
        cantripSteps (.number run.item.actorCr) = .count 0) ∨
      (run.item.scalingMode = "level" ∧ run.params.slotLevelText = none ∧
        ∃ l, run.params.slotLevel = some l ∧ l ≠ 0 ∧ l - run.item.level ≤ 0))
    (hline : call.damageIndex = 0)
    (hpart : run.item.damageParts[0]? = some part) (hformula : part.1 ≠ "")
    (hres : (rollDamage env run call).result = .returned t) :
    ∃ base crit, t = .damage
      (part.1 ++ if run.item.damageBonus ≠ "" then "+" ++ run.item.damageBonus else "")
      base crit := by
  have hscale : scaleDamage env
      { run with damageCalls := run.damageCalls ++ [{ item := run.item, call := call }],
                 hasDamage := true } call.damageIndex
      (selectDamageFormula run call part).2 = some (some part.1) := by
    have hframe := scaleDamage_frame env run
      { run with damageCalls := run.damageCalls ++ [{ item := run.item, call := call }],
                 hasDamage := true } call.damageIndex (selectDamageFormula run call part).2
      rfl rfl
    rw [hframe, scaleDamage_zero_steps env run _ _ hspell hzero, hline, hpart]
    rfl
  have hpart' : run.item.damageParts[call.damageIndex]? = some part := by rw [hline]; exact hpart
  unfold rollDamage at hres
  simp only [hpart'] at hres
  split at hres
  · rename_i hempty
    -- the selected formula is the versatile one or the line's own: not empty
    exfalso
    unfold selectDamageFormula at hempty
    dsimp only at hempty
    split at hempty
    · rename_i hv
      simp only [Bool.and_eq_true, decide_eq_true_eq] at hv
      rw [hempty] at hv
      simp at hv
    · exact hformula hempty
  · simp only [applyScaling, hline, if_true] at hres
    rw [hline] at hscale
    simp only [hscale, hformula, ne_eq, not_false_eq_true, if_true] at hres
    unfold rollDamageFormula at hres
    simp only [hline, true_and] at hres
    split at hres
    · split at hres
      · simp at hres
      · simp only [Completion.returned.injEq] at hres
        exact ⟨_, _, hres.symm⟩
    · simp only [Completion.returned.injEq] at hres
      exact ⟨_, _, hres.symm⟩

/-- C24, on the code: with a step count of 0 and the versatile override
active on an item with a versatile formula, the formula rolled for the first
damage line is the line's own formula, not the versatile one that was
selected. For the spell of level 1 cast with a slot of level 1, whose
versatile formula is `3d10`: the formula selected is `3d10`, no call of the
scaling routine is made, and `3d8` is rolled. For the cantrip of a creature
of challenge rating 1, whose step count is `floor((1 + 1) / 6) = 0` and
whose versatile formula is `1d12`: `scaleDamage` called for the versatile
formula returns `1d8`. -/
theorem rollDamage_zero_steps_drops_versatile :
    (selectDamageFormula (RollRun.create chromaticOrb { slotLevel := some 1 } [])
      { damageIndex := 0, forceVersatile := some true } ("3d8", "acid")) = ("3d10", true) ∧
    rollDamageScaleCalls (RollRun.create chromaticOrb { slotLevel := some 1 } [])
      { damageIndex := 0, forceVersatile := some true } = some [] ∧
    (fieldToTemplate quiver (RollRun.create chromaticOrb { slotLevel := some 1 } [])
      (.damage (some { index := some (.single 0), versatile := some true }))).run.templates =
      [.damage "3d8" (Roll.ofEvaluation (quiver.source 0)) none] ∧
    (selectDamageFormula (RollRun.create tollTheDead {} [])
      { damageIndex := 0, forceVersatile := some true } ("1d8", "necrotic")) = ("1d12", true) ∧
    cantripSteps (.number tollTheDead.actorCr) = .count 0 ∧
    scaleDamage quiver (RollRun.create tollTheDead {} []) 0 true = some (some "1d8") := by
  have hsteps : cantripSteps (.number tollTheDead.actorCr) = .count 0 :=
    cantripSteps_number _ 0 (by norm_num [tollTheDead]) (by norm_num [tollTheDead])
  refine ⟨by decide, by decide, by decide, by decide, hsteps, ?_⟩
  exact scaleDamage_zero_steps quiver (RollRun.create tollTheDead {} []) 0 true rfl
    (Or.inl ⟨rfl, rfl, hsteps⟩)

/-- An example for C24: without scaling (a weapon) and with a positive step
count the versatile formula is the one rolled; with a step count of 0 and no
versatile override the line's own formula is rolled. -/
theorem rollDamage_versatile_examples :
    (rollDamage quiver (RollRun.create longsword {} [])
      { damageIndex := 0, forceVersatile := some true }).result =
      .returned (.damage "1d10" (Roll.ofEvaluation (quiver.source 0)) none) ∧
    (rollDamage quiver (RollRun.create chromaticOrb { slotLevel := some 2 } [])
      { damageIndex := 0, forceVersatile := some true }).result =
      .returned (.damage "3d10" (Roll.ofEvaluation (quiver.source 0)) none) ∧
    (rollDamage quiver (RollRun.create chromaticOrb { slotLevel := some 1 } [])
      { damageIndex := 0 }).result =
      .returned (.damage "3d8" (Roll.ofEvaluation (quiver.source 0)) none) := by
  decide

/-! ## The crit formula -/

/-- C28, on the code: for the base formula `1d8+10d6` the crit formula is
`1d80d6`: after the sign, the digits `10` are followed by `d`, the matcher
gives back the `0`, and `+1` is removed. A flat modifier that leads the
formula is kept, since the pattern starts with a sign. -/
theorem critFormula_damages_dice_count :
    critFormula "1d8+10d6" = "1d80d6" ∧
    critFormula "2d6+3+12d4" = "2d62d4" ∧
    critFormula "5+1d6" = "5+1d6" ∧
    critFormula "@mod+1d6" = "@mod+1d6" := by
  decide

/-- An example for C28: formulas on which the flat modifiers are removed and
the dice terms are kept. -/
theorem critFormula_examples :
    critFormula "1d8+5" = "1d8" ∧
    critFormula "1d8+1d6" = "1d8+1d6" ∧
    critFormula "2d6+3+1d4-@mod+@abilities.str.mod" = "2d6+1d4" ∧
    critFormula "12d6+3" = "12d6" ∧
    critFormula "1d8 + 3 - 1d4" = "1d8  - 1d4" ∧
    critFormula "3+2" = "3" := by
  decide

/-! ## The pipeline leaves `rolled` and `content` alone -/

theorem rollDamageFormula_presentation (env : Env) (run : RollRun) (call : DamageCall)
    (f : String) :
    (rollDamageFormula env run call f).run.rolled = run.rolled ∧
    (rollDamageFormula env run call f).run.content = run.content := by
  unfold rollDamageFormula
  dsimp only
  repeat' split
  all_goals exact ⟨rfl, rfl⟩

theorem rollDamage_presentation (env : Env) (run : RollRun) (call : DamageCall) :
    (rollDamage env run call).run.rolled = run.rolled ∧
    (rollDamage env run call).run.content = run.content := by
  unfold rollDamage
  dsimp only
  repeat' split
  all_goals first | exact ⟨rfl, rfl⟩ | exact rollDamageFormula_presentation env _ call _

theorem damageLoop_presentation (env : Env) (isAll : Bool) (v : Option Bool)
    (c : Option ForceCrit) (ctx : Option String) (indices : List Nat) (i : Nat) (run : RollRun) :
    (damageLoop env isAll v c ctx indices i run).run.rolled = run.rolled ∧
    (damageLoop env isAll v c ctx indices i run).run.content = run.content := by
  induction indices generalizing i run with
  | nil => exact ⟨rfl, rfl⟩
  | cons idx rest ih =>
    unfold damageLoop
    dsimp only
    split
    · exact ⟨(ih _ _).1.trans (rollDamage_presentation env run _).1,
        (ih _ _).2.trans (rollDamage_presentation env run _).2⟩
    · exact rollDamage_presentation env run _
    · exact rollDamage_presentation env run _

theorem rollAttack_presentation (env : Env) (run : RollRun) (args : AttackArgs) :
    (rollAttack env run args).run.rolled = run.rolled ∧
    (rollAttack env run args).run.content = run.content := by
  unfold rollAttack
  dsimp only
  split
  · exact ⟨rfl, rfl⟩
  · split <;> exact ⟨rfl, rfl⟩

theorem rollTool_presentation (env : Env) (run : RollRun) (args : CheckArgs) :
    (rollTool env run args).run.rolled = run.rolled ∧
    (rollTool env run args).run.content = run.content := by
  unfold rollTool
  dsimp only
  repeat' split
  all_goals exact ⟨rfl, rfl⟩

theorem rollOther_presentation (env : Env) (run : RollRun) :
    (rollOther env run).run.rolled = run.rolled ∧
    (rollOther env run).run.content = run.content := by
  unfold rollOther
  dsimp only
  repeat' split
  all_goals exact ⟨rfl, rfl⟩

theorem rollCritExtra_presentation (env : Env) (run : RollRun) :
    (rollCritExtra env run).run.rolled = run.rolled ∧
    (rollCritExtra env run).run.content = run.content := by
  unfold rollCritExtra
  split
  · exact rollDamage_presentation env run _
  · exact ⟨rfl, rfl⟩

theorem pushTemplate_presentation (ran : Ran Template) :
    (pushTemplate ran).run.rolled = ran.run.rolled ∧
    (pushTemplate ran).run.content = ran.run.content := by
  unfold pushTemplate
  split <;> exact ⟨rfl, rfl⟩

theorem fieldToTemplateFuel_presentation (env : Env) (fuel : Nat) (run : RollRun)
    (field : Field) :
    (fieldToTemplateFuel env fuel run field).run.rolled = run.rolled ∧
    (fieldToTemplateFuel env fuel run field).run.content = run.content := by
  induction fuel generalizing run field with
  | zero => exact ⟨rfl, rfl⟩
  | succ fuel ih =>
    have hloop : ∀ isAll v c ctx indices,
        (damageLoop env isAll v c ctx indices 0 run).run.rolled = run.rolled ∧
        (damageLoop env isAll v c ctx indices 0 run).run.content = run.content :=
      fun isAll v c ctx indices => damageLoop_presentation env isAll v c ctx indices 0 run
    cases field with
    | attack args =>
      simp only [fieldToTemplateFuel]
      exact ⟨(pushTemplate_presentation _).1.trans (rollAttack_presentation env run args).1,
        (pushTemplate_presentation _).2.trans (rollAttack_presentation env run args).2⟩
    | check args =>
      simp only [fieldToTemplateFuel]
      exact ⟨(pushTemplate_presentation _).1.trans (rollTool_presentation env run args).1,
        (pushTemplate_presentation _).2.trans (rollTool_presentation env run args).2⟩
    | damage args =>
      simp only [fieldToTemplateFuel]
      split
      · exact ⟨rfl, rfl⟩
      · split
        · split
          · split
            · exact ⟨(ih _ _).1.trans (hloop _ _ _ _ _).1, (ih _ _).2.trans (hloop _ _ _ _ _).2⟩
            · exact ⟨(ih _ _).1.trans (hloop _ _ _ _ _).1, (ih _ _).2.trans (hloop _ _ _ _ _).2⟩
            · exact ⟨(ih _ _).1.trans (hloop _ _ _ _ _).1, (ih _ _).2.trans (hloop _ _ _ _ _).2⟩
          · exact hloop _ _ _ _ _
        · exact hloop _ _ _ _ _
        · exact hloop _ _ _ _ _
    | savedc abl dc =>
      simp only [fieldToTemplateFuel, saveRollButton]
      split <;> exact pushTemplate_presentation _
    | other =>
      simp only [fieldToTemplateFuel]
      split
      · exact ⟨(pushTemplate_presentation _).1.trans (rollOther_presentation env run).1,
          (pushTemplate_presentation _).2.trans (rollOther_presentation env run).2⟩
      · exact ⟨rfl, rfl⟩
    | custom args =>
      simp only [fieldToTemplateFuel]
      split <;> exact ⟨rfl, rfl⟩
    | desc =>
      simp only [fieldToTemplateFuel]
      split <;> exact ⟨rfl, rfl⟩
    | text args =>
      simp only [fieldToTemplateFuel]
      repeat' split
      all_goals exact ⟨rfl, rfl⟩
    | flavor text => exact ⟨rfl, rfl⟩
    | crit =>
      simp only [fieldToTemplateFuel]
      exact ⟨(pushTemplate_presentation _).1.trans (rollCritExtra_presentation env run).1,
        (pushTemplate_presentation _).2.trans (rollCritExtra_presentation env run).2⟩
    | unknown => exact ⟨rfl, rfl⟩

theorem fieldsLoop_presentation (env : Env) (fields : List Field) (run : RollRun) :
    (fieldsLoop env fields run).run.rolled = run.rolled ∧
    (fieldsLoop env fields run).run.content = run.content := by
  induction fields generalizing run with
  | nil => exact ⟨rfl, rfl⟩
  | cons field rest ih =>
    have h1 := fieldToTemplateFuel_presentation env 2 run field
    unfold fieldsLoop
    dsimp only
    split
    · exact ⟨(ih _).1.trans h1.1, (ih _).2.trans h1.2⟩
    · exact h1
    · exact h1

theorem allFieldsToTemplates_presentation (env : Env) (run : RollRun) :
    (allFieldsToTemplates env run).run.rolled = run.rolled ∧
    (allFieldsToTemplates env run).run.content = run.content := by
  have h1 := fieldsLoop_presentation env run.fields run
  unfold allFieldsToTemplates
  dsimp only
  split
  · split
    · have h2 := fieldToTemplateFuel_presentation env 2 (fieldsLoop env run.fields run).run .crit
      exact ⟨h2.1.trans h1.1, h2.2.trans h1.2⟩
    · exact h1
  · exact h1
  · exact h1

/-! ## The body of `roll()` on an error, and the call of line 423 -/

theorem rollPipeline_error (env : Env) (run : RollRun) (configured : Option Configured) :
    ((rollPipeline env run configured).result = .returned .error ↔
      ∃ c, (rollPipeline env run configured).consumed = some c ∧ c.output = .error) ∧
    ((rollPipeline env run configured).result = .returned .error →
      (rollPipeline env run configured).run.rolled = run.rolled ∧
      (rollPipeline env run configured).run.content = run.content ∧
      (rollPipeline env run configured).deleted = false) ∧
    (rollPipeline env run configured).configured = configured := by
  have hp := allFieldsToTemplates_presentation env run
  unfold rollPipeline
  dsimp only
  split
  · split
    · rename_i herr
      exact ⟨⟨fun _ => ⟨_, rfl, herr⟩, fun _ => rfl⟩, fun _ => ⟨hp.1, hp.2, rfl⟩, rfl⟩
    · rename_i hne
      refine ⟨⟨fun h => by simp at h, fun h => ?_⟩, fun h => by simp at h, rfl⟩
      obtain ⟨c, hc, he⟩ := h
      simp only [Option.some.injEq] at hc
      subst hc
      exact absurd he hne
  · exact ⟨⟨fun h => by simp at h, fun h => by simp at h⟩, fun h => by simp at h, rfl⟩
  · exact ⟨⟨fun h => by simp at h, fun h => by simp at h⟩, fun h => by simp at h, rfl⟩

theorem setAmmo_frame (env : Env) (run : RollRun) :
    (setAmmo env run).rolled = run.rolled ∧ (setAmmo env run).content = run.content ∧
    (setAmmo env run).templates = run.templates ∧ (setAmmo env run).dicePool = run.dicePool ∧
    (setAmmo env run).params = run.params ∧ (setAmmo env run).item = run.item ∧
    (setAmmo env run).fields = run.fields := by
  unfold setAmmo
  split <;> exact ⟨rfl, rfl, rfl, rfl, rfl, rfl, rfl⟩

theorem rollBody_error (env : Env) (run : RollRun) :
    ((rollBody env run).result = .returned .error ↔
      ((rollBody env run).configured = some .error ∨
        ∃ c, (rollBody env run).consumed = some c ∧ c.output = .error)) ∧
    ((rollBody env run).result = .returned .error →
      (rollBody env run).run.rolled = run.rolled ∧ (rollBody env run).run.content = run.content ∧
      (rollBody env run).deleted = false) ∧
    ((rollBody env run).configured = some .error →
      (rollBody env run).consumed = none ∧ (rollBody env run).run.templates = run.templates ∧
      (rollBody env run).run.dicePool = run.dicePool) := by
  obtain ⟨hrolled, hcontent, htemplates, hpool, -, -, -⟩ := setAmmo_frame env run
  unfold rollBody
  dsimp only
  split
  · split
    · refine ⟨⟨fun h => by simp at h, fun h => ?_⟩, fun h => by simp at h, fun h => by simp at h⟩
      rcases h with h | ⟨c, hc, -⟩
      · simp at h
      · simp at hc
    · exact ⟨⟨fun _ => Or.inl rfl, fun _ => rfl⟩, fun _ => ⟨hrolled, hcontent, rfl⟩,
        fun _ => ⟨rfl, htemplates, hpool⟩⟩
    · rename_i config hconfig
      obtain ⟨h1, h2, h3⟩ := rollPipeline_error env
        { setAmmo env run with params := (setAmmo env run).params.withSlotLevel config.level }
        (some (.done config))
      refine ⟨⟨fun h => Or.inr (h1.mp h), fun h => ?_⟩, fun h => ?_, fun h => ?_⟩
      · rcases h with h | h
        · rw [h3] at h
          simp at h
        · exact h1.mpr h
      · obtain ⟨a, b, c⟩ := h2 h
        exact ⟨a.trans hrolled, b.trans hcontent, c⟩
      · rw [h3] at h
        simp at h
  · obtain ⟨h1, h2, h3⟩ := rollPipeline_error env (setAmmo env run) none
    refine ⟨⟨fun h => Or.inr (h1.mp h), fun h => ?_⟩, fun h => ?_, fun h => ?_⟩
    · rcases h with h | h
      · rw [h3] at h
        simp at h
      · exact h1.mpr h
    · obtain ⟨a, b, c⟩ := h2 h
      exact ⟨a.trans hrolled, b.trans hcontent, c⟩
    · rw [h3] at h
      simp at h

theorem roll_threw (env : Env) (run : RollRun) :
    roll env run =
      { run := run, result := .threw, configured := none, consumed := none, deleted := false } :=
  rfl

theorem toMessage_threw (env : Env) (run : RollRun) (hfresh : run.rolled = false) :
    (toMessage env run).result = .threw ∧ (toMessage env run).created = none ∧
    (toMessage env run).flushed = false ∧ (toMessage env run).run = run := by
  unfold toMessage
  simp only [hfresh, Bool.false_eq_true, if_false, roll_threw]
  exact ⟨trivial, trivial, trivial, trivial⟩

/-! ## The ammo substitution over a whole run -/

theorem rollAttack_item_ammo (env : Env) (run : RollRun) (args : AttackArgs) :
    (rollAttack env run args).run.item = run.item ∧
    (rollAttack env run args).run.ammo = run.ammo := by
  unfold rollAttack
  dsimp only
  split
  · exact ⟨rfl, rfl⟩
  · split <;> exact ⟨rfl, rfl⟩

theorem rollTool_item_ammo (env : Env) (run : RollRun) (args : CheckArgs) :
    (rollTool env run args).run.item = run.item ∧
    (rollTool env run args).run.ammo = run.ammo := by
  unfold rollTool
  dsimp only
  repeat' split
  all_goals exact ⟨rfl, rfl⟩

theorem rollOther_item_ammo (env : Env) (run : RollRun) :
    (rollOther env run).run.item = run.item ∧ (rollOther env run).run.ammo = run.ammo := by
  unfold rollOther
  dsimp only
  repeat' split
  all_goals exact ⟨rfl, rfl⟩

theorem pushTemplate_item_ammo (ran : Ran Template) :
    (pushTemplate ran).run.item = ran.run.item ∧ (pushTemplate ran).run.ammo = ran.run.ammo := by
  unfold pushTemplate
  split <;> exact ⟨rfl, rfl⟩

theorem pushTemplate_returned (ran : Ran Template) (b : Bool)
    (h : (pushTemplate ran).result = .returned b) : ∃ t, ran.result = .returned t := by
  unfold pushTemplate at h
  split at h
  · rename_i t ht
    exact ⟨t, ht⟩
  · simp at h
  · simp at h

/-- A field that is no damage request, when its processing returns: the
invocations of `rollDamage` it makes are `fieldCalls`, and the item and the
ammo substitution are as before. -/
theorem fieldToTemplate_plain (env : Env) (run : RollRun) (field : Field) (b : Bool)
    (hplain : field.isDamage = false)
    (hret : (fieldToTemplate env run field).result = .returned b) :
    (fieldToTemplate env run field).run.damageCalls =
      run.damageCalls ++ fieldCalls run.item field ∧
    (fieldToTemplate env run field).run.item = run.item ∧
    (fieldToTemplate env run field).run.ammo = run.ammo := by
  by_cases hcrit : field = .crit
  · subst hcrit
    have hfield : fieldToTemplate env run .crit = pushTemplate (rollCritExtra env run) := rfl
    rw [hfield] at hret ⊢
    obtain ⟨t, ht⟩ := pushTemplate_returned _ b hret
    rw [(pushTemplate_damage_same _).2, (pushTemplate_item_ammo _).1,
      (pushTemplate_item_ammo _).2]
    unfold rollCritExtra at ht ⊢
    unfold fieldCalls
    split
    · exact ⟨rollDamage_calls env run _, rollDamage_item env run _, rollDamage_ammo env run _⟩
    · exact ⟨by simp, rfl, rfl⟩
  · have hsame := fieldToTemplateFuel_damage_same env 2 run field hplain hcrit
    have hcalls : fieldCalls run.item field = [] := by
      cases field with
      | damage args => simp [Field.isDamage] at hplain
      | crit => exact absurd rfl hcrit
      | _ => rfl
    refine ⟨by rw [hcalls, List.append_nil]; exact hsame.2, ?_⟩
    unfold fieldToTemplate
    cases field with
    | attack args =>
      simp only [fieldToTemplateFuel]
      exact ⟨(pushTemplate_item_ammo _).1.trans (rollAttack_item_ammo env run args).1,
        (pushTemplate_item_ammo _).2.trans (rollAttack_item_ammo env run args).2⟩
    | check args =>
      simp only [fieldToTemplateFuel]
      exact ⟨(pushTemplate_item_ammo _).1.trans (rollTool_item_ammo env run args).1,
        (pushTemplate_item_ammo _).2.trans (rollTool_item_ammo env run args).2⟩
    | damage args => simp [Field.isDamage] at hplain
    | savedc abl dc =>
      simp only [fieldToTemplateFuel, saveRollButton]
      split <;> exact pushTemplate_item_ammo _
    | other =>
      simp only [fieldToTemplateFuel]
      split
      · exact ⟨(pushTemplate_item_ammo _).1.trans (rollOther_item_ammo env run).1,
          (pushTemplate_item_ammo _).2.trans (rollOther_item_ammo env run).2⟩
      · exact ⟨rfl, rfl⟩
    | custom args =>
      simp only [fieldToTemplateFuel]
      split <;> exact ⟨rfl, rfl⟩
    | desc =>
      simp only [fieldToTemplateFuel]
      split <;> exact ⟨rfl, rfl⟩
    | text args =>
      simp only [fieldToTemplateFuel]
      repeat' split
      all_goals exact ⟨rfl, rfl⟩
    | flavor text => exact ⟨rfl, rfl⟩
    | crit => exact absurd rfl hcrit
    | unknown => exact ⟨rfl, rfl⟩

/-- A damage request without an argument object throws. -/
theorem fieldToTemplate_damage_none (env : Env) (run : RollRun) :
    (fieldToTemplate env run (.damage none)).result = .threw := by
  simp [fieldToTemplate, fieldToTemplateFuel, indexArray]

/-- A damage request processed with no ammo substitution active, when it
returns: its invocations are those on its own index array. -/
theorem fieldToTemplate_damage_no_ammo (env : Env) (run : RollRun) (req : DamageRequest)
    (b : Bool) (hammo : run.ammo = none)
    (hret : (fieldToTemplate env run (.damage (some req))).result = .returned b) :
    (fieldToTemplate env run (.damage (some req))).run.damageCalls =
      run.damageCalls ++ fieldCalls run.item (.damage (some req)) ∧
    (fieldToTemplate env run (.damage (some req))).run.item = run.item ∧
    (fieldToTemplate env run (.damage (some req))).run.ammo = none := by
  cases hindex : indexArray run.item req.index with
  | none =>
    rw [fieldToTemplate_damage_no_index env run req hindex] at hret
    simp at hret
  | some index =>
    rw [fieldToTemplate_damage_eq env run req index hindex] at hret ⊢
    have hfield : fieldCalls run.item (.damage (some req)) =
        requestExpansion run.item req index := by
      simp only [fieldCalls, hindex]
    cases hres : (ownLoop env run req index).result with
    | threw => simp [hres] at hret
    | outOfFuel => simp [hres] at hret
    | returned u =>
      cases u
      simp only [hammo]
      have hcalls : (ownLoop env run req index).run.damageCalls =
          run.damageCalls ++ requestExpansion run.item req index :=
        damageLoop_calls env _ _ _ _ index 0 run hres
      refine ⟨by rw [hfield]; exact hcalls, damageLoop_item env _ _ _ _ _ _ _, ?_⟩
      exact (damageLoop_ammo env _ _ _ _ _ _ _).trans hammo

/-- Fields processed with no ammo substitution active, or none of which is a
damage request: when the processing returns, the invocations are
`plainCalls`, and the item and the ammo substitution are as before. -/
theorem fieldsLoop_plain (env : Env) (fields : List Field) (run : RollRun) (b : Bool)
    (hplain : run.ammo = none ∨ ∀ field ∈ fields, field.isDamage = false)
    (hret : (fieldsLoop env fields run).result = .returned b) :
    (fieldsLoop env fields run).run.damageCalls = run.damageCalls ++ plainCalls run.item fields ∧
    (fieldsLoop env fields run).run.item = run.item ∧
    (fieldsLoop env fields run).run.ammo = run.ammo := by
  induction fields generalizing run with
  | nil => exact ⟨by simp [fieldsLoop, plainCalls], rfl, rfl⟩
  | cons field rest ih =>
    unfold fieldsLoop at hret ⊢
    dsimp only at hret ⊢
    split at hret
    · rename_i value hfield
      have hstep : (fieldToTemplate env run field).run.damageCalls =
            run.damageCalls ++ fieldCalls run.item field ∧
          (fieldToTemplate env run field).run.item = run.item ∧
          (fieldToTemplate env run field).run.ammo = run.ammo := by
        cases hd : field.isDamage with
        | false => exact fieldToTemplate_plain env run field value hd hfield
        | true =>
          rcases hplain with hammo | hno
          · cases field with
            | damage args =>
              cases args with
              | none =>
                rw [fieldToTemplate_damage_none] at hfield
                simp at hfield
              | some req =>
                have h := fieldToTemplate_damage_no_ammo env run req value hammo hfield
                exact ⟨h.1, h.2.1, h.2.2.trans hammo.symm⟩
            | _ => simp [Field.isDamage] at hd
          · rw [hno field (List.mem_cons_self _ _)] at hd
            simp at hd
      have hplain' : (fieldToTemplate env run field).run.ammo = none ∨
          ∀ f ∈ rest, f.isDamage = false := by
        rcases hplain with hammo | hno
        · exact Or.inl (hstep.2.2.trans hammo)
        · exact Or.inr (fun f hf => hno f (List.mem_cons_of_mem _ hf))
      obtain ⟨h1, h2, h3⟩ := ih _ hplain' hret
      refine ⟨?_, h2.trans hstep.2.1, h3.trans hstep.2.2⟩
      rw [h1, hstep.1, hstep.2.1, plainCalls, List.append_assoc]
    · simp at hret
    · simp at hret

theorem requestExpansionFrom_item (item : Item) (isAll : Bool) (v : Option Bool)
    (c : Option ForceCrit) (ctx : Option String) (i : Nat) (index : List Nat) :
    ∀ inv ∈ requestExpansionFrom item isAll v c ctx i index, inv.item = item := by
  induction index generalizing i with
  | nil => intro inv h; simp [requestExpansionFrom] at h
  | cons idx more ih =>
    intro inv h
    simp only [requestExpansionFrom, List.mem_cons] at h
    rcases h with h | h
    · rw [h]; rfl
    · exact ih _ inv h

/-- The invocations of `plainCalls` are all made on the item itself. -/
theorem plainCalls_item (item : Item) (fields : List Field) :
    ∀ inv ∈ plainCalls item fields, inv.item = item := by
  induction fields with
  | nil => intro inv h; simp [plainCalls] at h
  | cons field rest ih =>
    intro inv h
    simp only [plainCalls, List.mem_append] at h
    rcases h with h | h
    · cases field with
      | damage args =>
        cases args with
        | none => simp [fieldCalls] at h
        | some req =>
          simp only [fieldCalls] at h
          split at h
          · exact requestExpansionFrom_item item _ _ _ _ _ _ inv h
          · simp at h
      | crit =>
        simp only [fieldCalls] at h
        split at h
        · simp only [List.mem_singleton] at h
          rw [h]
        · simp at h
      | _ => simp [fieldCalls] at h
    · exact ih inv h

theorem plainCalls_append (item : Item) (l m : List Field) :
    plainCalls item (l ++ m) = plainCalls item l ++ plainCalls item m := by
  induction l with
  | nil => rfl
  | cons f rest ih =>
    show fieldCalls item f ++ plainCalls item (rest ++ m) =
      fieldCalls item f ++ plainCalls item rest ++ plainCalls item m
    rw [ih, List.append_assoc]

/-- The run up to and including the first damage request, with an ammo
substitution active, followed by the remaining fields. -/
theorem fieldsLoop_ammo_once (env : Env) (run : RollRun) (a : Item)
    (before after : List Field) (req : DamageRequest) (b : Bool)
    (hammo : run.ammo = some a)
    (hbefore : ∀ field ∈ before, field.isDamage = false)
    (hret : (fieldsLoop env (before ++ .damage (some req) :: after) run).result = .returned b) :
    (fieldsLoop env (before ++ .damage (some req) :: after) run).run.damageCalls =
      run.damageCalls ++ plainCalls run.item before ++
        fieldCalls run.item (.damage (some req)) ++
        allExpansion a (some false) req.crit (some ("[" ++ a.name ++ "]")) ++
        plainCalls run.item after ∧
    (fieldsLoop env (before ++ .damage (some req) :: after) run).run.item = run.item ∧
    (fieldsLoop env (before ++ .damage (some req) :: after) run).run.ammo = none := by
  induction before generalizing run with
  | nil =>
    simp only [List.nil_append] at hret ⊢
    unfold fieldsLoop at hret ⊢
    dsimp only at hret ⊢
    split at hret
    · rename_i value hfield
      have hvalue : value = true := by
        cases hindex : indexArray run.item req.index with
        | none =>
          rw [fieldToTemplate_damage_no_index env run req hindex] at hfield
          simp at hfield
        | some index =>
          rw [fieldToTemplate_damage_eq env run req index hindex] at hfield
          revert hfield
          repeat' split
          all_goals simp
      subst hvalue
      cases hindex : indexArray run.item req.index with
      | none =>
        rw [fieldToTemplate_damage_no_index env run req hindex] at hfield
        simp at hfield
      | some index =>
        obtain ⟨hcalls, -, hitem, hnone⟩ :=
          damage_with_ammo env run req index a hindex hammo hfield
        obtain ⟨h1, h2, h3⟩ := fieldsLoop_plain env after _ b (Or.inl hnone) hret
        refine ⟨?_, h2.trans hitem, h3.trans hnone⟩
        rw [h1, hcalls, hitem]
        simp only [plainCalls, fieldCalls, hindex, List.append_nil]
    · simp at hret
    · simp at hret
  | cons field rest ih =>
    simp only [List.cons_append] at hret ⊢
    unfold fieldsLoop at hret ⊢
    dsimp only at hret ⊢
    split at hret
    · rename_i value hfield
      obtain ⟨hcalls, hitem, hsame⟩ := fieldToTemplate_plain env run field value
        (hbefore field (List.mem_cons_self _ _)) hfield
      obtain ⟨h1, h2, h3⟩ := ih _ (hsame.trans hammo)
        (fun f hf => hbefore f (List.mem_cons_of_mem _ hf)) hret
      refine ⟨?_, h2.trans hitem, h3⟩
      rw [h1, hcalls, hitem]
      simp only [plainCalls, List.append_assoc]
    · simp at hret
    · simp at hret

/-- C26, on the code: a roll of the empty wand that asks to consume a use,
and a roll of a spell whose dialog is closed. `consumeCharge`, respectively
`configureSpell`, reports an error, and lines 431-489 of `roll()` would
return `"error"`; but `roll()` throws on line 423, before either is called,
so it rejects instead of returning `"error"`, and `toMessage()` rejects
with it. The instance is left as it was: no content is rendered, `rolled`
stays false, no chat message is created and the dice pool is not flushed. -/
theorem roll_throws_before_error :
    ((consumeCharge quiver (chargeRun emptyWand { use := true })).output = .error ∧
      (rollBody quiver (chargeRun emptyWand { use := true })).result = .returned .error ∧
      (roll quiver (chargeRun emptyWand { use := true })).result = .threw ∧
      (roll quiver (chargeRun emptyWand { use := true })).consumed = none ∧
      (roll quiver (chargeRun emptyWand { use := true })).run.rolled = false ∧
      (roll quiver (chargeRun emptyWand { use := true })).run.content = none ∧
      (toMessage quiver (chargeRun emptyWand { use := true })).result = .threw ∧
      (toMessage quiver (chargeRun emptyWand { use := true })).created = none ∧
      (toMessage quiver (chargeRun emptyWand { use := true })).flushed = false) ∧
    (configureSpell quiver chromaticOrb = .error ∧
      (rollBody quiver (RollRun.create chromaticOrb {} [])).result = .returned .error ∧
      (roll quiver (RollRun.create chromaticOrb {} [])).result = .threw ∧
      (roll quiver (RollRun.create chromaticOrb {} [])).configured = none ∧
      (toMessage quiver (RollRun.create chromaticOrb {} [])).result = .threw ∧
      (toMessage quiver (RollRun.create chromaticOrb {} [])).created = none ∧
      (toMessage quiver (RollRun.create chromaticOrb {} [])).flushed = false) := by
  decide

/-- An example for C26, on lines 431-489 of `roll()`: a spell of level 1
whose dialog is closed gives `"error"` before any field is processed; the
empty wand gives `"error"` after its damage field was processed, with
`rolled` still false; a dagger gets its content rendered. -/
theorem rollBody_examples :
    ((rollBody quiver (RollRun.create chromaticOrb {}
        [.damage (some { index := some (.single 0) })])).result = .returned .error ∧
      (rollBody quiver (RollRun.create chromaticOrb {}
        [.damage (some { index := some (.single 0) })])).run.templates = []) ∧
    ((rollBody quiver (RollRun.create { emptyWand with damageParts := [("1d4", "force")] }
        { useCharge := { use := true } }
        [.damage (some { index := some (.single 0) })])).result = .returned .error ∧
      (rollBody quiver (RollRun.create { emptyWand with damageParts := [("1d4", "force")] }
        { useCharge := { use := true } }
        [.damage (some { index := some (.single 0) })])).run.templates =
        [.damage "1d4" (Roll.ofEvaluation (quiver.source 0)) none] ∧
      (rollBody quiver (RollRun.create { emptyWand with damageParts := [("1d4", "force")] }
        { useCharge := { use := true } }
        [.damage (some { index := some (.single 0) })])).run.rolled = false) ∧
    ((rollBody quiver (RollRun.create plainDagger {}
        [.damage (some { index := some (.single 0) })])).run.content =
        some { isCritical := false
               templates := [.damage "1d4" (Roll.ofEvaluation (quiver.source 0)) none] } ∧
      (rollBody quiver (RollRun.create plainDagger {}
        [.damage (some { index := some (.single 0) })])).run.rolled = true) := by
  decide

/-- C29. A run with an ammo substitution `a` active whose first damage
request is `req`, the fields `before` it being no damage requests, when the
processing of all fields returns. The invocations of `rollDamage` are those
of the fields on the item itself, with one invocation for each damage line
of `a` placed right after the own lines of the first damage request and
nowhere else; the fields after it are processed as with no substitution; at
the end the substitution is gone and the item is the original one. -/
theorem ammo_damage_once (env : Env) (run : RollRun) (a : Item)
    (before after : List Field) (req : DamageRequest) (b : Bool)
    (hammo : run.ammo = some a)
    (hbefore : ∀ field ∈ before, field.isDamage = false)
    (hret : (fieldsLoop env (before ++ .damage (some req) :: after) run).result = .returned b) :
    (fieldsLoop env (before ++ .damage (some req) :: after) run).run.damageCalls =
      run.damageCalls ++ plainCalls run.item before ++
        fieldCalls run.item (.damage (some req)) ++
        allExpansion a (some false) req.crit (some ("[" ++ a.name ++ "]")) ++
        plainCalls run.item after ∧
    (∀ inv ∈ plainCalls run.item before ++ fieldCalls run.item (.damage (some req)) ++
        plainCalls run.item after, inv.item = run.item) ∧
    (fieldsLoop env (before ++ .damage (some req) :: after) run).run.item = run.item ∧
    (fieldsLoop env (before ++ .damage (some req) :: after) run).run.ammo = none := by
  obtain ⟨h1, h2, h3⟩ := fieldsLoop_ammo_once env run a before after req b hammo hbefore hret
  refine ⟨h1, ?_, h2, h3⟩
  intro inv hinv
  have hall := plainCalls_item run.item (before ++ .damage (some req) :: after)
  apply hall
  rw [plainCalls_append]
  simp only [plainCalls]
  simpa [List.append_assoc] using hinv

/-- Witness for C29: the longbow shot with fire arrows, with two damage
requests for its line 0. -/
theorem ammo_damage_once_witness :
    (twoShots.ammo = some fireArrows ∧
      (∀ field ∈ ([] : List Field), field.isDamage = false) ∧
      (fieldsLoop quiver ([] ++ .damage (some { index := some (.single 0) }) ::
        [.damage (some { index := some (.single 0) })]) twoShots).result = .returned true) ∧
    ((fieldsLoop quiver ([] ++ .damage (some { index := some (.single 0) }) ::
        [.damage (some { index := some (.single 0) })]) twoShots).run.damageCalls =
      twoShots.damageCalls ++ plainCalls twoShots.item [] ++
        fieldCalls twoShots.item (.damage (some { index := some (.single 0) })) ++
        allExpansion fireArrows (some false) none (some ("[" ++ fireArrows.name ++ "]")) ++
        plainCalls twoShots.item [.damage (some { index := some (.single 0) })] ∧
    (∀ inv ∈ plainCalls twoShots.item [] ++
        fieldCalls twoShots.item (.damage (some { index := some (.single 0) })) ++
        plainCalls twoShots.item [.damage (some { index := some (.single 0) })],
      inv.item = twoShots.item) ∧
    (fieldsLoop quiver ([] ++ .damage (some { index := some (.single 0) }) ::
      [.damage (some { index := some (.single 0) })]) twoShots).run.item = twoShots.item ∧
    (fieldsLoop quiver ([] ++ .damage (some { index := some (.single 0) }) ::
      [.damage (some { index := some (.single 0) })]) twoShots).run.ammo = none) :=
  ⟨⟨rfl, fun field h => by simp at h, by decide⟩,
    ammo_damage_once quiver twoShots fireArrows []
      [.damage (some { index := some (.single 0) })] { index := some (.single 0) } true
      rfl (fun field h => by simp at h) (by decide)⟩

/-- An example for C29: lines 431-436 of `roll()` set the substitution for
the linked longbow; of its two damage requests the first is followed by the
two lines of the fire arrows, the second is not. -/
theorem rollBody_two_shots :
    (setAmmo archerEnv twoShotsRoll).ammo = some fireArrows ∧
    (rollBody archerEnv twoShotsRoll).run.templates =
      [.damage "1d8" (Roll.ofEvaluation (quiver.source 0)) none,
       .damage "1" (Roll.ofEvaluation (quiver.source 1)) none,
       .damage "1d4" (Roll.ofEvaluation (quiver.source 2)) none,
       .damage "1d8" (Roll.ofEvaluation (quiver.source 3)) none] ∧
    (rollBody archerEnv twoShotsRoll).run.damageCalls.map
        (fun inv => (inv.item.name, inv.call.damageIndex, inv.call.customContext)) =
      [("Longbow", 0, none), ("Fire Arrows", 0, some "[Fire Arrows]"),
       ("Fire Arrows", 1, some "[Fire Arrows]"), ("Longbow", 0, none)] ∧
    (rollBody archerEnv twoShotsRoll).run.ammo = none := by
  decide

end BetterRolls
